import Mathlib

/-!
# IPFIX collecting process (pkg/collector/process.go)

A shallow embedding of the message decoder and the template cache of the
collecting process, followed by theorems about them.

* A `bytes.Buffer` is the list of its unread bytes.
* Unsigned machine integers are natural numbers; every value the decoder
  produces is the big-endian value of at most four bytes.
* A Go call that can return an error or panic returns a `Result`; a method
  with a pointer receiver also returns the collecting process it leaves behind.
-/

namespace Collector

/-- One octet of a message buffer (Go `byte`). -/
abbrev Byte := Fin 256

/-- Errors built by the collector, one constructor per `fmt.Errorf` site or
`io` error value. -/
inductive Err where
  /-- The value io.EOF: nothing could be read. -/
  | EOF
  /-- The value io.ErrUnexpectedEOF: the buffer ended inside a value. -/
  | ErrUnexpectedEOF
  /-- "Error in decoding message: %v". -/
  | decodingMessage (cause : Err)
  /-- "Collector only supports IPFIX (v10). Invalid version %d received." -/
  | invalidVersion (version : Nat)
  /-- "Template %d with obsDomainID %d does not exist" (decodeDataRecord). -/
  | templateNotExist (templateID obsDomainID : Nat)
  /-- "Template %d with obsDomainID %d does not exist." (getTemplate). -/
  | templateLookupFailed (templateID obsDomainID : Nat)
  deriving DecidableEq, Repr

/-- Outcome of a Go call: a value, a returned error, or a run-time panic. -/
inductive Result (α : Type) where
  | ok (val : α)
  | error (e : Err)
  | runtimePanic
  deriving DecidableEq, Repr

structure TemplateField where
  ElementID : Nat
  ElementLength : Nat
  EnterpriseID : Nat
  deriving DecidableEq, Repr

structure DataField where
  DataType : Nat
  Value : List Byte
  deriving DecidableEq, Repr

structure FlowSetHeader where
  ID : Nat
  Length : Nat
  deriving DecidableEq, Repr

structure TemplateFlowSet where
  header : FlowSetHeader
  Records : List TemplateField
  deriving DecidableEq, Repr

structure DataFlowSet where
  header : FlowSetHeader
  Records : List DataField
  deriving DecidableEq, Repr

/-- The dynamic value stored in `Packet.FlowSets` (an `interface{}`): the
decoder stores a `TemplateFlowSet` or a `DataFlowSet`. -/
inductive FlowSets where
  | template (set : TemplateFlowSet)
  | data (set : DataFlowSet)
  deriving DecidableEq, Repr

structure Packet where
  Version : Nat
  BufferLength : Nat
  SeqNumber : Nat
  ObsDomainID : Nat
  ExportTime : Nat
  FlowSets : FlowSets
  deriving DecidableEq, Repr

/-- Modelled from the spec: `entities.InfoElement` lives in package `entities`,
outside the collector's source; the spec gives an Information Element a name, a
data type and a declared length, and identifies it by (enterpriseID,
elementID). -/
structure InfoElement where
  Name : String
  ElementId : Nat
  DataType : Nat
  EnterpriseId : Nat
  Len : Nat
  deriving DecidableEq, Repr

/-- Modelled from the spec: the interface `registry.Registry` lives in package
`registry`, outside the collector's source, so the two lookups the collector
calls are parameters.
`GetIENameFromID` returns the name together with whether an error came back;
`GetInfoElement` returns the element pointer (`none` is the nil pointer)
together with whether an error came back. -/
structure Registry where
  GetIENameFromID : Nat → String × Bool
  GetInfoElement : String → Option InfoElement × Bool

/-- The collecting process: the template cache, a map from obsDomainID to a map
from templateID to the template's fields, and the two registries. The lock and
the UDP worker pool play no part in decoding. -/
structure CollectingProcess where
  templatesMap : Nat → Option (Nat → Option (List TemplateField))
  ianaRegistry : Registry
  antreaRegistry : Registry

/-- Value of `binary.BigEndian` on a byte string. -/
def bigEndian (bs : List Byte) : Nat :=
  bs.foldl (fun acc b => acc * 256 + b.val) 0

/-- Method `bytes.Buffer.Next(n)`: the next `n` bytes, or all of them when
fewer are left, and the buffer advanced past them. -/
def bufferNext (buffer : List Byte) (n : Nat) : List Byte × List Byte :=
  (buffer.take n, buffer.drop n)

/-- Function `binary.Read` of a value of `n` bytes from a `bytes.Buffer`,
through `io.ReadFull`: with enough bytes it yields them; otherwise it drains
the buffer and fails with io.EOF when nothing was left and with
io.ErrUnexpectedEOF when something was. On failure the destination keeps its
value, which is zero at every call site. -/
def binaryRead (buffer : List Byte) (n : Nat) : Option Err × List Byte × List Byte :=
  if n ≤ buffer.length then (none, buffer.take n, buffer.drop n)
  else if buffer.length = 0 then (some Err.EOF, List.replicate n 0, [])
  else (some Err.ErrUnexpectedEOF, List.replicate n 0, [])

/-- The loop of `decode`: every destination is read in turn and `err` is
overwritten by each read. -/
def decodeLoop : Option Err → List Byte → List Nat → Option Err × List (List Byte) × List Byte
  | err, buffer, [] => (err, [], buffer)
  | _, buffer, n :: sizes =>
    match binaryRead buffer n with
    | (err, value, rest) =>
      match decodeLoop err rest sizes with
      | (last, values, rest') => (last, value :: values, rest')

/-- Function `decode(buffer, output...)`: `sizes` are the byte widths of the
destinations. It returns the error of the last read, the bytes stored in each
destination, and the buffer left. -/
def decode (buffer : List Byte) (sizes : List Nat) : Option Err × List (List Byte) × List Byte :=
  decodeLoop none buffer sizes

/-- Method `addTemplate`: creates the inner map of the observation domain when
it is missing and stores the fields under the template id. -/
def addTemplate (cp : CollectingProcess) (obsDomainID templateID : Nat)
    (fields : List TemplateField) : CollectingProcess :=
  let inner : Nat → Option (List TemplateField) :=
    match cp.templatesMap obsDomainID with
    | some m => m
    | none => fun _ => none
  { cp with
    templatesMap := fun d =>
      if d = obsDomainID then
        some (fun t => if t = templateID then some fields else inner t)
      else cp.templatesMap d }

/-- The two-value map read `cp.templatesMap[obsDomainID][templateID]`; reading
a missing (nil) inner map finds nothing. -/
def lookupTemplate (cp : CollectingProcess) (obsDomainID templateID : Nat) :
    Option (List TemplateField) :=
  match cp.templatesMap obsDomainID with
  | some m => m templateID
  | none => none

/-- Method `getTemplate`. -/
def getTemplate (cp : CollectingProcess) (obsDomainID templateID : Nat) :
    Result (List TemplateField) × CollectingProcess :=
  match lookupTemplate cp obsDomainID templateID with
  | some fields => (Result.ok fields, cp)
  | none => (Result.error (Err.templateLookupFailed templateID obsDomainID), cp)

/-- Method `getDataType`. The local `registry` stays a nil interface when the
enterprise id is neither 0 nor 55829, and calling a method on it panics; the
error of `GetIENameFromID` is only logged; the pointer from `GetInfoElement`
is dereferenced without a check. -/
def getDataType (cp : CollectingProcess) (templateField : TemplateField) : Result Nat :=
  let registry : Option Registry :=
    if templateField.EnterpriseID = 0 then some cp.ianaRegistry
    else if templateField.EnterpriseID = 55829 then some cp.antreaRegistry
    else none
  match registry with
  | none => Result.runtimePanic
  | some r =>
    let fieldName := (r.GetIENameFromID templateField.ElementID).1
    match (r.GetInfoElement fieldName).1 with
    | none => Result.runtimePanic
    | some ie => Result.ok ie.DataType

/-- The field loop of `decodeTemplateRecord`, `n` iterations to go. -/
def decodeTemplateFields : Nat → List Byte → List TemplateField →
    Result (List TemplateField) × List Byte
  | 0, buffer, fields => (Result.ok fields, buffer)
  | n + 1, buffer, fields =>
    match decode buffer [2, 2] with
    | (some err, _, rest) => (Result.error (Err.decodingMessage err), rest)
    | (none, out, rest) =>
      let elementID := out.getD 0 []
      let ElementLength := bigEndian (out.getD 1 [])
      let indicator := elementID.getD 0 0 >>> 7
      if indicator ≠ 1 then
        decodeTemplateFields n rest
          (fields ++ [{ ElementID := bigEndian elementID, ElementLength := ElementLength,
                        EnterpriseID := 0 }])
      else
        match decode rest [4] with
        | (some err, _, rest') => (Result.error (Err.decodingMessage err), rest')
        | (none, out', rest') =>
          let elementID' := elementID.set 0 (elementID.getD 0 0 ^^^ 0x80)
          decodeTemplateFields n rest'
            (fields ++ [{ ElementID := bigEndian elementID', ElementLength := ElementLength,
                          EnterpriseID := bigEndian (out'.getD 0 []) }])

/-- Method `decodeTemplateRecord`. -/
def decodeTemplateRecord (cp : CollectingProcess) (templateBuffer : List Byte)
    (obsDomainID : Nat) : Result (List TemplateField) × CollectingProcess × List Byte :=
  match decode templateBuffer [2, 2] with
  | (some err, _, rest) => (Result.error (Err.decodingMessage err), cp, rest)
  | (none, out, rest) =>
    let templateID := bigEndian (out.getD 0 [])
    let fieldCount := bigEndian (out.getD 1 [])
    match decodeTemplateFields fieldCount rest [] with
    | (Result.ok fields, rest') =>
      (Result.ok fields, addTemplate cp obsDomainID templateID fields, rest')
    | (Result.error e, rest') => (Result.error e, cp, rest')
    | (Result.runtimePanic, rest') => (Result.runtimePanic, cp, rest')

/-- The loop of `decodeDataRecord` over the template's fields. -/
def decodeDataFields (cp : CollectingProcess) : List TemplateField → List Byte →
    List DataField → Result (List DataField) × List Byte
  | [], buffer, fields => (Result.ok fields, buffer)
  | templateField :: template, buffer, fields =>
    let length := templateField.ElementLength
    match bufferNext buffer length with
    | (value, rest) =>
      match getDataType cp templateField with
      | Result.ok dataType =>
        decodeDataFields cp template rest (fields ++ [{ DataType := dataType, Value := value }])
      | Result.error e => (Result.error e, rest)
      | Result.runtimePanic => (Result.runtimePanic, rest)

/-- Method `decodeDataRecord`. -/
def decodeDataRecord (cp : CollectingProcess) (dataBuffer : List Byte)
    (obsDomainID templateID : Nat) : Result (List DataField) × CollectingProcess × List Byte :=
  match getTemplate cp obsDomainID templateID with
  | (Result.ok template, cp') =>
    match decodeDataFields cp' template dataBuffer [] with
    | (r, rest) => (r, cp', rest)
  | (_, cp') => (Result.error (Err.templateNotExist templateID obsDomainID), cp', dataBuffer)

/-- Method `DecodeMessage`: the outcome, the collecting process afterwards and
the unread rest of the message buffer. -/
def DecodeMessage (cp : CollectingProcess) (msgBuffer : List Byte) :
    Result Packet × CollectingProcess × List Byte :=
  match decode msgBuffer [2, 2, 4, 4, 4, 4] with
  | (some err, _, rest) => (Result.error (Err.decodingMessage err), cp, rest)
  | (none, out, rest) =>
    let Version := bigEndian (out.getD 0 [])
    let BufferLength := bigEndian (out.getD 1 [])
    let ExportTime := bigEndian (out.getD 2 [])
    let SeqNumber := bigEndian (out.getD 3 [])
    let ObsDomainID := bigEndian (out.getD 4 [])
    let flowSetHeader : FlowSetHeader :=
      { ID := bigEndian ((out.getD 5 []).take 2), Length := bigEndian ((out.getD 5 []).drop 2) }
    if Version ≠ 10 then (Result.error (Err.invalidVersion Version), cp, rest)
    else if flowSetHeader.ID = 2 then
      match decodeTemplateRecord cp rest ObsDomainID with
      | (Result.ok records, cp', rest') =>
        (Result.ok { Version := Version, BufferLength := BufferLength, SeqNumber := SeqNumber,
                     ObsDomainID := ObsDomainID, ExportTime := ExportTime,
                     FlowSets := FlowSets.template { header := flowSetHeader, Records := records } },
          cp', rest')
      | (Result.error e, cp', rest') => (Result.error (Err.decodingMessage e), cp', rest')
      | (Result.runtimePanic, cp', rest') => (Result.runtimePanic, cp', rest')
    else
      match decodeDataRecord cp rest ObsDomainID flowSetHeader.ID with
      | (Result.ok records, cp', rest') =>
        (Result.ok { Version := Version, BufferLength := BufferLength, SeqNumber := SeqNumber,
                     ObsDomainID := ObsDomainID, ExportTime := ExportTime,
                     FlowSets := FlowSets.data { header := flowSetHeader, Records := records } },
          cp', rest')
      | (Result.error e, cp', rest') => (Result.error (Err.decodingMessage e), cp', rest')
      | (Result.runtimePanic, cp', rest') => (Result.runtimePanic, cp', rest')

/-- The 112-byte template message of the integration test. -/
def templatePacketIPv4 : List Byte :=
  [0x0, 0xa, 0x0, 0x70, 0x60, 0x48, 0x12, 0x4b, 0x0, 0x0, 0x0, 0x0, 0x0, 0x0, 0x0, 0x1,
   0x0, 0x2, 0x0, 0x60, 0x1, 0x0, 0x0, 0xf, 0x0, 0x8, 0x0, 0x4, 0x0, 0xc, 0x0, 0x4,
   0x0, 0x7, 0x0, 0x2, 0x0, 0xb, 0x0, 0x2, 0x0, 0x4, 0x0, 0x1, 0x0, 0x97, 0x0, 0x4,
   0x0, 0x56, 0x0, 0x8, 0x0, 0x2, 0x0, 0x8, 0x80, 0x65, 0xff, 0xff, 0x0, 0x0, 0xdc, 0xba,
   0x80, 0x67, 0xff, 0xff, 0x0, 0x0, 0xdc, 0xba, 0x80, 0x6c, 0x0, 0x2, 0x0, 0x0, 0xdc, 0xba,
   0x80, 0x89, 0x0, 0x1, 0x0, 0x0, 0xdc, 0xba, 0x80, 0x6a, 0x0, 0x4, 0x0, 0x0, 0xdc, 0xba,
   0x80, 0x56, 0x0, 0x8, 0x0, 0x0, 0x72, 0x79, 0x80, 0x2, 0x0, 0x8, 0x0, 0x0, 0x72, 0x79]

/-- The 82-byte data message `dataPacket1IPv4` of the integration test. -/
def dataPacket1IPv4 : List Byte :=
  [0x0, 0xa, 0x0, 0x52, 0x60, 0x48, 0x12, 0x4b, 0x0, 0x0, 0x0, 0x1, 0x0, 0x0, 0x0, 0x1,
   0x1, 0x0, 0x0, 0x42, 0xa, 0x0, 0x0, 0x1, 0xa, 0x0, 0x0, 0x2, 0x4, 0xd2, 0x16, 0x2e,
   0x6, 0x4a, 0xf9, 0xf0, 0x70, 0x0, 0x0, 0x0, 0x0, 0x0, 0x0, 0x3, 0xe8, 0x0, 0x0, 0x0,
   0x0, 0x0, 0x0, 0x1, 0xf4, 0x0, 0x4, 0x70, 0x6f, 0x64, 0x32, 0x0, 0x0, 0x2, 0x0, 0x0,
   0x0, 0x0, 0x0, 0x0, 0x0, 0x0, 0x0, 0x0, 0x1, 0x90, 0x0, 0x0, 0x0, 0x0, 0x0, 0x0,
   0x0, 0xc8]

/-- The test's `dataPacket2IPv4` (82 bytes): the record of the same flow from
the source node. -/
def dataPacket2IPv4 : List Byte :=
  [0x0, 0xa, 0x0, 0x52, 0x60, 0x48, 0x63, 0xc8, 0x0, 0x0, 0x0, 0x1, 0x0, 0x0, 0x0, 0x1,
   0x1, 0x0, 0x0, 0x42, 0xa, 0x0, 0x0, 0x1, 0xa, 0x0, 0x0, 0x2, 0x4, 0xd2, 0x16, 0x2e,
   0x6, 0x4a, 0xf9, 0xf8, 0x40, 0x0, 0x0, 0x0, 0x0, 0x0, 0x0, 0x3, 0x20, 0x0, 0x0, 0x0,
   0x0, 0x0, 0x0, 0x1, 0xf4, 0x4, 0x70, 0x6f, 0x64, 0x31, 0x0, 0x12, 0x83, 0x2, 0xa, 0x0,
   0x0, 0x3, 0x0, 0x0, 0x0, 0x0, 0x0, 0x0, 0x1, 0x2c, 0x0, 0x0, 0x0, 0x0, 0x0, 0x0,
   0x0, 0x96]

/-- The struct literal of `InitCollectingProcess`: an empty template map and
the two loaded registries, which are parameters here. -/
def InitCollectingProcess (ianaReg antreaReg : Registry) : CollectingProcess :=
  { templatesMap := fun _ => none, ianaRegistry := ianaReg, antreaRegistry := antreaReg }

/-- The flow set header carried by the value in `Packet.FlowSets`. -/
def FlowSets.flowSetHeader : FlowSets → FlowSetHeader
  | FlowSets.template set => set.header
  | FlowSets.data set => set.header

/-- Big-endian unsigned value of the `len` bytes of `buffer` from offset `off`. -/
def beAt (buffer : List Byte) (off len : Nat) : Nat :=
  bigEndian ((buffer.drop off).take len)

/-- The destinations filled by successful reads of the given widths. -/
def chunks : List Byte → List Nat → List (List Byte)
  | _, [] => []
  | buffer, n :: sizes => buffer.take n :: chunks (buffer.drop n) sizes

/-- An example registry for concrete evaluation: it knows the eight IANA
elements of the test template. -/
def exampleRegistry : Registry :=
  { GetIENameFromID := fun id =>
      if id = 8 then ("sourceIPv4Address", false)
      else if id = 12 then ("destinationIPv4Address", false)
      else if id = 7 then ("sourceTransportPort", false)
      else if id = 11 then ("destinationTransportPort", false)
      else if id = 4 then ("protocolIdentifier", false)
      else if id = 151 then ("flowEndSeconds", false)
      else if id = 86 then ("packetTotalCount", false)
      else if id = 2 then ("packetDeltaCount", false)
      else ("", true),
    GetInfoElement := fun name =>
      if name = "sourceIPv4Address" then (some ⟨name, 8, 18, 0, 4⟩, false)
      else if name = "destinationIPv4Address" then (some ⟨name, 12, 18, 0, 4⟩, false)
      else if name = "sourceTransportPort" then (some ⟨name, 7, 2, 0, 2⟩, false)
      else if name = "destinationTransportPort" then (some ⟨name, 11, 2, 0, 2⟩, false)
      else if name = "protocolIdentifier" then (some ⟨name, 4, 1, 0, 1⟩, false)
      else if name = "flowEndSeconds" then (some ⟨name, 151, 14, 0, 4⟩, false)
      else if name = "packetTotalCount" then (some ⟨name, 86, 4, 0, 8⟩, false)
      else if name = "packetDeltaCount" then (some ⟨name, 2, 4, 0, 8⟩, false)
      else (none, true) }

/-- A freshly initialised collecting process over the example registry. -/
def exampleProcess : CollectingProcess :=
  InitCollectingProcess exampleRegistry exampleRegistry

/-- A 20-byte message whose version field is 9. -/
def versionNinePacket : List Byte :=
  [0x0, 0x9, 0x0, 0x14, 0x60, 0x48, 0x12, 0x4b, 0x0, 0x0, 0x0, 0x0, 0x0, 0x0, 0x0, 0x1,
   0x1, 0x0, 0x0, 0x4]

/-- The template-field parser in the words of the spec: for each of the
`fieldCount` fields read a 2-byte element id carrying the 0x8000 flag and a
2-byte length; if the high bit is set read a 4-byte enterprise id and clear the
flag, else the enterprise is 0. `none` when the bytes end too early. -/
def specTemplateFields : Nat → List Byte → Option (List TemplateField × List Byte)
  | 0, bs => some ([], bs)
  | n + 1, i0 :: i1 :: l0 :: l1 :: bs =>
    let id := i0.val * 256 + i1.val
    let len := l0.val * 256 + l1.val
    if 32768 ≤ id then
      match bs with
      | e0 :: e1 :: e2 :: e3 :: bs' =>
        match specTemplateFields n bs' with
        | some (fs, tail) =>
          some ({ ElementID := id - 32768, ElementLength := len,
                  EnterpriseID := ((e0.val * 256 + e1.val) * 256 + e2.val) * 256 + e3.val } :: fs,
                tail)
        | none => none
      | _ => none
    else
      match specTemplateFields n bs with
      | some (fs, tail) =>
        some ({ ElementID := id, ElementLength := len, EnterpriseID := 0 } :: fs, tail)
      | none => none
  | _ + 1, _ => none

/-- The fifteen fields declared by `templatePacketIPv4`. -/
def templateFieldsIPv4 : List TemplateField :=
  [⟨8, 4, 0⟩, ⟨12, 4, 0⟩, ⟨7, 2, 0⟩, ⟨11, 2, 0⟩, ⟨4, 1, 0⟩, ⟨151, 4, 0⟩, ⟨86, 8, 0⟩, ⟨2, 8, 0⟩,
   ⟨101, 65535, 56506⟩, ⟨103, 65535, 56506⟩, ⟨108, 2, 56506⟩, ⟨137, 1, 56506⟩,
   ⟨106, 4, 56506⟩, ⟨86, 8, 29305⟩, ⟨2, 8, 29305⟩]

/-- The packet `DecodeMessage` returns for `templatePacketIPv4`. -/
def templatePacketIPv4Decoded : Packet :=
  { Version := 10, BufferLength := 112, SeqNumber := 0, ObsDomainID := 1,
    ExportTime := 1615336011,
    FlowSets := FlowSets.template
      { header := { ID := 2, Length := 96 }, Records := templateFieldsIPv4 } }

/-- The low eight bits of a number, as a byte. -/
def byteOf (n : Nat) : Byte :=
  ⟨n % 256, Nat.mod_lt n (by decide)⟩

/-- Modelled from the spec: the test encoder of the round-trip property (the
exporter is outside the collector's source). Big-endian encoding of a 16-bit
value. -/
def be16 (n : Nat) : List Byte :=
  [byteOf (n / 256), byteOf n]

/-- Modelled from the spec: big-endian encoding of a 32-bit value by the test
encoder. -/
def be32 (n : Nat) : List Byte :=
  [byteOf (n / 16777216), byteOf (n / 65536), byteOf (n / 256), byteOf n]

/-- Modelled from the spec: a template field specifier on the wire, the element
id carrying the 0x8000 flag and followed by the enterprise id when the element
is enterprise-specific. -/
def encodeTemplateField (f : TemplateField) : List Byte :=
  if f.EnterpriseID = 0 then be16 f.ElementID ++ be16 f.ElementLength
  else be16 (f.ElementID + 32768) ++ be16 f.ElementLength ++ be32 f.EnterpriseID

/-- Modelled from the spec: the specifiers of a field list, in order. -/
def encodeTemplateFields : List TemplateField → List Byte
  | [] => []
  | f :: fields => encodeTemplateField f ++ encodeTemplateFields fields

/-- Modelled from the spec: the values of a data record, one after the other. -/
def encodeValues : List (List Byte) → List Byte
  | [] => []
  | v :: values => v ++ encodeValues values

/-- Modelled from the spec: the 16-byte message header (version 10, length,
export time, sequence number, observation domain) followed by the 4-byte header
of the message's set. -/
def encodeHeaders (length exportTime seqNumber obsDomainID setID setLength : Nat) : List Byte :=
  be16 10 ++ be16 length ++ be32 exportTime ++ be32 seqNumber ++ be32 obsDomainID ++
    be16 setID ++ be16 setLength

/-- Modelled from the spec: a message with one template set (set ID 2) that
declares `fields` under `templateID`. -/
def encodeTemplateMessage (exportTime seqNumber obsDomainID templateID : Nat)
    (fields : List TemplateField) : List Byte :=
  let body := be16 templateID ++ be16 fields.length ++ encodeTemplateFields fields
  encodeHeaders (20 + body.length) exportTime seqNumber obsDomainID 2 (4 + body.length) ++ body

/-- Modelled from the spec: a message with one data set whose set ID is the
template id and whose body is the record's values. -/
def encodeDataMessage (exportTime seqNumber obsDomainID templateID : Nat)
    (values : List (List Byte)) : List Byte :=
  let body := encodeValues values
  encodeHeaders (20 + body.length) exportTime seqNumber obsDomainID templateID
    (4 + body.length) ++ body

/-- Whether a registry finds an element for the id: the name lookup followed by
the element lookup yields a non-nil element. -/
def Registry.knows (r : Registry) (elementID : Nat) : Bool :=
  (r.GetInfoElement (r.GetIENameFromID elementID).1).1.isSome

/-- A template field whose element is known to the registries: enterprise 0 and
known to the IANA registry, or enterprise 55829 and known to the Antrea
registry. -/
def knownToRegistries (cp : CollectingProcess) (f : TemplateField) : Bool :=
  (f.EnterpriseID = 0 && cp.ianaRegistry.knows f.ElementID) ||
    (f.EnterpriseID = 55829 && cp.antreaRegistry.knows f.ElementID)

/-- The collecting process after a sequence of `addTemplate` calls, each given
as (obsDomainID, templateID, fields), oldest first. -/
def installAll (cp : CollectingProcess) (ops : List (Nat × Nat × List TemplateField)) :
    CollectingProcess :=
  ops.foldl (fun cp' op => addTemplate cp' op.1 op.2.1 op.2.2) cp

/-- The fields of the most recent call in `ops` with the exact key (d, t), if
there is one. -/
def lastInstalled : List (Nat × Nat × List TemplateField) → Nat → Nat →
    Option (List TemplateField)
  | [], _, _ => none
  | op :: ops, d, t =>
    match lastInstalled ops d t with
    | some fields => some fields
    | none => if op.1 = d ∧ op.2.1 = t then some op.2.2 else none

/-- Modelled from the spec: the IPFIX variable-length rule of the wire codec,
which the collector's sources do not contain. The first byte, if below 255, is
the length; if it is 255 the next two bytes, big-endian, give the length; the
value is the following bytes of that length. Returns the value and the bytes
after it, `none` when the bytes end too early. -/
def specVariableLength : List Byte → Option (List Byte × List Byte)
  | [] => none
  | b :: rest =>
    if b.val < 255 then
      if b.val ≤ rest.length then some (rest.take b.val, rest.drop b.val) else none
    else
      match rest with
      | l0 :: l1 :: rest' =>
        let length := l0.val * 256 + l1.val
        if length ≤ rest'.length then some (rest'.take length, rest'.drop length) else none
      | _ => none

/-- The collecting process after `DecodeMessage` has been called on each buffer
in turn, oldest first. -/
def decodeAll (cp : CollectingProcess) (buffers : List (List Byte)) : CollectingProcess :=
  buffers.foldl (fun cp' buffer => (DecodeMessage cp' buffer).2.1) cp

/-- The values successive calls of `bytes.Buffer.Next` with the given lengths
take from a buffer. -/
def nextValues : List Nat → List Byte → List (List Byte)
  | [], _ => []
  | n :: lengths, buffer => buffer.take n :: nextValues lengths (buffer.drop n)

/-- A 24-byte template message whose header length field says 20: set ID 2,
template id 256, no fields. -/
def shortLengthPacket : List Byte :=
  [0x0, 0xa, 0x0, 0x14, 0x60, 0x48, 0x12, 0x4b, 0x0, 0x0, 0x0, 0x0, 0x0, 0x0, 0x0, 0x1,
   0x0, 0x2, 0x0, 0x8, 0x1, 0x0, 0x0, 0x0]

/-- A buffer with the two bytes of the message header's length field, bytes 2
and 3, replaced. -/
def withLengthField (buffer : List Byte) (hi lo : Byte) : List Byte :=
  (buffer.set 2 hi).set 3 lo

/-- An outcome of `DecodeMessage` with the `BufferLength` of its packet, if it
has one, replaced. -/
def withBufferLength (outcome : Result Packet) (length : Nat) : Result Packet :=
  match outcome with
  | Result.ok packet => Result.ok { packet with BufferLength := length }
  | Result.error e => Result.error e
  | Result.runtimePanic => Result.runtimePanic

/-- A well-formed 30-byte options template message: set ID 3, template id 256,
field count 1, scope field count 1 and the one field (element 8, length 4). -/
def optionsTemplatePacket : List Byte :=
  [0x0, 0xa, 0x0, 0x1e, 0x60, 0x48, 0x12, 0x4b, 0x0, 0x0, 0x0, 0x0, 0x0, 0x0, 0x0, 0x1,
   0x0, 0x3, 0x0, 0xe, 0x1, 0x0, 0x0, 0x1, 0x0, 0x1, 0x0, 0x8, 0x0, 0x4]

/-! ## The FlowType2 convertor (pkg/producer/convertor/test/flowtype2.go) -/

/-- Modelled from the spec: the dynamic value of an element, an `interface{}` in
`entities.InfoElementWithValue`, whose package is outside the convertor's
source. The constructors are the Go types the convertor asserts; `other` is a
value of any other dynamic type. -/
inductive ElementValue where
  | uint8 (v : Nat)
  | uint16 (v : Nat)
  | uint32 (v : Nat)
  | uint64 (v : Nat)
  | ip (addr : List Byte)
  | string (s : String)
  | other
  deriving DecidableEq, Repr

/-- Modelled from the spec: `entities.InfoElementWithValue`, an element with its
value; a record's ordered element list holds non-nil elements. -/
structure InfoElementWithValue where
  Element : InfoElement
  Value : ElementValue
  deriving DecidableEq, Repr

/-- Modelled from the spec: the fields of the generated message
`protobuf.FlowType2` that the convertor writes; the four message-level fields
come first. -/
structure FlowType2 where
  TimeReceived : Nat := 0
  SequenceNumber : Nat := 0
  ObsDomainID : Nat := 0
  ExportAddress : String := ""
  TimeFlowStartInSecs : Nat := 0
  TimeFlowEndInSecs : Nat := 0
  SrcIP : String := ""
  DstIP : String := ""
  SrcPort : Nat := 0
  DstPort : Nat := 0
  Proto : Nat := 0
  PacketsTotal : Nat := 0
  BytesTotal : Nat := 0
  PacketsDelta : Nat := 0
  BytesDelta : Nat := 0
  ReversePacketsTotal : Nat := 0
  ReverseBytesTotal : Nat := 0
  ReversePacketsDelta : Nat := 0
  ReverseBytesDelta : Nat := 0
  SrcPodNamespace : String := ""
  SrcPodName : String := ""
  SrcNodeName : String := ""
  DstPodNamespace : String := ""
  DstPodName : String := ""
  DstNodeName : String := ""
  DstClusterIP : String := ""
  DstServicePort : Nat := 0
  DstServicePortName : String := ""
  IngressPolicyName : String := ""
  IngressPolicyNamespace : String := ""
  EgressPolicyName : String := ""
  EgressPolicyNamespace : String := ""
  deriving DecidableEq, Repr

/-- The type assertion `ie.Value.(uint8)`: it panics on any other dynamic type. -/
def ElementValue.assertUint8 : ElementValue → Result Nat
  | ElementValue.uint8 v => Result.ok v
  | _ => Result.runtimePanic

/-- The type assertion `ie.Value.(uint16)`. -/
def ElementValue.assertUint16 : ElementValue → Result Nat
  | ElementValue.uint16 v => Result.ok v
  | _ => Result.runtimePanic

/-- The type assertion `ie.Value.(uint32)`. -/
def ElementValue.assertUint32 : ElementValue → Result Nat
  | ElementValue.uint32 v => Result.ok v
  | _ => Result.runtimePanic

/-- The type assertion `ie.Value.(uint64)`. -/
def ElementValue.assertUint64 : ElementValue → Result Nat
  | ElementValue.uint64 v => Result.ok v
  | _ => Result.runtimePanic

/-- The type assertion `ie.Value.(net.IP)`. -/
def ElementValue.assertIP : ElementValue → Result (List Byte)
  | ElementValue.ip addr => Result.ok addr
  | _ => Result.runtimePanic

/-- The type assertion `ie.Value.(string)`. -/
def ElementValue.assertString : ElementValue → Result String
  | ElementValue.string s => Result.ok s
  | _ => Result.runtimePanic

/-- Continue with the asserted value, or pass the panic on. -/
def Result.andThen {α β : Type} (r : Result α) (f : α → β) : Result β :=
  match r with
  | Result.ok a => Result.ok (f a)
  | Result.error e => Result.error e
  | Result.runtimePanic => Result.runtimePanic

/-- The body of the loop of `addAllFieldsToFlowType2`: the switch on the
element's name. `ipString` is the library method `net.IP.String`; the warnings
are only logged. -/
def addFieldToFlowType2 (ipString : List Byte → String) (flowMsg : FlowType2)
    (ie : InfoElementWithValue) : Result FlowType2 :=
  if ie.Element.Name = "flowStartSeconds" then
    ie.Value.assertUint32.andThen fun v => { flowMsg with TimeFlowStartInSecs := v }
  else if ie.Element.Name = "flowEndSeconds" then
    ie.Value.assertUint32.andThen fun v => { flowMsg with TimeFlowEndInSecs := v }
  else if ie.Element.Name = "sourceIPv4Address" ∨ ie.Element.Name = "sourceIPv6Address" then
    ie.Value.assertIP.andThen fun v => { flowMsg with SrcIP := ipString v }
  else if ie.Element.Name = "destinationIPv4Address" ∨ ie.Element.Name = "destinationIPv6Address" then
    ie.Value.assertIP.andThen fun v => { flowMsg with DstIP := ipString v }
  else if ie.Element.Name = "sourceTransportPort" then
    ie.Value.assertUint16.andThen fun v => { flowMsg with SrcPort := v }
  else if ie.Element.Name = "destinationTransportPort" then
    ie.Value.assertUint16.andThen fun v => { flowMsg with DstPort := v }
  else if ie.Element.Name = "protocolIdentifier" then
    ie.Value.assertUint8.andThen fun v => { flowMsg with Proto := v }
  else if ie.Element.Name = "packetTotalCount" then
    ie.Value.assertUint64.andThen fun v => { flowMsg with PacketsTotal := v }
  else if ie.Element.Name = "octetTotalCount" then
    ie.Value.assertUint64.andThen fun v => { flowMsg with BytesTotal := v }
  else if ie.Element.Name = "packetDeltaCount" then
    ie.Value.assertUint64.andThen fun v => { flowMsg with PacketsDelta := v }
  else if ie.Element.Name = "octetDeltaCount" then
    ie.Value.assertUint64.andThen fun v => { flowMsg with BytesDelta := v }
  else if ie.Element.Name = "reversePacketTotalCount" then
    ie.Value.assertUint64.andThen fun v => { flowMsg with ReversePacketsTotal := v }
  else if ie.Element.Name = "reverseOctetTotalCount" then
    ie.Value.assertUint64.andThen fun v => { flowMsg with ReverseBytesTotal := v }
  else if ie.Element.Name = "reversePacketDeltaCount" then
    ie.Value.assertUint64.andThen fun v => { flowMsg with ReversePacketsDelta := v }
  else if ie.Element.Name = "reverseOctetDeltaCount" then
    ie.Value.assertUint64.andThen fun v => { flowMsg with ReverseBytesDelta := v }
  else if ie.Element.Name = "sourcePodNamespace" then
    ie.Value.assertString.andThen fun v => { flowMsg with SrcPodNamespace := v }
  else if ie.Element.Name = "sourcePodName" then
    ie.Value.assertString.andThen fun v => { flowMsg with SrcPodName := v }
  else if ie.Element.Name = "sourceNodeName" then
    ie.Value.assertString.andThen fun v => { flowMsg with SrcNodeName := v }
  else if ie.Element.Name = "destinationPodNamespace" then
    ie.Value.assertString.andThen fun v => { flowMsg with DstPodNamespace := v }
  else if ie.Element.Name = "destinationPodName" then
    ie.Value.assertString.andThen fun v => { flowMsg with DstPodName := v }
  else if ie.Element.Name = "destinationNodeName" then
    ie.Value.assertString.andThen fun v => { flowMsg with DstNodeName := v }
  else if ie.Element.Name = "destinationClusterIPv4" ∨ ie.Element.Name = "destinationClusterIPv6" then
    ie.Value.assertIP.andThen fun v => { flowMsg with DstClusterIP := ipString v }
  else if ie.Element.Name = "destinationServicePort" then
    ie.Value.assertUint16.andThen fun v => { flowMsg with DstServicePort := v }
  else if ie.Element.Name = "destinationServicePortName" then
    ie.Value.assertString.andThen fun v => { flowMsg with DstServicePortName := v }
  else if ie.Element.Name = "ingressNetworkPolicyName" then
    ie.Value.assertString.andThen fun v => { flowMsg with IngressPolicyName := v }
  else if ie.Element.Name = "ingressNetworkPolicyNamespace" then
    ie.Value.assertString.andThen fun v => { flowMsg with IngressPolicyNamespace := v }
  else if ie.Element.Name = "egressNetworkPolicyName" then
    ie.Value.assertString.andThen fun v => { flowMsg with EgressPolicyName := v }
  else if ie.Element.Name = "egressNetworkPolicyNamespace" then
    ie.Value.assertString.andThen fun v => { flowMsg with EgressPolicyNamespace := v }
  else Result.ok flowMsg

/-- Function `addAllFieldsToFlowType2`: the loop over the record's ordered
element list; the record is given as that list. -/
def addAllFieldsToFlowType2 (ipString : List Byte → String) (flowMsg : FlowType2) :
    List InfoElementWithValue → Result FlowType2
  | [] => Result.ok flowMsg
  | ie :: record =>
    match addFieldToFlowType2 ipString flowMsg ie with
    | Result.ok flowMsg' => addAllFieldsToFlowType2 ipString flowMsg' record
    | Result.error e => Result.error e
    | Result.runtimePanic => Result.runtimePanic

/-- Method `ConvertIPFIXRecordToFlowMsg`: a fresh `FlowType2` filled from the
record alone. -/
def ConvertIPFIXRecordToFlowMsg (ipString : List Byte → String)
    (record : List InfoElementWithValue) : Result FlowType2 :=
  addAllFieldsToFlowType2 ipString {} record

/-- The four message-level fields of a flow message. -/
def FlowType2.messageLevel (m : FlowType2) : Nat × Nat × Nat × String :=
  (m.TimeReceived, m.SequenceNumber, m.ObsDomainID, m.ExportAddress)

/-- That a step's outcome, when it is a flow message, has the message-level
fields of `m`. -/
def PreservesMessageLevel (m : FlowType2) (r : Result FlowType2) : Prop :=
  ∀ m', r = Result.ok m' → m'.messageLevel = m.messageLevel

/-- An example of `net.IP.String` for concrete evaluation: it prints the two
addresses of the test flow. -/
def exampleIPString (addr : List Byte) : String :=
  if addr = [10, 0, 0, 1] then "10.0.0.1"
  else if addr = [10, 0, 0, 2] then "10.0.0.2"
  else ""

/-- An example record: source address, protocol, a counter, a pod name and an
element the switch does not know. -/
def exampleRecord : List InfoElementWithValue :=
  [{ Element := ⟨"sourceIPv4Address", 8, 18, 0, 4⟩, Value := ElementValue.ip [10, 0, 0, 1] },
   { Element := ⟨"protocolIdentifier", 4, 1, 0, 1⟩, Value := ElementValue.uint8 6 },
   { Element := ⟨"packetTotalCount", 86, 4, 0, 8⟩, Value := ElementValue.uint64 1000 },
   { Element := ⟨"destinationPodName", 103, 13, 55829, 65535⟩,
     Value := ElementValue.string "pod2" },
   { Element := ⟨"tcpState", 136, 13, 55829, 65535⟩, Value := ElementValue.other }]

/-- The flow message `ConvertIPFIXRecordToFlowMsg` builds from `exampleRecord`. -/
def exampleFlowMsg : FlowType2 :=
  { SrcIP := "10.0.0.1", Proto := 6, PacketsTotal := 1000, DstPodName := "pod2" }

/-- Modelled from the spec: `entities.ContentType`, the type of a set, from
package `entities` outside the convertor's source. The convertor compares it
with `entities.Template` only; `Data` and `Undefined` stand for every other
value. -/
inductive ContentType where
  | Template
  | Data
  | Undefined
  deriving DecidableEq, Repr

/-- Modelled from the spec: what the convertor reads of a non-nil
`entities.Set`, through the getters `GetSetType` and `GetRecords`; a record is
given as its ordered element list. -/
structure Set where
  GetSetType : ContentType
  GetRecords : List (List InfoElementWithValue)
  deriving DecidableEq, Repr

/-- Modelled from the spec: what the convertor reads of a non-nil
`entities.Message`, through the getters `GetExportTime`, `GetSequenceNum`,
`GetObsDomainID`, `GetExportAddress` and `GetSet`. -/
structure Message where
  GetExportTime : Nat
  GetSequenceNum : Nat
  GetObsDomainID : Nat
  GetExportAddress : String
  GetSet : Set
  deriving DecidableEq, Repr

/-- The closure `convertRecordToFlowMsg` of `ConvertIPFIXMsgToFlowMsgs`: a fresh
`FlowType2` gets the four message-level fields from the message, then the
fields of the record. -/
def convertRecordToFlowMsg (ipString : List Byte → String) (msg : Message)
    (record : List InfoElementWithValue) : Result FlowType2 :=
  addAllFieldsToFlowType2 ipString
    { TimeReceived := msg.GetExportTime, SequenceNumber := msg.GetSequenceNum,
      ObsDomainID := msg.GetObsDomainID, ExportAddress := msg.GetExportAddress } record

/-- The loop of `ConvertIPFIXMsgToFlowMsgs` over the records: `flowMsgs[i]` is
the conversion of the i-th record; a panic in a conversion ends the call. -/
def convertRecords (ipString : List Byte → String) (msg : Message) :
    List (List InfoElementWithValue) → Result (List FlowType2)
  | [] => Result.ok []
  | record :: records =>
    match convertRecordToFlowMsg ipString msg record with
    | Result.ok flowMsg =>
      match convertRecords ipString msg records with
      | Result.ok flowMsgs => Result.ok (flowMsg :: flowMsgs)
      | Result.error e => Result.error e
      | Result.runtimePanic => Result.runtimePanic
    | Result.error e => Result.error e
    | Result.runtimePanic => Result.runtimePanic

/-- Method `ConvertIPFIXMsgToFlowMsgs`; `none` is the nil slice returned for a
template set. -/
def ConvertIPFIXMsgToFlowMsgs (ipString : List Byte → String) (msg : Message) :
    Result (Option (List FlowType2)) :=
  if msg.GetSet.GetSetType = ContentType.Template then Result.ok none
  else (convertRecords ipString msg msg.GetSet.GetRecords).andThen some

/-- Modelled from the spec: a flow message with TimeReceived, SequenceNumber,
ObsDomainID and ExportAddress set to the message's export time, sequence number,
observation domain ID and export address. -/
def withMessageFields (msg : Message) (flowMsg : FlowType2) : FlowType2 :=
  { flowMsg with
    TimeReceived := msg.GetExportTime, SequenceNumber := msg.GetSequenceNum,
    ObsDomainID := msg.GetObsDomainID, ExportAddress := msg.GetExportAddress }

/-- That the outcome `r₁` of a step is the outcome `r₂` with the message fields
of `msg` set. -/
def SetsMessageFields (msg : Message) (r₁ r₂ : Result FlowType2) : Prop :=
  r₁ = r₂.andThen (withMessageFields msg)

/-- That an outcome is not a returned error. -/
def NotError {α : Type} (r : Result α) : Prop :=
  ∀ e, r ≠ Result.error e

/-- A second example record: destination address and port. -/
def exampleRecord2 : List InfoElementWithValue :=
  [{ Element := ⟨"destinationIPv4Address", 12, 18, 0, 4⟩,
     Value := ElementValue.ip [10, 0, 0, 2] },
   { Element := ⟨"destinationTransportPort", 11, 2, 0, 2⟩, Value := ElementValue.uint16 5678 }]

/-- An example message with a data set of two records. -/
def exampleMessage : Message :=
  { GetExportTime := 1257894000, GetSequenceNum := 7, GetObsDomainID := 1,
    GetExportAddress := "127.0.0.1",
    GetSet := { GetSetType := ContentType.Data, GetRecords := [exampleRecord, exampleRecord2] } }

/-- A record whose `flowStartSeconds` element holds a 64-bit value. -/
def mistypedRecord : List InfoElementWithValue :=
  [{ Element := ⟨"flowStartSeconds", 150, 14, 0, 4⟩, Value := ElementValue.uint64 1257894000 }]

/-- The example message with `mistypedRecord` as its second record. -/
def mistypedMessage : Message :=
  { exampleMessage with
    GetSet := { GetSetType := ContentType.Data,
                GetRecords := [exampleRecord, mistypedRecord] } }

/-! ## The aggregation engine (spec section 4.F) -/

/-- Modelled from the spec: a data record as the aggregation engine sees it, the
ordered list of element names with their typed values. Package `intermediate`
and the records of package `entities` are outside the source; the merge rules
of the spec speak of elements by name only. -/
abbrev Record := List (String × ElementValue)

/-- Modelled from the spec: the value a record holds under an element name, if
any (the first entry of that name). -/
def getValue : Record → String → Option ElementValue
  | [], _ => none
  | (n, v) :: r, name => if n = name then some v else getValue r name

/-- Modelled from the spec: store a value under an element name, replacing the
entry of that name or adding one at the end. -/
def setValue : Record → String → ElementValue → Record
  | [], name, v => [(name, v)]
  | (n, w) :: r, name, v => if n = name then (n, v) :: r else (n, w) :: setValue r name v

/-- Modelled from the spec: the number a counter value holds. -/
def ElementValue.toCounter : ElementValue → Option Nat
  | ElementValue.uint8 v => some v
  | ElementValue.uint16 v => some v
  | ElementValue.uint32 v => some v
  | ElementValue.uint64 v => some v
  | _ => none

/-- Modelled from the spec: the counter a record holds under a name, if it holds
one. -/
def getCounter (r : Record) (name : String) : Option Nat :=
  match getValue r name with
  | some v => v.toCounter
  | none => none

/-- Modelled from the spec: an "empty value": the number 0, the empty string,
or an address of zero bytes only. -/
def ElementValue.isEmptyValue : ElementValue → Bool
  | ElementValue.uint8 v => v = 0
  | ElementValue.uint16 v => v = 0
  | ElementValue.uint32 v => v = 0
  | ElementValue.uint64 v => v = 0
  | ElementValue.ip addr => addr.all fun b => b = 0
  | ElementValue.string s => s = ""
  | ElementValue.other => false

/-- Modelled from the spec: a field is populated (present) in a record when the
record holds a non-empty value under its name. -/
def populated (r : Record) (name : String) : Bool :=
  match getValue r name with
  | some v => !v.isEmptyValue
  | none => false

/-- Modelled from the spec: the side a record comes from. -/
inductive Side where
  | source
  | destination
  | preCorrelated
  | unknown
  deriving DecidableEq, Repr

/-- Modelled from the spec: side detection. `sourcePodName` present means
source-side, `destinationPodName` present means destination-side, both present
means pre-correlated. -/
def sideOf (r : Record) : Side :=
  match populated r "sourcePodName", populated r "destinationPodName" with
  | true, false => Side.source
  | false, true => Side.destination
  | true, true => Side.preCorrelated
  | false, false => Side.unknown

/-- Modelled from the spec: the 5-tuple that buckets records. -/
structure FlowKey where
  SourceAddress : List Byte
  DestinationAddress : List Byte
  Protocol : Nat
  SourcePort : Nat
  DestinationPort : Nat
  deriving DecidableEq, Repr

/-- Modelled from the spec: the address a record holds under the IPv4 name or,
failing that, the IPv6 name. -/
def getAddress (r : Record) (nameIPv4 nameIPv6 : String) : Option (List Byte) :=
  match getValue r nameIPv4 with
  | some (ElementValue.ip addr) => some addr
  | _ =>
    match getValue r nameIPv6 with
    | some (ElementValue.ip addr) => some addr
    | _ => none

/-- Modelled from the spec: FlowKey extraction; `none` for a record that lacks
one of the five components. -/
def flowKeyOf (r : Record) : Option FlowKey :=
  match getAddress r "sourceIPv4Address" "sourceIPv6Address",
    getAddress r "destinationIPv4Address" "destinationIPv6Address",
    getCounter r "protocolIdentifier", getCounter r "sourceTransportPort",
    getCounter r "destinationTransportPort" with
  | some src, some dst, some proto, some srcPort, some dstPort =>
    some { SourceAddress := src, DestinationAddress := dst, Protocol := proto,
           SourcePort := srcPort, DestinationPort := dstPort }
  | _, _, _, _, _ => none

/-- Modelled from the spec: the configured element lists of the aggregation
(`intermediate.AggregationElements` in the test). -/
structure AggregationElements where
  NonStatsElements : List String
  StatsElements : List String
  AggregatedSourceStatsElements : List String
  AggregatedDestinationStatsElements : List String

/-- Modelled from the spec: the configuration of the aggregation process
(`intermediate.AggregationInput` in the test), without the channel and the
worker count. -/
structure AggregationInput where
  CorrelateFields : List String
  AggregateElements : AggregationElements

/-- Modelled from the spec: an aggregate, one logical record and the two
booleans; the per-side snapshots are the per-side elements of the record. -/
structure AggregationFlowRecord where
  Record : Record
  sourceSeen : Bool
  destinationSeen : Bool
  deriving DecidableEq, Repr

/-- Modelled from the spec: whether `pattern` occurs in `name`. -/
def nameContains (name pattern : String) : Bool :=
  name.data.tails.any fun suffix => pattern.data.isPrefixOf suffix

/-- Modelled from the spec: a stats element is a delta counter when its name
contains "Delta". -/
def isDeltaCounter (name : String) : Bool :=
  nameContains name "Delta"

/-- Modelled from the spec: a stats element is a total counter when its name
contains "Total" and not "Delta". -/
def isTotalCounter (name : String) : Bool :=
  !nameContains name "Delta" && nameContains name "Total"

/-- Modelled from the spec: merge step 1 for one correlate field: if the
aggregate has an empty value and the record a non-empty one, copy it. -/
def correlateField (r : Record) (a : Record) (name : String) : Record :=
  if !populated a name && populated r name then
    match getValue r name with
    | some v => setValue a name v
    | none => a
  else a

/-- Modelled from the spec: merge step 2 for one non-stats element: overwrite
the aggregate's value with the record's. -/
def overwriteField (r : Record) (a : Record) (name : String) : Record :=
  match getValue r name with
  | some v => setValue a name v
  | none => a

/-- Modelled from the spec: merge step 3 for one stats element with its two
per-side names: add the record's value for a delta counter, keep the maximum
for a total counter, and copy the record's value into the slot of its side.
Counters are natural numbers: the spec gives no width for the accumulated
value. A missing value of the aggregate counts as 0. -/
def mergeStat (side : Side) (r : Record) (a : Record) (names : String × String × String) :
    Record :=
  match getCounter r names.1 with
  | none => a
  | some v =>
    let old := (getCounter a names.1).getD 0
    let a' :=
      if isDeltaCounter names.1 then setValue a names.1 (ElementValue.uint64 (old + v))
      else if isTotalCounter names.1 then setValue a names.1 (ElementValue.uint64 (max old v))
      else a
    match side with
    | Side.source => setValue a' names.2.1 (ElementValue.uint64 v)
    | Side.destination => setValue a' names.2.2 (ElementValue.uint64 v)
    | _ => a'

/-- Modelled from the spec: the stats elements with their per-side names, which
the configuration lists in parallel. -/
def statsNames (elements : AggregationElements) : List (String × String × String) :=
  elements.StatsElements.zip
    (elements.AggregatedSourceStatsElements.zip elements.AggregatedDestinationStatsElements)

/-- Modelled from the spec: the merge algorithm for an arriving record `r`
against an aggregate `a`, steps 1 to 4. -/
def mergeRecord (input : AggregationInput) (a : AggregationFlowRecord) (r : Record) :
    AggregationFlowRecord :=
  let correlated := input.CorrelateFields.foldl (correlateField r) a.Record
  let overwritten := input.AggregateElements.NonStatsElements.foldl (overwriteField r) correlated
  let merged := (statsNames input.AggregateElements).foldl (mergeStat (sideOf r) r) overwritten
  { Record := merged,
    sourceSeen := a.sourceSeen || decide (sideOf r = Side.source),
    destinationSeen := a.destinationSeen || decide (sideOf r = Side.destination) }

/-- Modelled from the spec: the aggregate created when a key has none: no
elements, neither side seen. -/
def newAggregate : AggregationFlowRecord :=
  { Record := [], sourceSeen := false, destinationSeen := false }

/-- Modelled from the spec: the state of the aggregation engine, the map from
FlowKey to aggregate and the sink of records without a FlowKey. -/
structure AggregationProcess where
  flowKeyRecordMap : FlowKey → Option AggregationFlowRecord
  uncorrelated : List Record

/-- Modelled from the spec: what the engine does with an arriving record: a
record without FlowKey goes to the sink, any other is merged into the aggregate
of its key, created if absent. -/
def aggregateRecord (input : AggregationInput) (ap : AggregationProcess) (r : Record) :
    AggregationProcess :=
  match flowKeyOf r with
  | none => { ap with uncorrelated := ap.uncorrelated ++ [r] }
  | some key =>
    let a := (ap.flowKeyRecordMap key).getD newAggregate
    { ap with
      flowKeyRecordMap := fun k =>
        if k = key then some (mergeRecord input a r) else ap.flowKeyRecordMap k }

/-- The configuration of the integration test. -/
def testAggregationInput : AggregationInput :=
  { CorrelateFields :=
      ["sourcePodName", "sourcePodNamespace", "sourceNodeName", "destinationPodName",
       "destinationPodNamespace", "destinationNodeName", "destinationClusterIPv4",
       "destinationClusterIPv6", "destinationServicePort"],
    AggregateElements :=
      { NonStatsElements := ["flowEndSeconds"],
        StatsElements :=
          ["packetTotalCount", "packetDeltaCount", "reversePacketTotalCount",
           "reversePacketDeltaCount"],
        AggregatedSourceStatsElements :=
          ["packetTotalCountFromSourceNode", "packetDeltaCountFromSourceNode",
           "reversePacketTotalCountFromSourceNode", "reversePacketDeltaCountFromSourceNode"],
        AggregatedDestinationStatsElements :=
          ["packetTotalCountFromDestinationNode", "packetDeltaCountFromDestinationNode",
           "reversePacketTotalCountFromDestinationNode",
           "reversePacketDeltaCountFromDestinationNode"] } }

/-- Modelled from the spec: the text of an octet string, one character per
byte. -/
def stringOfBytes (bs : List Byte) : String :=
  String.mk (bs.map fun b => Char.ofNat b.val)

/-- Modelled from the spec: the typed record a data message of the test carries,
decoded with the fifteen fields of the test's template (`templateFieldsIPv4`) by
the codec rules of the spec: the body starts after the 20 header bytes,
fixed-length values are big-endian, and the two fields of length 0xFFFF are
variable-length. The names and types are those the test asserts on and the
FlowKey extraction reads; the twelfth field, element 137 of enterprise 56506,
which the test does not name, is listed as `flowType`. The result is `none`
when the body is too short. -/
def specTestRecord (msgBuffer : List Byte) : Option Record :=
  let body := msgBuffer.drop 20
  if body.length < 33 then none
  else
    match specVariableLength (body.drop 33) with
    | none => none
    | some (sourcePodName, rest) =>
      match specVariableLength rest with
      | none => none
      | some (destinationPodName, rest') =>
        if rest'.length < 23 then none
        else
          some
            [("sourceIPv4Address", ElementValue.ip (body.take 4)),
             ("destinationIPv4Address", ElementValue.ip ((body.drop 4).take 4)),
             ("sourceTransportPort", ElementValue.uint16 (bigEndian ((body.drop 8).take 2))),
             ("destinationTransportPort",
               ElementValue.uint16 (bigEndian ((body.drop 10).take 2))),
             ("protocolIdentifier", ElementValue.uint8 (bigEndian ((body.drop 12).take 1))),
             ("flowEndSeconds", ElementValue.uint32 (bigEndian ((body.drop 13).take 4))),
             ("packetTotalCount", ElementValue.uint64 (bigEndian ((body.drop 17).take 8))),
             ("packetDeltaCount", ElementValue.uint64 (bigEndian ((body.drop 25).take 8))),
             ("sourcePodName", ElementValue.string (stringOfBytes sourcePodName)),
             ("destinationPodName", ElementValue.string (stringOfBytes destinationPodName)),
             ("destinationServicePort", ElementValue.uint16 (bigEndian (rest'.take 2))),
             ("flowType", ElementValue.uint8 (bigEndian ((rest'.drop 2).take 1))),
             ("destinationClusterIPv4", ElementValue.ip ((rest'.drop 3).take 4)),
             ("reversePacketTotalCount",
               ElementValue.uint64 (bigEndian ((rest'.drop 7).take 8))),
             ("reversePacketDeltaCount",
               ElementValue.uint64 (bigEndian ((rest'.drop 15).take 8)))]

/-- The record of the test's first data packet `dataPacket1IPv4`, from the
destination node. -/
def testRecord1 : Record :=
  (specTestRecord dataPacket1IPv4).getD []

/-- The record of the test's second data packet `dataPacket2IPv4`, from the
source node. -/
def testRecord2 : Record :=
  (specTestRecord dataPacket2IPv4).getD []

/-- The FlowKey of the test flow. -/
def testFlowKey : FlowKey :=
  { SourceAddress := [10, 0, 0, 1], DestinationAddress := [10, 0, 0, 2], Protocol := 6,
    SourcePort := 1234, DestinationPort := 5678 }

/-- The aggregation engine before any record. -/
def emptyAggregationProcess : AggregationProcess :=
  { flowKeyRecordMap := fun _ => none, uncorrelated := [] }

/-- All names a list of stats elements with their per-side names mentions. -/
def statNames : List (String × String × String) → List String
  | [] => []
  | names :: rest => names.1 :: names.2.1 :: names.2.2 :: statNames rest

/-! ## Reading from the buffer -/

theorem decodeLoop_enough (sizes : List Nat) :
    ∀ (err : Option Err) (buffer : List Byte), sizes.sum ≤ buffer.length →
      decodeLoop err buffer sizes =
        (if sizes = [] then err else none, chunks buffer sizes, buffer.drop sizes.sum) := by
  induction sizes with
  | nil => intro err buffer _; simp [decodeLoop, chunks]
  | cons n sizes ih =>
    intro err buffer h
    simp only [List.sum_cons] at h
    have hn : n ≤ buffer.length := by omega
    have hrest : sizes.sum ≤ (buffer.drop n).length := by simp; omega
    simp only [decodeLoop, binaryRead, hn, if_true, ih none _ hrest, chunks, List.drop_drop,
      List.sum_cons]
    cases sizes <;> simp [decodeLoop, chunks, Nat.add_comm]

theorem decodeLoop_drained (sizes : List Nat) (hpos : ∀ n ∈ sizes, 0 < n) :
    ∀ (e : Err), ∃ e', decodeLoop (some e) [] sizes = (some e', (sizes.map fun n => List.replicate n 0), []) := by
  induction sizes with
  | nil => intro e; exact ⟨e, rfl⟩
  | cons n sizes ih =>
    intro e
    have hn : 0 < n := hpos n (List.mem_cons_self _ _)
    have hn' : ¬ n ≤ 0 := by omega
    obtain ⟨e', he'⟩ := ih (fun m hm => hpos m (List.mem_cons_of_mem _ hm)) Err.EOF
    refine ⟨e', ?_⟩
    simp [decodeLoop, binaryRead, hn', he']

theorem decodeLoop_short (sizes : List Nat) (hpos : ∀ n ∈ sizes, 0 < n) :
    ∀ (err : Option Err) (buffer : List Byte), buffer.length < sizes.sum →
      ∃ e values, decodeLoop err buffer sizes = (some e, values, []) := by
  induction sizes with
  | nil => intro err buffer h; simp at h
  | cons n sizes ih =>
    intro err buffer h
    simp only [List.sum_cons] at h
    have hpos' : ∀ m ∈ sizes, 0 < m := fun m hm => hpos m (List.mem_cons_of_mem _ hm)
    by_cases hn : n ≤ buffer.length
    · have hrest : (buffer.drop n).length < sizes.sum := by simp; omega
      obtain ⟨e, values, he⟩ := ih hpos' none (buffer.drop n) hrest
      exact ⟨e, buffer.take n :: values, by simp [decodeLoop, binaryRead, hn, he]⟩
    · by_cases h0 : buffer.length = 0
      · obtain ⟨e', he'⟩ := decodeLoop_drained sizes hpos' Err.EOF
        exact ⟨e', List.replicate n 0 :: sizes.map (fun n => List.replicate n 0),
          by simp only [decodeLoop, binaryRead, if_neg hn, if_pos h0, he']⟩
      · obtain ⟨e', he'⟩ := decodeLoop_drained sizes hpos' Err.ErrUnexpectedEOF
        exact ⟨e', List.replicate n 0 :: sizes.map (fun n => List.replicate n 0),
          by simp only [decodeLoop, binaryRead, if_neg hn, if_neg h0, he']⟩

theorem decode_header {buffer : List Byte} (h : 20 ≤ buffer.length) :
    decode buffer [2, 2, 4, 4, 4, 4] =
      (none, [buffer.take 2, (buffer.drop 2).take 2, (buffer.drop 4).take 4,
        (buffer.drop 8).take 4, (buffer.drop 12).take 4, (buffer.drop 16).take 4],
        buffer.drop 20) := by
  have := decodeLoop_enough [2, 2, 4, 4, 4, 4] none buffer (by simpa using h)
  simpa [decode, chunks, List.drop_drop] using this

theorem decode_header_short {buffer : List Byte} (h : buffer.length < 20) :
    ∃ e values, decode buffer [2, 2, 4, 4, 4, 4] = (some e, values, []) :=
  decodeLoop_short [2, 2, 4, 4, 4, 4] (by decide) none buffer (by simpa using h)

theorem decodeMessage_of_header (cp : CollectingProcess) {buffer : List Byte}
    (h : 20 ≤ buffer.length) :
    DecodeMessage cp buffer =
      if beAt buffer 0 2 ≠ 10 then
        (Result.error (Err.invalidVersion (beAt buffer 0 2)), cp, buffer.drop 20)
      else if beAt buffer 16 2 = 2 then
        match decodeTemplateRecord cp (buffer.drop 20) (beAt buffer 12 4) with
        | (Result.ok records, cp', rest') =>
          (Result.ok { Version := beAt buffer 0 2, BufferLength := beAt buffer 2 2,
                       SeqNumber := beAt buffer 8 4, ObsDomainID := beAt buffer 12 4,
                       ExportTime := beAt buffer 4 4,
                       FlowSets := FlowSets.template
                         { header := { ID := beAt buffer 16 2, Length := beAt buffer 18 2 },
                           Records := records } }, cp', rest')
        | (Result.error e, cp', rest') => (Result.error (Err.decodingMessage e), cp', rest')
        | (Result.runtimePanic, cp', rest') => (Result.runtimePanic, cp', rest')
      else
        match decodeDataRecord cp (buffer.drop 20) (beAt buffer 12 4) (beAt buffer 16 2) with
        | (Result.ok records, cp', rest') =>
          (Result.ok { Version := beAt buffer 0 2, BufferLength := beAt buffer 2 2,
                       SeqNumber := beAt buffer 8 4, ObsDomainID := beAt buffer 12 4,
                       ExportTime := beAt buffer 4 4,
                       FlowSets := FlowSets.data
                         { header := { ID := beAt buffer 16 2, Length := beAt buffer 18 2 },
                           Records := records } }, cp', rest')
        | (Result.error e, cp', rest') => (Result.error (Err.decodingMessage e), cp', rest')
        | (Result.runtimePanic, cp', rest') => (Result.runtimePanic, cp', rest') := by
  have h1 : List.take 2 (List.take 4 (List.drop 16 buffer)) = (buffer.drop 16).take 2 := by
    rw [List.take_take]; rfl
  have h2 : List.drop 2 (List.take 4 (List.drop 16 buffer)) = (buffer.drop 18).take 2 := by
    rw [List.drop_take, List.drop_drop]
  simp only [DecodeMessage, decode_header h, List.getD_cons_zero, List.getD_cons_succ, beAt,
    List.drop_zero, h1, h2]

theorem decodeMessage_short (cp : CollectingProcess) {buffer : List Byte}
    (h : buffer.length < 20) :
    ∃ e, DecodeMessage cp buffer = (Result.error (Err.decodingMessage e), cp, []) := by
  obtain ⟨e, values, he⟩ := decode_header_short h
  exact ⟨e, by simp only [DecodeMessage, he]⟩

theorem decodeMessage_ok_header (cp : CollectingProcess) (buffer : List Byte) (packet : Packet)
    (hok : (DecodeMessage cp buffer).1 = Result.ok packet) :
    20 ≤ buffer.length ∧ beAt buffer 0 2 = 10 ∧
    packet.Version = beAt buffer 0 2 ∧ packet.BufferLength = beAt buffer 2 2 ∧
    packet.ExportTime = beAt buffer 4 4 ∧ packet.SeqNumber = beAt buffer 8 4 ∧
    packet.ObsDomainID = beAt buffer 12 4 ∧
    packet.FlowSets.flowSetHeader.ID = beAt buffer 16 2 ∧
    packet.FlowSets.flowSetHeader.Length = beAt buffer 18 2 := by
  by_cases hlen : 20 ≤ buffer.length
  · rw [decodeMessage_of_header cp hlen] at hok
    by_cases hv : beAt buffer 0 2 = 10
    · by_cases hs : beAt buffer 16 2 = 2
      · simp only [hv, hs, ne_eq, not_true_eq_false, if_false, if_true] at hok
        split at hok <;> simp at hok
        subst hok
        simp [FlowSets.flowSetHeader, hlen, hv, hs]
      · simp only [hv, hs, ne_eq, not_true_eq_false, if_false] at hok
        split at hok <;> simp at hok
        subst hok
        simp [FlowSets.flowSetHeader, hlen, hv]
    · simp [hv] at hok
  · obtain ⟨e, he⟩ := decodeMessage_short cp (Nat.lt_of_not_le hlen)
    rw [he] at hok
    simp at hok

set_option maxRecDepth 100000 in
theorem indicator_iff : ∀ b : Byte, b >>> 7 = 1 ↔ 128 ≤ b.val := by decide

set_option maxRecDepth 100000 in
theorem clear_flag : ∀ b : Byte, 128 ≤ b.val → (b ^^^ 0x80).val = b.val - 128 := by decide

theorem bigEndian_two (a b : Byte) : bigEndian [a, b] = a.val * 256 + b.val := by
  simp [bigEndian]

theorem bigEndian_four (a b c d : Byte) :
    bigEndian [a, b, c, d] = ((a.val * 256 + b.val) * 256 + c.val) * 256 + d.val := by
  simp [bigEndian]

theorem decode_two_two (b0 b1 b2 b3 : Byte) (bs : List Byte) :
    decode (b0 :: b1 :: b2 :: b3 :: bs) [2, 2] = (none, [[b0, b1], [b2, b3]], bs) := by
  simp [decode, decodeLoop, binaryRead]

theorem decode_two_two_short {buffer : List Byte} (h : buffer.length < 4) :
    ∃ e values, decode buffer [2, 2] = (some e, values, []) :=
  decodeLoop_short [2, 2] (by decide) none buffer (by simpa using h)

theorem decode_four (b0 b1 b2 b3 : Byte) (bs : List Byte) :
    decode (b0 :: b1 :: b2 :: b3 :: bs) [4] = (none, [[b0, b1, b2, b3]], bs) := by
  simp [decode, decodeLoop, binaryRead]

theorem decode_four_short {buffer : List Byte} (h : buffer.length < 4) :
    ∃ e values, decode buffer [4] = (some e, values, []) :=
  decodeLoop_short [4] (by decide) none buffer (by simpa using h)

theorem specTemplateFields_short (n : Nat) {buffer : List Byte} (h : buffer.length < 4) :
    specTemplateFields (n + 1) buffer = none := by
  rcases buffer with _ | ⟨a, _ | ⟨b, _ | ⟨c, _ | ⟨d, bs⟩⟩⟩⟩ <;> first | rfl | (simp at h; omega)

theorem decodeTemplateFields_refines (n : Nat) :
    ∀ (buffer : List Byte) (acc : List TemplateField),
      match specTemplateFields n buffer with
      | some (fs, tail) => decodeTemplateFields n buffer acc = (Result.ok (acc ++ fs), tail)
      | none => ∃ e rest, decodeTemplateFields n buffer acc = (Result.error e, rest) := by
  induction n with
  | zero => intro buffer acc; simp [specTemplateFields, decodeTemplateFields]
  | succ n ih =>
    intro buffer acc
    by_cases hlen : buffer.length < 4
    · rw [specTemplateFields_short n hlen]
      obtain ⟨e, values, he⟩ := decode_two_two_short hlen
      refine ⟨Err.decodingMessage e, [], ?_⟩
      simp only [decodeTemplateFields, he]
    · obtain ⟨i0, i1, l0, l1, bs, rfl⟩ : ∃ i0 i1 l0 l1 bs, buffer = i0 :: i1 :: l0 :: l1 :: bs := by
        rcases buffer with _ | ⟨a, _ | ⟨b, _ | ⟨c, _ | ⟨d, bs⟩⟩⟩⟩ <;> simp at hlen
        exact ⟨_, _, _, _, _, rfl⟩
      by_cases hflag : 128 ≤ i0.val
      · have hid : 32768 ≤ i0.val * 256 + i1.val := by omega
        have hind : i0 >>> 7 = 1 := (indicator_iff i0).2 hflag
        by_cases hlen' : bs.length < 4
        · have hspec : specTemplateFields (n + 1) (i0 :: i1 :: l0 :: l1 :: bs) = none := by
            rcases bs with _ | ⟨a, _ | ⟨b, _ | ⟨c, _ | ⟨d, bs⟩⟩⟩⟩ <;>
              first | (exfalso; simp at hlen'; omega) | simp [specTemplateFields, hid]
          rw [hspec]
          obtain ⟨e, values, he⟩ := decode_four_short hlen'
          refine ⟨Err.decodingMessage e, [], ?_⟩
          simp only [decodeTemplateFields, decode_two_two, List.getD_cons_zero, hind, ne_eq,
            not_true_eq_false, if_false, he]
        · obtain ⟨e0, e1, e2, e3, bs', rfl⟩ : ∃ e0 e1 e2 e3 bs', bs = e0 :: e1 :: e2 :: e3 :: bs' := by
            rcases bs with _ | ⟨a, _ | ⟨b, _ | ⟨c, _ | ⟨d, bs⟩⟩⟩⟩ <;> simp at hlen'
            exact ⟨_, _, _, _, _, rfl⟩
          have hstep := ih bs' (acc ++ [(⟨i0.val * 256 + i1.val - 32768,
            l0.val * 256 + l1.val,
            ((e0.val * 256 + e1.val) * 256 + e2.val) * 256 + e3.val⟩ : TemplateField)])
          have hdec : decodeTemplateFields (n + 1) (i0 :: i1 :: l0 :: l1 :: e0 :: e1 :: e2 :: e3 :: bs') acc
              = decodeTemplateFields n bs' (acc ++ [(⟨i0.val * 256 + i1.val - 32768,
                  l0.val * 256 + l1.val,
                  ((e0.val * 256 + e1.val) * 256 + e2.val) * 256 + e3.val⟩ : TemplateField)]) := by
            have hx : (i0 ^^^ 0x80).val * 256 + i1.val = i0.val * 256 + i1.val - 32768 := by
              rw [clear_flag i0 hflag]; omega
            rw [decodeTemplateFields]
            simp only [decode_two_two, decode_four, List.getD_cons_zero,
              List.getD_cons_succ, hind, ne_eq, not_true_eq_false, if_false,
              List.set_cons_zero, bigEndian_two, bigEndian_four, hx]
          simp only [specTemplateFields, hid, if_true]
          rw [hdec]
          cases hs : specTemplateFields n bs' with
          | none => rw [hs] at hstep; simpa using hstep
          | some p =>
            obtain ⟨fs, tail⟩ := p
            rw [hs] at hstep
            simpa using hstep
      · have hid : ¬ 32768 ≤ i0.val * 256 + i1.val := by have := i1.isLt; omega
        have hind : ¬ i0 >>> 7 = 1 := fun h => hflag ((indicator_iff i0).1 h)
        have hstep := ih bs (acc ++ [(⟨i0.val * 256 + i1.val,
            l0.val * 256 + l1.val, 0⟩ : TemplateField)])
        have hdec : decodeTemplateFields (n + 1) (i0 :: i1 :: l0 :: l1 :: bs) acc
              = decodeTemplateFields n bs (acc ++ [(⟨i0.val * 256 + i1.val,
                  l0.val * 256 + l1.val, 0⟩ : TemplateField)]) := by
          rw [decodeTemplateFields]
          simp only [decode_two_two, List.getD_cons_zero,
              List.getD_cons_succ, hind, ne_eq, not_false_eq_true, if_true, bigEndian_two]
        simp only [specTemplateFields, hid, if_false]
        rw [hdec]
        cases hs : specTemplateFields n bs with
        | none => rw [hs] at hstep; simpa using hstep
        | some p =>
          obtain ⟨fs, tail⟩ := p
          rw [hs] at hstep
          simpa using hstep

theorem decode_record_header {buffer : List Byte} (h : 4 ≤ buffer.length) :
    decode buffer [2, 2] = (none, [buffer.take 2, (buffer.drop 2).take 2], buffer.drop 4) := by
  have := decodeLoop_enough [2, 2] none buffer (by simpa using h)
  simpa [decode, chunks, List.drop_drop] using this

theorem specTemplateFields_sound (n : Nat) :
    ∀ (buffer : List Byte) (fields : List TemplateField) (tail : List Byte),
      specTemplateFields n buffer = some (fields, tail) →
        fields.length = n ∧ ∀ f ∈ fields, f.ElementID < 32768 := by
  induction n with
  | zero =>
    intro buffer fields tail h
    simp [specTemplateFields] at h
    obtain ⟨rfl, _⟩ := h
    simp
  | succ n ih =>
    intro buffer fields tail h
    rcases buffer with _ | ⟨i0, _ | ⟨i1, _ | ⟨l0, _ | ⟨l1, bs⟩⟩⟩⟩ <;>
      try (simp [specTemplateFields] at h; done)
    simp only [specTemplateFields] at h
    have hi0 := i0.isLt
    have hi1 := i1.isLt
    split_ifs at h with hid
    · rcases bs with _ | ⟨e0, _ | ⟨e1, _ | ⟨e2, _ | ⟨e3, bs'⟩⟩⟩⟩ <;> try (simp at h; done)
      simp only at h
      cases hs : specTemplateFields n bs' with
      | none => simp [hs] at h
      | some p =>
        obtain ⟨fs, tl⟩ := p
        simp only [hs, Option.some.injEq, Prod.mk.injEq] at h
        obtain ⟨hlen, hall⟩ := ih bs' fs tl hs
        obtain ⟨rfl, _⟩ := h
        refine ⟨by simp [hlen], ?_⟩
        intro f hf
        rcases List.mem_cons.1 hf with rfl | hf
        · show i0.val * 256 + i1.val - 32768 < 32768
          omega
        · exact hall f hf
    · cases hs : specTemplateFields n bs with
      | none => simp [hs] at h
      | some p =>
        obtain ⟨fs, tl⟩ := p
        simp only [hs, Option.some.injEq, Prod.mk.injEq] at h
        obtain ⟨hlen, hall⟩ := ih bs fs tl hs
        obtain ⟨rfl, _⟩ := h
        refine ⟨by simp [hlen], ?_⟩
        intro f hf
        rcases List.mem_cons.1 hf with rfl | hf
        · show i0.val * 256 + i1.val < 32768
          omega
        · exact hall f hf

/-! ## The template cache -/

theorem lookupTemplate_addTemplate_same (cp : CollectingProcess) (d t : Nat)
    (fields : List TemplateField) : lookupTemplate (addTemplate cp d t fields) d t = some fields := by
  simp [lookupTemplate, addTemplate]

theorem lookupTemplate_addTemplate_other (cp : CollectingProcess) (A X B Y : Nat)
    (fields : List TemplateField) (h : (B, Y) ≠ (A, X)) :
    lookupTemplate (addTemplate cp A X fields) B Y = lookupTemplate cp B Y := by
  by_cases hB : B = A
  · subst hB
    have hY : Y ≠ X := fun hy => h (by rw [hy])
    simp only [lookupTemplate, addTemplate, if_true, if_neg hY]
    cases cp.templatesMap B <;> rfl
  · simp [lookupTemplate, addTemplate, hB]

theorem getTemplate_addTemplate_same (cp : CollectingProcess) (d t : Nat)
    (fields : List TemplateField) :
    getTemplate (addTemplate cp d t fields) d t = (Result.ok fields, addTemplate cp d t fields) := by
  simp [getTemplate, lookupTemplate_addTemplate_same]

theorem decodeTemplateRecord_ok {cp cp' : CollectingProcess} {buffer rest : List Byte}
    {d : Nat} {fields : List TemplateField}
    (h : decodeTemplateRecord cp buffer d = (Result.ok fields, cp', rest)) :
    4 ≤ buffer.length ∧ cp' = addTemplate cp d (beAt buffer 0 2) fields := by
  by_cases hlen : 4 ≤ buffer.length
  · refine ⟨hlen, ?_⟩
    simp only [decodeTemplateRecord, decode_record_header hlen, List.getD_cons_zero,
      List.getD_cons_succ] at h
    split at h <;> simp at h
    obtain ⟨rfl, rfl, _⟩ := h
    simp [beAt]
  · obtain ⟨e, values, he⟩ := decode_two_two_short (Nat.lt_of_not_le hlen)
    simp [decodeTemplateRecord, he] at h

/-! ## The test encoder -/

theorem byteOf_val (n : Nat) : (byteOf n).val = n % 256 := rfl

theorem bigEndian_be16 {n : Nat} (h : n < 65536) : bigEndian (be16 n) = n := by
  simp only [be16, bigEndian_two, byteOf_val]
  omega

theorem bigEndian_be32 {n : Nat} (h : n < 4294967296) : bigEndian (be32 n) = n := by
  simp only [be32, bigEndian_four, byteOf_val]
  omega

theorem decodeMessage_encodeHeaders (cp : CollectingProcess)
    (length exportTime seqNumber obsDomainID setID setLength : Nat) (body : List Byte)
    (hd : obsDomainID < 4294967296) (hs : setID < 65536) :
    ∃ (bl et sn sl : Nat),
    DecodeMessage cp
        (encodeHeaders length exportTime seqNumber obsDomainID setID setLength ++ body) =
      if setID = 2 then
        match decodeTemplateRecord cp body obsDomainID with
        | (Result.ok records, cp', rest') =>
          (Result.ok { Version := 10, BufferLength := bl,
                       SeqNumber := sn, ObsDomainID := obsDomainID,
                       ExportTime := et,
                       FlowSets := FlowSets.template
                         { header := { ID := setID, Length := sl },
                           Records := records } }, cp', rest')
        | (Result.error e, cp', rest') => (Result.error (Err.decodingMessage e), cp', rest')
        | (Result.runtimePanic, cp', rest') => (Result.runtimePanic, cp', rest')
      else
        match decodeDataRecord cp body obsDomainID setID with
        | (Result.ok records, cp', rest') =>
          (Result.ok { Version := 10, BufferLength := bl,
                       SeqNumber := sn, ObsDomainID := obsDomainID,
                       ExportTime := et,
                       FlowSets := FlowSets.data
                         { header := { ID := setID, Length := sl },
                           Records := records } }, cp', rest')
        | (Result.error e, cp', rest') => (Result.error (Err.decodingMessage e), cp', rest')
        | (Result.runtimePanic, cp', rest') => (Result.runtimePanic, cp', rest') := by
  have hlen : 20 ≤ (encodeHeaders length exportTime seqNumber obsDomainID setID setLength ++
      body).length := by
    simp [encodeHeaders, be16, be32]
  have hv : beAt (encodeHeaders length exportTime seqNumber obsDomainID setID setLength ++ body)
      0 2 = 10 := by
    simp [encodeHeaders, beAt, be16, be32, bigEndian, byteOf_val]
  have hdom : beAt (encodeHeaders length exportTime seqNumber obsDomainID setID setLength ++ body)
      12 4 = obsDomainID := by
    have := bigEndian_be32 hd
    simpa [encodeHeaders, beAt, be16, be32] using this
  have hset : beAt (encodeHeaders length exportTime seqNumber obsDomainID setID setLength ++ body)
      16 2 = setID := by
    have := bigEndian_be16 hs
    simpa [encodeHeaders, beAt, be16, be32] using this
  have hrest : (encodeHeaders length exportTime seqNumber obsDomainID setID setLength ++
      body).drop 20 = body := by
    simp [encodeHeaders, be16, be32]
  refine ⟨beAt (encodeHeaders length exportTime seqNumber obsDomainID setID setLength ++ body) 2 2,
    beAt (encodeHeaders length exportTime seqNumber obsDomainID setID setLength ++ body) 4 4,
    beAt (encodeHeaders length exportTime seqNumber obsDomainID setID setLength ++ body) 8 4,
    beAt (encodeHeaders length exportTime seqNumber obsDomainID setID setLength ++ body) 18 2, ?_⟩
  rw [decodeMessage_of_header cp hlen, hv, hdom, hset, hrest]
  simp only [ne_eq, not_true_eq_false, if_false]

theorem decodeTemplateRecord_of_spec (cp : CollectingProcess) (templateBuffer : List Byte)
    (obsDomainID : Nat) (fields : List TemplateField) (tail : List Byte)
    (hlong : 4 ≤ templateBuffer.length)
    (hspec : specTemplateFields (beAt templateBuffer 2 2) (templateBuffer.drop 4) =
      some (fields, tail)) :
    decodeTemplateRecord cp templateBuffer obsDomainID =
        (Result.ok fields, addTemplate cp obsDomainID (beAt templateBuffer 0 2) fields, tail) := by
  have href := decodeTemplateFields_refines (beAt templateBuffer 2 2) (templateBuffer.drop 4) []
  rw [hspec] at href
  simp only [List.nil_append] at href
  simp only [decodeTemplateRecord, decode_record_header hlong, List.getD_cons_zero,
    List.getD_cons_succ]
  simp only [beAt, List.drop_zero] at href ⊢
  rw [href]

theorem specTemplateFields_encode (fields : List TemplateField) (tail : List Byte)
    (hf : ∀ f ∈ fields, f.ElementID < 32768 ∧ f.ElementLength < 65536 ∧
      f.EnterpriseID < 4294967296) :
    specTemplateFields fields.length (encodeTemplateFields fields ++ tail) = some (fields, tail) := by
  induction fields with
  | nil => simp [specTemplateFields, encodeTemplateFields]
  | cons f fields ih =>
    obtain ⟨hid, hlen, hent⟩ := hf f (List.mem_cons_self _ _)
    have ih' := ih (fun g hg => hf g (List.mem_cons_of_mem _ hg))
    obtain ⟨id, len, ent⟩ := f
    simp only at hid hlen hent
    by_cases h0 : ent = 0
    · subst h0
      have h1 : ¬ 32768 ≤ id / 256 % 256 * 256 + id % 256 := by omega
      have h2 : id / 256 % 256 * 256 + id % 256 = id := by omega
      have h3 : len / 256 % 256 * 256 + len % 256 = len := by omega
      have h1' : ¬ 32768 ≤ id := by omega
      simp [encodeTemplateFields, encodeTemplateField, be16, specTemplateFields, byteOf_val,
        h1, h1', h2, h3, ih']
    · have h1 : 32768 ≤ (id + 32768) / 256 % 256 * 256 + (id + 32768) % 256 := by omega
      have h2 : (id + 32768) / 256 % 256 * 256 + (id + 32768) % 256 - 32768 = id := by omega
      have h3 : len / 256 % 256 * 256 + len % 256 = len := by omega
      have h4 : ((ent / 16777216 % 256 * 256 + ent / 65536 % 256) * 256 + ent / 256 % 256) * 256 +
          ent % 256 = ent := by omega
      simp [encodeTemplateFields, encodeTemplateField, be16, be32, specTemplateFields,
        byteOf_val, h0, h1, h2, h3, h4, ih']

theorem decodeTemplateRecord_encoded (cp : CollectingProcess) (d t : Nat)
    (fields : List TemplateField) (ht : t < 65536) (hn : fields.length < 65536)
    (hf : ∀ f ∈ fields, f.ElementID < 32768 ∧ f.ElementLength < 65536 ∧
      f.EnterpriseID < 4294967296) :
    decodeTemplateRecord cp (be16 t ++ be16 fields.length ++ encodeTemplateFields fields) d =
      (Result.ok fields, addTemplate cp d t fields, []) := by
  have hspec := specTemplateFields_encode fields [] hf
  have h1 : beAt (be16 t ++ be16 fields.length ++ encodeTemplateFields fields) 0 2 = t := by
    have := bigEndian_be16 ht
    simpa [beAt, be16] using this
  have h2 : beAt (be16 t ++ be16 fields.length ++ encodeTemplateFields fields) 2 2 =
      fields.length := by
    have := bigEndian_be16 hn
    simpa [beAt, be16] using this
  have h3 : (be16 t ++ be16 fields.length ++ encodeTemplateFields fields).drop 4 =
      encodeTemplateFields fields ++ [] := by
    simp [be16]
  have := decodeTemplateRecord_of_spec cp (be16 t ++ be16 fields.length ++
    encodeTemplateFields fields) d fields [] (by simp [be16]) (by rw [h2, h3]; exact hspec)
  rw [h1] at this
  exact this

theorem getDataType_of_known {cp : CollectingProcess} {f : TemplateField}
    (h : knownToRegistries cp f = true) : ∃ dataType, getDataType cp f = Result.ok dataType := by
  simp only [knownToRegistries, Registry.knows, Bool.or_eq_true, Bool.and_eq_true,
    decide_eq_true_eq, Option.isSome_iff_exists] at h
  rcases h with ⟨h0, ie, hie⟩ | ⟨h1, ie, hie⟩
  · exact ⟨ie.DataType, by simp [getDataType, h0, hie]⟩
  · exact ⟨ie.DataType, by simp [getDataType, h1, hie]⟩

theorem decodeDataFields_encoded (cp : CollectingProcess) (fields : List TemplateField) :
    ∀ (values : List (List Byte)) (tail : List Byte) (acc : List DataField),
      values.map List.length = fields.map TemplateField.ElementLength →
      (∀ f ∈ fields, knownToRegistries cp f = true) →
      ∃ records, decodeDataFields cp fields (encodeValues values ++ tail) acc =
          (Result.ok (acc ++ records), tail) ∧
        records.length = fields.length ∧ records.map DataField.Value = values := by
  induction fields with
  | nil =>
    intro values tail acc hlen _
    have : values = [] := by simpa using hlen
    subst this
    exact ⟨[], by simp [decodeDataFields, encodeValues]⟩
  | cons f fields ih =>
    intro values tail acc hlen hk
    cases values with
    | nil => simp at hlen
    | cons v values =>
      simp only [List.map_cons, List.cons.injEq] at hlen
      obtain ⟨dataType, hdt⟩ := getDataType_of_known (hk f (List.mem_cons_self _ _))
      obtain ⟨records, hrec, hrl, hrv⟩ := ih values tail
        (acc ++ [{ DataType := dataType, Value := v }]) hlen.2
        (fun g hg => hk g (List.mem_cons_of_mem _ hg))
      refine ⟨{ DataType := dataType, Value := v } :: records, ?_, by simp [hrl], by simp [hrv]⟩
      have htake : List.take f.ElementLength (v ++ (encodeValues values ++ tail)) = v := by
        rw [← hlen.1]; simp
      have hdrop : List.drop f.ElementLength (v ++ (encodeValues values ++ tail)) =
          encodeValues values ++ tail := by
        rw [← hlen.1]; simp
      simp only [decodeDataFields, bufferNext, encodeValues, List.append_assoc, htake, hdrop, hdt,
        hrec, List.singleton_append]

theorem knownToRegistries_addTemplate (cp : CollectingProcess) (d t : Nat)
    (fields : List TemplateField) (f : TemplateField) :
    knownToRegistries (addTemplate cp d t fields) f = knownToRegistries cp f := rfl

/-! ## Data records -/

theorem decodeDataFields_panics (cp : CollectingProcess) (fields : List TemplateField) :
    ∀ (buffer : List Byte) (acc : List DataField),
      (∃ f ∈ fields, getDataType cp f = Result.runtimePanic) →
      (∀ f ∈ fields, ∀ e, getDataType cp f ≠ Result.error e) →
      (decodeDataFields cp fields buffer acc).1 = Result.runtimePanic := by
  induction fields with
  | nil => intro buffer acc h; simp at h
  | cons f fields ih =>
    intro buffer acc h hne
    cases hdt : getDataType cp f with
    | runtimePanic => simp [decodeDataFields, bufferNext, hdt]
    | error e => exact absurd hdt (hne f (List.mem_cons_self _ _) e)
    | ok dataType =>
      obtain ⟨g, hg, hgp⟩ := h
      rcases List.mem_cons.1 hg with rfl | hg
      · rw [hdt] at hgp; cases hgp
      · simp only [decodeDataFields, bufferNext, hdt]
        exact ih _ _ ⟨g, hg, hgp⟩ (fun f' hf' => hne f' (List.mem_cons_of_mem _ hf'))

theorem getDataType_ne_error (cp : CollectingProcess) (f : TemplateField) (e : Err) :
    getDataType cp f ≠ Result.error e := by
  simp only [getDataType]
  split_ifs <;> (try split) <;> (try split) <;> simp

theorem addTemplate_addTemplate (cp : CollectingProcess) (d t : Nat)
    (f g : List TemplateField) :
    addTemplate (addTemplate cp d t f) d t g = addTemplate cp d t g := by
  have hmap : (addTemplate (addTemplate cp d t f) d t g).templatesMap =
      (addTemplate cp d t g).templatesMap := by
    funext d'
    by_cases hd : d' = d
    · subst hd
      simp only [addTemplate, if_true, Option.some.injEq]
      funext t'
      by_cases ht : t' = t
      · simp [ht]
      · simp [ht]
    · simp [addTemplate, hd]
  cases h1 : addTemplate (addTemplate cp d t f) d t g with
  | mk m1 i1 a1 =>
    cases h2 : addTemplate cp d t g with
    | mk m2 i2 a2 =>
      have hi : i1 = i2 := by
        have e1 := congrArg CollectingProcess.ianaRegistry h1
        have e2 := congrArg CollectingProcess.ianaRegistry h2
        simp only [addTemplate] at e1 e2
        rw [← e1, ← e2]
      have ha : a1 = a2 := by
        have e1 := congrArg CollectingProcess.antreaRegistry h1
        have e2 := congrArg CollectingProcess.antreaRegistry h2
        simp only [addTemplate] at e1 e2
        rw [← e1, ← e2]
      have hm : m1 = m2 := by
        rw [h1, h2] at hmap
        exact hmap
      rw [hi, ha, hm]

theorem lookupTemplate_addTemplate (cp : CollectingProcess) (A X B Y : Nat)
    (fields : List TemplateField) :
    lookupTemplate (addTemplate cp A X fields) B Y =
      if A = B ∧ X = Y then some fields else lookupTemplate cp B Y := by
  by_cases h : A = B ∧ X = Y
  · obtain ⟨rfl, rfl⟩ := h
    simp [lookupTemplate_addTemplate_same]
  · rw [if_neg h]
    exact lookupTemplate_addTemplate_other cp A X B Y fields
      (fun hk => h ⟨(congrArg Prod.fst hk).symm, (congrArg Prod.snd hk).symm⟩)

theorem lookupTemplate_installAll (ops : List (Nat × Nat × List TemplateField)) (d t : Nat) :
    ∀ cp : CollectingProcess,
      lookupTemplate (installAll cp ops) d t =
        match lastInstalled ops d t with
        | some fields => some fields
        | none => lookupTemplate cp d t := by
  induction ops with
  | nil => intro cp; rfl
  | cons op ops ih =>
    intro cp
    have hstep : installAll cp (op :: ops) = installAll (addTemplate cp op.1 op.2.1 op.2.2) ops :=
      rfl
    rw [hstep, ih, lookupTemplate_addTemplate]
    simp only [lastInstalled]
    cases lastInstalled ops d t with
    | some fields => rfl
    | none => by_cases h : op.1 = d ∧ op.2.1 = t <;> simp [h]

theorem lastInstalled_eq_none (ops : List (Nat × Nat × List TemplateField)) (d t : Nat) :
    lastInstalled ops d t = none ↔ ∀ op ∈ ops, (op.1, op.2.1) ≠ (d, t) := by
  induction ops with
  | nil => simp [lastInstalled]
  | cons op ops ih =>
    simp only [lastInstalled, List.mem_cons, forall_eq_or_imp]
    cases hl : lastInstalled ops d t with
    | some fields =>
      rw [hl] at ih
      simp only [false_iff, reduceCtorEq] at ih ⊢
      exact fun h => ih h.2
    | none =>
      rw [hl] at ih
      simp only [true_iff] at ih
      by_cases h : op.1 = d ∧ op.2.1 = t
      · simp [h]
      · have : (op.1, op.2.1) ≠ (d, t) := fun hk =>
          h ⟨congrArg Prod.fst hk, congrArg Prod.snd hk⟩
        simp only [if_neg h, true_iff]
        exact ⟨this, ih⟩

/-! ## What a call leaves behind -/

theorem decodeDataRecord_state (cp : CollectingProcess) (buffer : List Byte) (d t : Nat) :
    (decodeDataRecord cp buffer d t).2.1 = cp := by
  simp only [decodeDataRecord, getTemplate]
  cases lookupTemplate cp d t <;> rfl

theorem decodeTemplateRecord_state (cp : CollectingProcess) (buffer : List Byte) (d : Nat) :
    (decodeTemplateRecord cp buffer d).2.1 = cp ∨
      ∃ fields, (decodeTemplateRecord cp buffer d).1 = Result.ok fields ∧
        (decodeTemplateRecord cp buffer d).2.1 = addTemplate cp d (beAt buffer 0 2) fields := by
  cases h : decodeTemplateRecord cp buffer d with
  | mk r p =>
    obtain ⟨cp', rest⟩ := p
    cases r with
    | ok fields =>
      exact Or.inr ⟨fields, rfl, (decodeTemplateRecord_ok h).2⟩
    | error e =>
      left
      simp only [decodeTemplateRecord] at h
      split at h
      · simp only [Prod.mk.injEq] at h; exact h.2.1.symm
      · split at h <;> simp only [Prod.mk.injEq, reduceCtorEq, false_and] at h
        exact h.2.1.symm
    | runtimePanic =>
      left
      simp only [decodeTemplateRecord] at h
      split at h
      · simp only [Prod.mk.injEq, reduceCtorEq, false_and] at h
      · split at h <;> simp only [Prod.mk.injEq, reduceCtorEq, false_and] at h
        exact h.2.1.symm

theorem decodeMessage_state (cp : CollectingProcess) (buffer : List Byte) :
    (DecodeMessage cp buffer).2.1 = cp ∨
      ∃ fields, (DecodeMessage cp buffer).2.1 =
        addTemplate cp (beAt buffer 12 4) (beAt buffer 20 2) fields ∧
        20 ≤ buffer.length ∧ beAt buffer 16 2 = 2 := by
  by_cases hlen : 20 ≤ buffer.length
  · rw [decodeMessage_of_header cp hlen]
    by_cases hv : beAt buffer 0 2 = 10
    · by_cases hs : beAt buffer 16 2 = 2
      · simp only [hv, hs, ne_eq, not_true_eq_false, if_false, if_true]
        have hb : beAt (List.drop 20 buffer) 0 2 = beAt buffer 20 2 := by simp [beAt]
        rcases decodeTemplateRecord_state cp (buffer.drop 20) (beAt buffer 12 4) with h | h
        · left
          generalize decodeTemplateRecord cp (buffer.drop 20) (beAt buffer 12 4) = x at h ⊢
          obtain ⟨r, cp', rest⟩ := x
          cases r <;> exact h
        · obtain ⟨fields, hok, hcp⟩ := h
          right
          refine ⟨fields, ?_, hlen, trivial⟩
          rw [hb] at hcp
          generalize decodeTemplateRecord cp (buffer.drop 20) (beAt buffer 12 4) = x at hok hcp ⊢
          obtain ⟨r, cp', rest⟩ := x
          cases r <;> exact hcp
      · left
        simp only [hv, hs, ne_eq, not_true_eq_false, if_false]
        have h := decodeDataRecord_state cp (buffer.drop 20) (beAt buffer 12 4) (beAt buffer 16 2)
        generalize decodeDataRecord cp (buffer.drop 20) (beAt buffer 12 4) (beAt buffer 16 2) = x
          at h ⊢
        obtain ⟨r, cp', rest⟩ := x
        cases r <;> exact h
    · left; simp [hv]
  · obtain ⟨e, he⟩ := decodeMessage_short cp (Nat.lt_of_not_le hlen)
    left; rw [he]

theorem lookupTemplate_isSome_addTemplate {cp : CollectingProcess} {d t : Nat}
    (h : (lookupTemplate cp d t).isSome = true) (A X : Nat) (fields : List TemplateField) :
    (lookupTemplate (addTemplate cp A X fields) d t).isSome = true := by
  rw [lookupTemplate_addTemplate]
  split_ifs
  · rfl
  · exact h

theorem lookupTemplate_isSome_decodeMessage {cp : CollectingProcess} {d t : Nat}
    (h : (lookupTemplate cp d t).isSome = true) (buffer : List Byte) :
    (lookupTemplate (DecodeMessage cp buffer).2.1 d t).isSome = true := by
  rcases decodeMessage_state cp buffer with hs | ⟨fields, hs, _⟩
  · rw [hs]; exact h
  · rw [hs]; exact lookupTemplate_isSome_addTemplate h _ _ _

theorem decodeAll_cons (cp : CollectingProcess) (buffer : List Byte)
    (buffers : List (List Byte)) :
    decodeAll cp (buffer :: buffers) = decodeAll (DecodeMessage cp buffer).2.1 buffers := by
  simp only [decodeAll, List.foldl_cons]

theorem lookupTemplate_isSome_decodeAll (buffers : List (List Byte)) :
    ∀ {cp : CollectingProcess} {d t : Nat}, (lookupTemplate cp d t).isSome = true →
      (lookupTemplate (decodeAll cp buffers) d t).isSome = true := by
  induction buffers with
  | nil => intro cp d t h; exact h
  | cons b bs ih =>
    intro cp d t h
    rw [decodeAll_cons]
    exact ih (lookupTemplate_isSome_decodeMessage h b)

theorem getTemplate_ok_iff (cp : CollectingProcess) (d t : Nat) :
    (∃ fields, (getTemplate cp d t).1 = Result.ok fields) ↔
      (lookupTemplate cp d t).isSome = true := by
  simp only [getTemplate]
  cases lookupTemplate cp d t <;> simp

theorem getTemplate_ok_eq (cp : CollectingProcess) (d t : Nat) (fields : List TemplateField) :
    (getTemplate cp d t).1 = Result.ok fields ↔ lookupTemplate cp d t = some fields := by
  simp only [getTemplate]
  cases lookupTemplate cp d t <;> simp

/-! ## Truncated input -/

theorem decodeTemplateRecord_truncated (cp : CollectingProcess) (buffer : List Byte) (d : Nat)
    (h : buffer.length < 4 ∨
      specTemplateFields (beAt buffer 2 2) (buffer.drop 4) = none) :
    ∃ e rest, decodeTemplateRecord cp buffer d = (Result.error e, cp, rest) := by
  by_cases hlen : buffer.length < 4
  · obtain ⟨e, values, he⟩ := decode_two_two_short hlen
    exact ⟨Err.decodingMessage e, [], by simp only [decodeTemplateRecord, he]⟩
  · have hspec : specTemplateFields (beAt buffer 2 2) (buffer.drop 4) = none := by
      rcases h with h | h
      · exact absurd h hlen
      · exact h
    have href := decodeTemplateFields_refines (beAt buffer 2 2) (buffer.drop 4) []
    rw [hspec] at href
    obtain ⟨e, rest, he⟩ := href
    refine ⟨e, rest, ?_⟩
    simp only [beAt] at he
    simp only [decodeTemplateRecord, decode_record_header (Nat.le_of_not_lt hlen),
      List.getD_cons_zero, List.getD_cons_succ, he]

theorem decodeDataFields_known (cp : CollectingProcess) (fields : List TemplateField) :
    ∀ (buffer : List Byte) (acc : List DataField),
      (∀ f ∈ fields, knownToRegistries cp f = true) →
      ∃ records, decodeDataFields cp fields buffer acc =
          (Result.ok (acc ++ records),
            buffer.drop (fields.map TemplateField.ElementLength).sum) ∧
        records.length = fields.length ∧
        records.map DataField.Value =
          nextValues (fields.map TemplateField.ElementLength) buffer := by
  induction fields with
  | nil =>
    intro buffer acc _
    exact ⟨[], by simp [decodeDataFields, nextValues]⟩
  | cons f fields ih =>
    intro buffer acc hk
    obtain ⟨dataType, hdt⟩ := getDataType_of_known (hk f (List.mem_cons_self _ _))
    obtain ⟨records, hrec, hrl, hrv⟩ := ih (buffer.drop f.ElementLength)
      (acc ++ [{ DataType := dataType, Value := buffer.take f.ElementLength }])
      (fun g hg => hk g (List.mem_cons_of_mem _ hg))
    refine ⟨{ DataType := dataType, Value := buffer.take f.ElementLength } :: records, ?_,
      by simp [hrl], by simp [hrv, nextValues]⟩
    simp only [decodeDataFields, bufferNext, hdt, hrec, List.append_assoc,
      List.singleton_append, List.map_cons, List.sum_cons, List.drop_drop]

theorem decodeDataRecord_known (cp : CollectingProcess) (buffer : List Byte) (d t : Nat)
    (template : List TemplateField) (hcached : lookupTemplate cp d t = some template)
    (hknown : ∀ f ∈ template, knownToRegistries cp f = true) :
    ∃ records, decodeDataRecord cp buffer d t =
        (Result.ok records, cp,
          buffer.drop (template.map TemplateField.ElementLength).sum) ∧
      records.length = template.length ∧
      records.map DataField.Value =
        nextValues (template.map TemplateField.ElementLength) buffer := by
  obtain ⟨records, hrec, hrl, hrv⟩ := decodeDataFields_known cp template buffer [] hknown
  refine ⟨records, ?_, hrl, hrv⟩
  simp only [decodeDataRecord, getTemplate, hcached, hrec, List.nil_append]

/-! ## The bytes a call consumes -/

theorem binaryRead_rest (buffer : List Byte) (n : Nat) :
    ∃ k, (binaryRead buffer n).2.2 = buffer.drop k := by
  unfold binaryRead
  split_ifs
  · exact ⟨n, rfl⟩
  · exact ⟨buffer.length, by simp⟩
  · exact ⟨buffer.length, by simp⟩

theorem decodeLoop_rest (sizes : List Nat) :
    ∀ (err : Option Err) (buffer : List Byte),
      ∃ k, (decodeLoop err buffer sizes).2.2 = buffer.drop k := by
  induction sizes with
  | nil => intro err buffer; exact ⟨0, rfl⟩
  | cons n sizes ih =>
    intro err buffer
    obtain ⟨k, hk⟩ := binaryRead_rest buffer n
    obtain ⟨j, hj⟩ := ih (binaryRead buffer n).1 (binaryRead buffer n).2.2
    refine ⟨k + j, ?_⟩
    simp only [decodeLoop]
    rw [hj, hk, List.drop_drop]

theorem decode_rest (buffer : List Byte) (sizes : List Nat) :
    ∃ k, (decode buffer sizes).2.2 = buffer.drop k :=
  decodeLoop_rest sizes none buffer

theorem decodeTemplateFields_rest (n : Nat) :
    ∀ (buffer : List Byte) (acc : List TemplateField),
      ∃ k, (decodeTemplateFields n buffer acc).2 = buffer.drop k := by
  induction n with
  | zero => intro buffer acc; exact ⟨0, rfl⟩
  | succ n ih =>
    intro buffer acc
    obtain ⟨k, hk⟩ := decode_rest buffer [2, 2]
    rw [decodeTemplateFields]
    generalize decode buffer [2, 2] = x at hk ⊢
    obtain ⟨err, out, rest⟩ := x
    simp only at hk
    subst hk
    cases err with
    | some e => exact ⟨k, rfl⟩
    | none =>
      simp only
      split_ifs
      · obtain ⟨j, hj⟩ := ih (buffer.drop k) (acc ++ [(⟨bigEndian (out.getD 0 []),
          bigEndian (out.getD 1 []), 0⟩ : TemplateField)])
        exact ⟨k + j, by rw [hj, List.drop_drop]⟩
      · obtain ⟨m, hm⟩ := decode_rest (buffer.drop k) [4]
        generalize decode (buffer.drop k) [4] = y at hm ⊢
        obtain ⟨err', out', rest'⟩ := y
        simp only at hm
        subst hm
        cases err' with
        | some e => exact ⟨k + m, by simp only [List.drop_drop]⟩
        | none =>
          obtain ⟨j, hj⟩ := ih ((buffer.drop k).drop m) (acc ++ [(⟨bigEndian
            ((out.getD 0 []).set 0 ((out.getD 0 []).getD 0 0 ^^^ 0x80)),
            bigEndian (out.getD 1 []), bigEndian (out'.getD 0 [])⟩ : TemplateField)])
          exact ⟨k + m + j, by rw [hj]; simp only [List.drop_drop]⟩

theorem decodeTemplateRecord_rest (cp : CollectingProcess) (buffer : List Byte) (d : Nat) :
    ∃ k, (decodeTemplateRecord cp buffer d).2.2 = buffer.drop k := by
  obtain ⟨k, hk⟩ := decode_rest buffer [2, 2]
  simp only [decodeTemplateRecord]
  generalize decode buffer [2, 2] = x at hk ⊢
  obtain ⟨err, out, rest⟩ := x
  simp only at hk
  subst hk
  cases err with
  | some e => exact ⟨k, rfl⟩
  | none =>
    obtain ⟨j, hj⟩ := decodeTemplateFields_rest (bigEndian (out.getD 1 [])) (buffer.drop k) []
    simp only
    generalize decodeTemplateFields (bigEndian (out.getD 1 [])) (buffer.drop k) [] = y at hj ⊢
    obtain ⟨r, rest'⟩ := y
    simp only at hj
    subst hj
    cases r <;> exact ⟨k + j, by simp only [List.drop_drop]⟩

theorem decodeDataFields_rest (cp : CollectingProcess) (fields : List TemplateField) :
    ∀ (buffer : List Byte) (acc : List DataField),
      ∃ k, (decodeDataFields cp fields buffer acc).2 = buffer.drop k := by
  induction fields with
  | nil => intro buffer acc; exact ⟨0, rfl⟩
  | cons f fields ih =>
    intro buffer acc
    simp only [decodeDataFields, bufferNext]
    cases getDataType cp f with
    | ok dataType =>
      obtain ⟨j, hj⟩ := ih (buffer.drop f.ElementLength)
        (acc ++ [{ DataType := dataType, Value := buffer.take f.ElementLength }])
      exact ⟨f.ElementLength + j, by rw [hj]; simp only [List.drop_drop]⟩
    | error e => exact ⟨f.ElementLength, rfl⟩
    | runtimePanic => exact ⟨f.ElementLength, rfl⟩

theorem decodeDataRecord_rest (cp : CollectingProcess) (buffer : List Byte) (d t : Nat) :
    ∃ k, (decodeDataRecord cp buffer d t).2.2 = buffer.drop k := by
  simp only [decodeDataRecord, getTemplate]
  cases lookupTemplate cp d t with
  | none => exact ⟨0, rfl⟩
  | some template =>
    obtain ⟨k, hk⟩ := decodeDataFields_rest cp template buffer []
    exact ⟨k, by simp only [hk]⟩

theorem decodeMessage_rest (cp : CollectingProcess) (buffer : List Byte) :
    ∃ k, (DecodeMessage cp buffer).2.2 = buffer.drop k := by
  by_cases hlen : 20 ≤ buffer.length
  · rw [decodeMessage_of_header cp hlen]
    split_ifs
    · exact ⟨20, rfl⟩
    · obtain ⟨k, hk⟩ := decodeTemplateRecord_rest cp (buffer.drop 20) (beAt buffer 12 4)
      generalize decodeTemplateRecord cp (buffer.drop 20) (beAt buffer 12 4) = x at hk ⊢
      obtain ⟨r, cp', rest⟩ := x
      simp only at hk
      subst hk
      cases r <;> exact ⟨20 + k, by simp only [List.drop_drop]⟩
    · obtain ⟨k, hk⟩ := decodeDataRecord_rest cp (buffer.drop 20) (beAt buffer 12 4)
        (beAt buffer 16 2)
      generalize decodeDataRecord cp (buffer.drop 20) (beAt buffer 12 4) (beAt buffer 16 2) = x
        at hk ⊢
      obtain ⟨r, cp', rest⟩ := x
      simp only at hk
      subst hk
      cases r <;> exact ⟨20 + k, by simp only [List.drop_drop]⟩
  · obtain ⟨e, he⟩ := decodeMessage_short cp (Nat.lt_of_not_le hlen)
    exact ⟨buffer.length, by rw [he]; simp⟩

theorem decodeTemplateFields_ok_spec {n : Nat} {buffer rest : List Byte}
    {records : List TemplateField}
    (h : decodeTemplateFields n buffer [] = (Result.ok records, rest)) :
    specTemplateFields n buffer = some (records, rest) := by
  have href := decodeTemplateFields_refines n buffer []
  cases hs : specTemplateFields n buffer with
  | none =>
    rw [hs] at href
    obtain ⟨e, rest', he⟩ := href
    rw [he] at h
    cases h
  | some p =>
    obtain ⟨fs, tail⟩ := p
    rw [hs] at href
    simp only [List.nil_append] at href
    rw [href] at h
    cases h
    rfl

theorem decodeTemplateRecord_ok_spec {cp cp' : CollectingProcess} {buffer rest : List Byte}
    {d : Nat} {records : List TemplateField}
    (h : decodeTemplateRecord cp buffer d = (Result.ok records, cp', rest)) :
    4 ≤ buffer.length ∧
      specTemplateFields (beAt buffer 2 2) (buffer.drop 4) = some (records, rest) := by
  obtain ⟨hlen, _⟩ := decodeTemplateRecord_ok h
  refine ⟨hlen, ?_⟩
  simp only [decodeTemplateRecord, decode_record_header hlen, List.getD_cons_zero,
    List.getD_cons_succ] at h
  cases hf : decodeTemplateFields (bigEndian (List.take 2 (List.drop 2 buffer)))
      (List.drop 4 buffer) [] with
  | mk r rest' =>
    rw [hf] at h
    cases r with
    | ok fields =>
      simp only [Prod.mk.injEq, Result.ok.injEq] at h
      obtain ⟨rfl, _, rfl⟩ := h
      exact decodeTemplateFields_ok_spec hf
    | error e => simp at h
    | runtimePanic => simp at h

theorem decodeDataFields_ok_rest (cp : CollectingProcess) (fields : List TemplateField) :
    ∀ (buffer : List Byte) (acc records : List DataField) (rest : List Byte),
      decodeDataFields cp fields buffer acc = (Result.ok records, rest) →
      rest = buffer.drop (fields.map TemplateField.ElementLength).sum := by
  induction fields with
  | nil =>
    intro buffer acc records rest h
    simp only [decodeDataFields, Prod.mk.injEq] at h
    simp [h.2]
  | cons f fields ih =>
    intro buffer acc records rest h
    simp only [decodeDataFields, bufferNext] at h
    cases hdt : getDataType cp f with
    | ok dataType =>
      rw [hdt] at h
      have := ih _ _ _ _ h
      rw [this, List.drop_drop, List.map_cons, List.sum_cons]
    | error e => rw [hdt] at h; simp at h
    | runtimePanic => rw [hdt] at h; simp at h

/-! ## Keys of the template cache -/

theorem foldl_bigEndian_lt (bs : List Byte) :
    ∀ acc : Nat, bs.foldl (fun a b => a * 256 + b.val) acc + 1 ≤ (acc + 1) * 256 ^ bs.length := by
  induction bs with
  | nil => intro acc; simp
  | cons b bs ih =>
    intro acc
    have hb := b.isLt
    have h1 := ih (acc * 256 + b.val)
    have h2 : (acc * 256 + b.val + 1) * 256 ^ bs.length ≤ ((acc + 1) * 256) * 256 ^ bs.length :=
      Nat.mul_le_mul_right _ (by omega)
    simp only [List.foldl_cons, List.length_cons, Nat.pow_succ]
    calc List.foldl (fun a b => a * 256 + b.val) (acc * 256 + b.val) bs + 1
        ≤ (acc * 256 + b.val + 1) * 256 ^ bs.length := h1
      _ ≤ ((acc + 1) * 256) * 256 ^ bs.length := h2
      _ = (acc + 1) * (256 ^ bs.length * 256) := by
          rw [Nat.mul_assoc, Nat.mul_comm 256 (256 ^ bs.length)]

theorem bigEndian_lt (bs : List Byte) : bigEndian bs < 256 ^ bs.length := by
  have := foldl_bigEndian_lt bs 0
  simp only [Nat.zero_add, Nat.one_mul] at this
  exact this

theorem beAt_lt (buffer : List Byte) (off len : Nat) : beAt buffer off len < 256 ^ len := by
  have h1 := bigEndian_lt ((buffer.drop off).take len)
  have h2 : ((buffer.drop off).take len).length ≤ len := by
    rw [List.length_take]; exact Nat.min_le_left _ _
  exact Nat.lt_of_lt_of_le h1 (Nat.pow_le_pow_right (by decide) h2)

theorem keys_in_range_decodeAll (buffers : List (List Byte)) :
    ∀ cp : CollectingProcess,
      (∀ d t, (lookupTemplate cp d t).isSome = true → d < 4294967296 ∧ t < 65536) →
      ∀ d t, (lookupTemplate (decodeAll cp buffers) d t).isSome = true →
        d < 4294967296 ∧ t < 65536 := by
  induction buffers with
  | nil => intro cp h; exact h
  | cons b bs ih =>
    intro cp h
    rw [decodeAll_cons]
    apply ih
    intro d t hsome
    rcases decodeMessage_state cp b with hs | ⟨fields, hs, _⟩
    · rw [hs] at hsome; exact h d t hsome
    · rw [hs, lookupTemplate_addTemplate] at hsome
      split_ifs at hsome with hk
      · obtain ⟨rfl, rfl⟩ := hk
        exact ⟨beAt_lt b 12 4, beAt_lt b 20 2⟩
      · exact h d t hsome

theorem getDataType_unknown_enterprise (cp : CollectingProcess) (f : TemplateField)
    (h0 : f.EnterpriseID ≠ 0) (h1 : f.EnterpriseID ≠ 55829) :
    getDataType cp f = Result.runtimePanic := by
  simp only [getDataType, if_neg h0, if_neg h1]

theorem getDataType_iana (cp : CollectingProcess) (f : TemplateField) (h0 : f.EnterpriseID = 0) :
    getDataType cp f =
      match (cp.ianaRegistry.GetInfoElement
          (cp.ianaRegistry.GetIENameFromID f.ElementID).1).1 with
      | none => Result.runtimePanic
      | some ie => Result.ok ie.DataType := by
  simp only [getDataType, if_pos h0]

theorem getDataType_antrea (cp : CollectingProcess) (f : TemplateField)
    (h1 : f.EnterpriseID = 55829) :
    getDataType cp f =
      match (cp.antreaRegistry.GetInfoElement
          (cp.antreaRegistry.GetIENameFromID f.ElementID).1).1 with
      | none => Result.runtimePanic
      | some ie => Result.ok ie.DataType := by
  have h0 : ¬ f.EnterpriseID = 0 := by rw [h1]; decide
  simp only [getDataType, if_neg h0, if_pos h1]

theorem decodeDataRecord_panics (cp : CollectingProcess) (buffer : List Byte) (d t : Nat)
    (template : List TemplateField) (hcached : lookupTemplate cp d t = some template)
    (hpanic : ∃ f ∈ template, getDataType cp f = Result.runtimePanic) :
    (decodeDataRecord cp buffer d t).1 = Result.runtimePanic := by
  have hp := decodeDataFields_panics cp template buffer [] hpanic
    (fun f _ e => getDataType_ne_error cp f e)
  simp only [decodeDataRecord, getTemplate, hcached]
  exact hp

/-! ## The FlowType2 convertor -/

theorem preservesMessageLevel_ok (m : FlowType2) : PreservesMessageLevel m (Result.ok m) := by
  intro m' h
  cases h
  rfl

theorem preservesMessageLevel_andThen {α : Type} (m : FlowType2) (r : Result α)
    (f : α → FlowType2) (hf : ∀ a, (f a).messageLevel = m.messageLevel) :
    PreservesMessageLevel m (r.andThen f) := by
  intro m' h
  cases r with
  | ok a =>
    simp only [Result.andThen, Result.ok.injEq] at h
    rw [← h]; exact hf a
  | error e => simp [Result.andThen] at h
  | runtimePanic => simp [Result.andThen] at h

theorem preservesMessageLevel_ite (m : FlowType2) (c : Prop) [Decidable c]
    (a b : Result FlowType2) (ha : PreservesMessageLevel m a) (hb : PreservesMessageLevel m b) :
    PreservesMessageLevel m (if c then a else b) := by
  by_cases hc : c
  · rw [if_pos hc]; exact ha
  · rw [if_neg hc]; exact hb

theorem addFieldToFlowType2_messageLevel (ipString : List Byte → String)
    (m : FlowType2) (ie : InfoElementWithValue) :
    PreservesMessageLevel m (addFieldToFlowType2 ipString m ie) := by
  unfold addFieldToFlowType2
  repeat' first
    | exact preservesMessageLevel_ok m
    | exact preservesMessageLevel_andThen m _ _ (fun _ => rfl)
    | apply preservesMessageLevel_ite

theorem addAllFieldsToFlowType2_messageLevel (ipString : List Byte → String)
    (record : List InfoElementWithValue) :
    ∀ (m m' : FlowType2), addAllFieldsToFlowType2 ipString m record = Result.ok m' →
      m'.messageLevel = m.messageLevel := by
  induction record with
  | nil =>
    intro m m' h
    simp only [addAllFieldsToFlowType2, Result.ok.injEq] at h
    rw [h]
  | cons ie record ih =>
    intro m m' h
    rw [addAllFieldsToFlowType2] at h
    cases hstep : addFieldToFlowType2 ipString m ie with
    | ok m₁ =>
      rw [hstep] at h
      rw [ih m₁ m' h, addFieldToFlowType2_messageLevel ipString m ie m₁ hstep]
    | error e => rw [hstep] at h; cases h
    | runtimePanic => rw [hstep] at h; cases h

/-! ## The aggregation engine -/

theorem getValue_setValue (a : Record) (k : String) (v : ElementValue) (x : String) :
    getValue (setValue a k v) x = if x = k then some v else getValue a x := by
  induction a with
  | nil =>
    by_cases h : x = k
    · simp [setValue, getValue, h]
    · have h' : ¬ k = x := fun hk => h hk.symm
      simp [setValue, getValue, h, h']
  | cons p a ih =>
    obtain ⟨n, w⟩ := p
    by_cases hn : n = k
    · subst hn
      by_cases h : x = n
      · simp [setValue, getValue, h]
      · have h' : ¬ n = x := fun hk => h hk.symm
        simp [setValue, getValue, h, h']
    · by_cases h : n = x
      · have hx : ¬ x = k := fun hk => hn (h.trans hk)
        simp [setValue, getValue, hn, h, hx]
      · simp [setValue, getValue, hn, h, ih]

theorem getValue_setValue_ne (a : Record) (k : String) (v : ElementValue) (x : String)
    (h : x ≠ k) : getValue (setValue a k v) x = getValue a x := by
  rw [getValue_setValue, if_neg h]

theorem getValue_correlateField (r a : Record) (name x : String) (h : x ≠ name) :
    getValue (correlateField r a name) x = getValue a x := by
  unfold correlateField
  split_ifs
  · cases getValue r name with
    | none => rfl
    | some v => exact getValue_setValue_ne a name v x h
  · rfl

theorem getValue_overwriteField (r a : Record) (name x : String) (h : x ≠ name) :
    getValue (overwriteField r a name) x = getValue a x := by
  unfold overwriteField
  cases getValue r name with
  | none => rfl
  | some v => exact getValue_setValue_ne a name v x h

theorem getValue_foldl_correlateField (r : Record) (names : List String) (x : String)
    (h : x ∉ names) : ∀ a : Record,
      getValue (names.foldl (correlateField r) a) x = getValue a x := by
  induction names with
  | nil => intro a; rfl
  | cons n names ih =>
    intro a
    rw [List.foldl_cons, ih (fun hx => h (List.mem_cons_of_mem _ hx)),
      getValue_correlateField r a n x (fun hx => h (hx ▸ List.mem_cons_self _ _))]

theorem getValue_foldl_overwriteField (r : Record) (names : List String) (x : String)
    (h : x ∉ names) : ∀ a : Record,
      getValue (names.foldl (overwriteField r) a) x = getValue a x := by
  induction names with
  | nil => intro a; rfl
  | cons n names ih =>
    intro a
    rw [List.foldl_cons, ih (fun hx => h (List.mem_cons_of_mem _ hx)),
      getValue_overwriteField r a n x (fun hx => h (hx ▸ List.mem_cons_self _ _))]

theorem getValue_mergeStat_other (side : Side) (r a : Record) (names : String × String × String)
    (x : String) (h1 : x ≠ names.1) (h2 : x ≠ names.2.1) (h3 : x ≠ names.2.2) :
    getValue (mergeStat side r a names) x = getValue a x := by
  unfold mergeStat
  cases getCounter r names.1 with
  | none => rfl
  | some v =>
    simp only
    cases side <;> split_ifs <;>
      simp only [getValue_setValue, if_neg h1, if_neg h2, if_neg h3]

theorem getValue_foldl_mergeStat_other (side : Side) (r : Record)
    (triples : List (String × String × String)) (x : String) (h : x ∉ statNames triples) :
    ∀ a : Record, getValue (triples.foldl (mergeStat side r) a) x = getValue a x := by
  induction triples with
  | nil => intro a; rfl
  | cons t triples ih =>
    intro a
    simp only [statNames, List.mem_cons, not_or] at h
    rw [List.foldl_cons, ih h.2.2.2, getValue_mergeStat_other side r a t x h.1 h.2.1 h.2.2.1]

theorem getValue_mergeStat_congr (side : Side) (r a a' : Record)
    (names : String × String × String)
    (h1 : getValue a names.1 = getValue a' names.1)
    (h2 : getValue a names.2.1 = getValue a' names.2.1)
    (h3 : getValue a names.2.2 = getValue a' names.2.2)
    (x : String) (hx : x = names.1 ∨ x = names.2.1 ∨ x = names.2.2) :
    getValue (mergeStat side r a names) x = getValue (mergeStat side r a' names) x := by
  have hc : getCounter a names.1 = getCounter a' names.1 := by
    simp only [getCounter, h1]
  have hxa : getValue a x = getValue a' x := by
    rcases hx with rfl | rfl | rfl
    · exact h1
    · exact h2
    · exact h3
  unfold mergeStat
  rw [hc]
  cases getCounter r names.1 with
  | none => exact hxa
  | some v =>
    simp only
    cases side <;> split_ifs <;> simp only [getValue_setValue, hxa]

theorem mem_statNames_of_mem {triples : List (String × String × String)}
    {t : String × String × String} (ht : t ∈ triples) :
    t.1 ∈ statNames triples ∧ t.2.1 ∈ statNames triples ∧ t.2.2 ∈ statNames triples := by
  induction triples with
  | nil => cases ht
  | cons t' triples ih =>
    rcases List.mem_cons.1 ht with rfl | h
    · simp [statNames]
    · obtain ⟨h1, h2, h3⟩ := ih h
      simp [statNames, h1, h2, h3]

theorem statNames_distinct {triples : List (String × String × String)}
    (hnodup : (statNames triples).Nodup) {t : String × String × String} (ht : t ∈ triples) :
    t.1 ≠ t.2.1 ∧ t.1 ≠ t.2.2 ∧ t.2.1 ≠ t.2.2 := by
  induction triples with
  | nil => cases ht
  | cons t' triples ih =>
    simp only [statNames, List.nodup_cons, List.mem_cons, not_or] at hnodup
    rcases List.mem_cons.1 ht with rfl | h
    · exact ⟨hnodup.1.1, hnodup.1.2.1, hnodup.2.1.1⟩
    · exact ih hnodup.2.2.2 h

theorem getValue_foldl_mergeStat (side : Side) (r : Record)
    (triples : List (String × String × String)) (hnodup : (statNames triples).Nodup)
    (t : String × String × String) (ht : t ∈ triples) (x : String)
    (hx : x = t.1 ∨ x = t.2.1 ∨ x = t.2.2) :
    ∀ a : Record, getValue (triples.foldl (mergeStat side r) a) x =
      getValue (mergeStat side r a t) x := by
  induction triples with
  | nil => cases ht
  | cons t' triples ih =>
    intro a
    simp only [statNames, List.nodup_cons, List.mem_cons, not_or] at hnodup
    obtain ⟨⟨h12, h13, h1r⟩, ⟨h23, h2r⟩, h3r, hrest⟩ := hnodup
    rw [List.foldl_cons]
    rcases List.mem_cons.1 ht with rfl | hmem
    · apply getValue_foldl_mergeStat_other
      rcases hx with rfl | rfl | rfl
      · exact h1r
      · exact h2r
      · exact h3r
    · obtain ⟨m1, m2, m3⟩ := mem_statNames_of_mem hmem
      have hne : ∀ y, y ∈ statNames triples → y ≠ t'.1 ∧ y ≠ t'.2.1 ∧ y ≠ t'.2.2 := by
        intro y hy
        exact ⟨fun h => h1r (h ▸ hy), fun h => h2r (h ▸ hy), fun h => h3r (h ▸ hy)⟩
      rw [ih hrest hmem (mergeStat side r a t')]
      apply getValue_mergeStat_congr side r _ a t _ _ _ x hx
      · exact getValue_mergeStat_other side r a t' _ (hne _ m1).1 (hne _ m1).2.1 (hne _ m1).2.2
      · exact getValue_mergeStat_other side r a t' _ (hne _ m2).1 (hne _ m2).2.1 (hne _ m2).2.2
      · exact getValue_mergeStat_other side r a t' _ (hne _ m3).1 (hne _ m3).2.1 (hne _ m3).2.2

theorem getValue_mergeRecord (input : AggregationInput) (a : AggregationFlowRecord) (r : Record)
    (hnodup : (statNames (statsNames input.AggregateElements)).Nodup)
    (hsep : ∀ x ∈ statNames (statsNames input.AggregateElements),
      x ∉ input.CorrelateFields ∧ x ∉ input.AggregateElements.NonStatsElements)
    (t : String × String × String) (ht : t ∈ statsNames input.AggregateElements) (x : String)
    (hx : x = t.1 ∨ x = t.2.1 ∨ x = t.2.2) :
    getValue (mergeRecord input a r).Record x = getValue (mergeStat (sideOf r) r a.Record t) x := by
  obtain ⟨m1, m2, m3⟩ := mem_statNames_of_mem ht
  have hkeep : ∀ y, y ∈ statNames (statsNames input.AggregateElements) →
      getValue (input.AggregateElements.NonStatsElements.foldl (overwriteField r)
        (input.CorrelateFields.foldl (correlateField r) a.Record)) y = getValue a.Record y := by
    intro y hy
    rw [getValue_foldl_overwriteField r _ y (hsep y hy).2,
      getValue_foldl_correlateField r _ y (hsep y hy).1]
  simp only [mergeRecord]
  rw [getValue_foldl_mergeStat (sideOf r) r _ hnodup t ht x hx]
  exact getValue_mergeStat_congr (sideOf r) r _ a.Record t (hkeep _ m1) (hkeep _ m2)
    (hkeep _ m3) x hx

theorem getValue_mergeStat_stat (side : Side) (r a : Record) (e s d : String) (v : Nat)
    (hes : e ≠ s) (hed : e ≠ d) (hv : getCounter r e = some v) :
    getValue (mergeStat side r a (e, s, d)) e =
      if isDeltaCounter e = true then
        some (ElementValue.uint64 ((getCounter a e).getD 0 + v))
      else if isTotalCounter e = true then
        some (ElementValue.uint64 (max ((getCounter a e).getD 0) v))
      else getValue a e := by
  simp only [mergeStat, hv]
  cases side <;> split_ifs <;>
    simp only [getValue_setValue, if_neg hes, if_neg hed, if_true]

theorem getValue_mergeStat_source (side : Side) (r a : Record) (e s d : String) (v : Nat)
    (hes : e ≠ s) (hsd : s ≠ d) (hv : getCounter r e = some v) :
    getValue (mergeStat side r a (e, s, d)) s =
      if side = Side.source then some (ElementValue.uint64 v) else getValue a s := by
  have hse : s ≠ e := fun h => hes h.symm
  simp only [mergeStat, hv]
  cases side <;> split_ifs <;> simp_all [getValue_setValue]

theorem getValue_mergeStat_destination (side : Side) (r a : Record) (e s d : String) (v : Nat)
    (hed : e ≠ d) (hsd : s ≠ d) (hv : getCounter r e = some v) :
    getValue (mergeStat side r a (e, s, d)) d =
      if side = Side.destination then some (ElementValue.uint64 v) else getValue a d := by
  have hde : d ≠ e := fun h => hed h.symm
  have hds : d ≠ s := fun h => hsd h.symm
  simp only [mergeStat, hv]
  cases side <;> split_ifs <;> simp_all [getValue_setValue]

theorem aggregateRecord_fresh (input : AggregationInput) (ap : AggregationProcess)
    (r : Record) (key : FlowKey) (hkey : flowKeyOf r = some key)
    (a : AggregationFlowRecord) (ha : (ap.flowKeyRecordMap key).getD newAggregate = a) :
    (aggregateRecord input ap r).flowKeyRecordMap key = some (mergeRecord input a r) := by
  simp only [aggregateRecord, hkey, if_true, ha]

theorem getCounter_of_getValue {a : Record} {name : String} {v : Nat}
    (h : getValue a name = some (ElementValue.uint64 v)) : getCounter a name = some v := by
  simp only [getCounter, h, ElementValue.toCounter]

theorem two_merges (input : AggregationInput) (ap : AggregationProcess) (ra rb : Record)
    (key : FlowKey) (e s d : String) (va vb : Nat)
    (hnodup : (statNames (statsNames input.AggregateElements)).Nodup)
    (hsep : ∀ x ∈ statNames (statsNames input.AggregateElements),
      x ∉ input.CorrelateFields ∧ x ∉ input.AggregateElements.NonStatsElements)
    (hmem : (e, s, d) ∈ statsNames input.AggregateElements)
    (hkeya : flowKeyOf ra = some key) (hkeyb : flowKeyOf rb = some key)
    (hfresh : ap.flowKeyRecordMap key = none)
    (hva : getCounter ra e = some va) (hvb : getCounter rb e = some vb) :
    ∃ a, (aggregateRecord input (aggregateRecord input ap ra) rb).flowKeyRecordMap key = some a ∧
      (isDeltaCounter e = true → getValue a.Record e = some (ElementValue.uint64 (va + vb))) ∧
      (isTotalCounter e = true → getValue a.Record e = some (ElementValue.uint64 (max va vb))) ∧
      getValue a.Record s =
        (if sideOf rb = Side.source then some (ElementValue.uint64 vb)
         else if sideOf ra = Side.source then some (ElementValue.uint64 va) else none) ∧
      getValue a.Record d =
        (if sideOf rb = Side.destination then some (ElementValue.uint64 vb)
         else if sideOf ra = Side.destination then some (ElementValue.uint64 va) else none) ∧
      a.sourceSeen = (decide (sideOf ra = Side.source) || decide (sideOf rb = Side.source)) ∧
      a.destinationSeen =
        (decide (sideOf ra = Side.destination) || decide (sideOf rb = Side.destination)) := by
  obtain ⟨hes, hed, hsd⟩ := statNames_distinct hnodup hmem
  simp only at hes hed hsd
  have h1 := aggregateRecord_fresh input ap ra key hkeya newAggregate (by rw [hfresh]; rfl)
  have h2 := aggregateRecord_fresh input (aggregateRecord input ap ra) rb key hkeyb
    (mergeRecord input newAggregate ra) (by rw [h1]; rfl)
  refine ⟨_, h2, ?_, ?_, ?_, ?_, ?_, ?_⟩
  · intro hdelta
    have ha : getValue (mergeRecord input newAggregate ra).Record e =
        some (ElementValue.uint64 va) := by
      rw [getValue_mergeRecord input _ ra hnodup hsep (e, s, d) hmem e (Or.inl rfl),
        getValue_mergeStat_stat _ ra _ e s d va hes hed hva, if_pos hdelta]
      simp [newAggregate, getCounter, getValue]
    rw [getValue_mergeRecord input _ rb hnodup hsep (e, s, d) hmem e (Or.inl rfl),
      getValue_mergeStat_stat _ rb _ e s d vb hes hed hvb, if_pos hdelta,
      getCounter_of_getValue ha]
    rfl
  · intro htotal
    have hnd : ¬ isDeltaCounter e = true := by
      intro hd
      simp only [isTotalCounter, isDeltaCounter, Bool.and_eq_true, Bool.not_eq_true'] at htotal hd
      rw [hd] at htotal
      exact absurd htotal.1 (by decide)
    have ha : getValue (mergeRecord input newAggregate ra).Record e =
        some (ElementValue.uint64 va) := by
      rw [getValue_mergeRecord input _ ra hnodup hsep (e, s, d) hmem e (Or.inl rfl),
        getValue_mergeStat_stat _ ra _ e s d va hes hed hva, if_neg hnd, if_pos htotal]
      simp [newAggregate, getCounter, getValue]
    rw [getValue_mergeRecord input _ rb hnodup hsep (e, s, d) hmem e (Or.inl rfl),
      getValue_mergeStat_stat _ rb _ e s d vb hes hed hvb, if_neg hnd, if_pos htotal,
      getCounter_of_getValue ha]
    rfl
  · rw [getValue_mergeRecord input _ rb hnodup hsep (e, s, d) hmem s (Or.inr (Or.inl rfl)),
      getValue_mergeStat_source _ rb _ e s d vb hes hsd hvb,
      getValue_mergeRecord input _ ra hnodup hsep (e, s, d) hmem s (Or.inr (Or.inl rfl)),
      getValue_mergeStat_source _ ra _ e s d va hes hsd hva]
    rfl
  · rw [getValue_mergeRecord input _ rb hnodup hsep (e, s, d) hmem d (Or.inr (Or.inr rfl)),
      getValue_mergeStat_destination _ rb _ e s d vb hed hsd hvb,
      getValue_mergeRecord input _ ra hnodup hsep (e, s, d) hmem d (Or.inr (Or.inr rfl)),
      getValue_mergeStat_destination _ ra _ e s d va hed hsd hva]
    rfl
  · simp [mergeRecord, newAggregate]
  · simp [mergeRecord, newAggregate]

/-! ## Errors of `decodeTemplateRecord` -/

theorem decodeTemplateRecord_error_state {cp : CollectingProcess} {buffer : List Byte} {d : Nat}
    {e : Err} (herr : (decodeTemplateRecord cp buffer d).1 = Result.error e) :
    (buffer.length < 4 ∨ specTemplateFields (beAt buffer 2 2) (buffer.drop 4) = none) ∧
      ∃ rest, decodeTemplateRecord cp buffer d = (Result.error e, cp, rest) := by
  by_cases htrunc : buffer.length < 4 ∨
      specTemplateFields (beAt buffer 2 2) (buffer.drop 4) = none
  · obtain ⟨e', rest, he⟩ := decodeTemplateRecord_truncated cp buffer d htrunc
    rw [he] at herr
    simp only [Result.error.injEq] at herr
    subst herr
    exact ⟨htrunc, rest, he⟩
  · exfalso
    rw [not_or] at htrunc
    obtain ⟨hlen, hspec⟩ := htrunc
    cases hs : specTemplateFields (beAt buffer 2 2) (buffer.drop 4) with
    | none => exact hspec hs
    | some p =>
      obtain ⟨fields, tail⟩ := p
      rw [decodeTemplateRecord_of_spec cp buffer d fields tail (Nat.le_of_not_lt hlen) hs] at herr
      cases herr

/-! ## The fields of a data record -/

theorem nextValues_length (lengths : List Nat) :
    ∀ buffer : List Byte, (nextValues lengths buffer).length = lengths.length := by
  induction lengths with
  | nil => intro buffer; rfl
  | cons n lengths ih => intro buffer; simp [nextValues, ih]

theorem nextValues_join (lengths : List Nat) :
    ∀ buffer : List Byte, (nextValues lengths buffer).flatten = buffer.take lengths.sum := by
  induction lengths with
  | nil => intro buffer; simp [nextValues]
  | cons n lengths ih =>
    intro buffer
    simp only [nextValues, List.flatten_cons, ih, List.sum_cons]
    rw [List.take_add]

theorem nextValues_get (lengths : List Nat) :
    ∀ (buffer : List Byte) (i : Nat) (hi : i < lengths.length)
      (hv : i < (nextValues lengths buffer).length),
      (nextValues lengths buffer).get ⟨i, hv⟩ =
        (buffer.drop (lengths.take i).sum).take (lengths.get ⟨i, hi⟩) := by
  induction lengths with
  | nil => intro buffer i hi; cases hi
  | cons n lengths ih =>
    intro buffer i hi hv
    cases i with
    | zero => simp [nextValues]
    | succ i =>
      simp only [nextValues, List.get_cons_succ, List.take_succ_cons, List.sum_cons]
      rw [ih (buffer.drop n) i (Nat.lt_of_succ_lt_succ hi), List.drop_drop]

theorem decodeDataFields_types (cp : CollectingProcess) (fields : List TemplateField) :
    ∀ (buffer : List Byte) (acc : List DataField),
      (∀ f ∈ fields, knownToRegistries cp f = true) →
      ∃ records, decodeDataFields cp fields buffer acc =
          (Result.ok (acc ++ records),
            buffer.drop (fields.map TemplateField.ElementLength).sum) ∧
        List.Forall₂ (fun f r => getDataType cp f = Result.ok r.DataType) fields records ∧
        records.map DataField.Value =
          nextValues (fields.map TemplateField.ElementLength) buffer := by
  induction fields with
  | nil =>
    intro buffer acc _
    exact ⟨[], by simp [decodeDataFields, nextValues]⟩
  | cons f fields ih =>
    intro buffer acc hk
    obtain ⟨dataType, hdt⟩ := getDataType_of_known (hk f (List.mem_cons_self _ _))
    obtain ⟨records, hrec, hrl, hrv⟩ := ih (buffer.drop f.ElementLength)
      (acc ++ [{ DataType := dataType, Value := buffer.take f.ElementLength }])
      (fun g hg => hk g (List.mem_cons_of_mem _ hg))
    refine ⟨{ DataType := dataType, Value := buffer.take f.ElementLength } :: records, ?_,
      List.Forall₂.cons hdt hrl, by simp [hrv, nextValues]⟩
    simp only [decodeDataFields, bufferNext, hdt, hrec, List.append_assoc,
      List.singleton_append, List.map_cons, List.sum_cons, List.drop_drop]

theorem decodeDataRecord_types (cp : CollectingProcess) (buffer : List Byte) (d t : Nat)
    (template : List TemplateField) (hcached : lookupTemplate cp d t = some template)
    (hknown : ∀ f ∈ template, knownToRegistries cp f = true) :
    ∃ records, decodeDataRecord cp buffer d t =
        (Result.ok records, cp,
          buffer.drop (template.map TemplateField.ElementLength).sum) ∧
      List.Forall₂ (fun f r => getDataType cp f = Result.ok r.DataType) template records ∧
      records.map DataField.Value =
        nextValues (template.map TemplateField.ElementLength) buffer := by
  obtain ⟨records, hrec, hrl, hrv⟩ := decodeDataFields_types cp template buffer [] hknown
  refine ⟨records, ?_, hrl, hrv⟩
  simp only [decodeDataRecord, getTemplate, hcached, hrec, List.nil_append]

theorem get_of_eq {α : Type} {l₁ l₂ : List α} (h : l₁ = l₂) (i : Nat) (h₁ : i < l₁.length)
    (h₂ : i < l₂.length) : l₁.get ⟨i, h₁⟩ = l₂.get ⟨i, h₂⟩ := by
  subst h; rfl

theorem forall₂_get {α β : Type} {R : α → β → Prop} {l₁ : List α} {l₂ : List β}
    (h : List.Forall₂ R l₁ l₂) :
    ∀ (i : Nat) (h₁ : i < l₁.length) (h₂ : i < l₂.length),
      R (l₁.get ⟨i, h₁⟩) (l₂.get ⟨i, h₂⟩) := by
  induction h with
  | nil => intro i h₁; cases h₁
  | cons hab _ ih =>
    intro i h₁ h₂
    cases i with
    | zero => exact hab
    | succ i => exact ih i (Nat.lt_of_succ_lt_succ h₁) (Nat.lt_of_succ_lt_succ h₂)

/-! ## The message-level fields in `ConvertIPFIXMsgToFlowMsgs` -/

theorem setsMessageFields_ok (msg : Message) (m : FlowType2) :
    SetsMessageFields msg (Result.ok (withMessageFields msg m)) (Result.ok m) := rfl

theorem setsMessageFields_andThen {α : Type} (msg : Message) (a : Result α)
    (f₁ f₂ : α → FlowType2) (h : ∀ v, f₁ v = withMessageFields msg (f₂ v)) :
    SetsMessageFields msg (a.andThen f₁) (a.andThen f₂) := by
  cases a with
  | ok v => simp only [SetsMessageFields, Result.andThen, h]
  | error e => rfl
  | runtimePanic => rfl

theorem setsMessageFields_ite (msg : Message) {c : Prop} [Decidable c]
    {a₁ b₁ a₂ b₂ : Result FlowType2}
    (ha : SetsMessageFields msg a₁ a₂) (hb : SetsMessageFields msg b₁ b₂) :
    SetsMessageFields msg (if c then a₁ else b₁) (if c then a₂ else b₂) := by
  by_cases hc : c
  · simp only [hc, if_true]; exact ha
  · simp only [hc, if_false]; exact hb

theorem addFieldToFlowType2_withMessageFields (ipString : List Byte → String) (msg : Message)
    (m : FlowType2) (ie : InfoElementWithValue) :
    SetsMessageFields msg (addFieldToFlowType2 ipString (withMessageFields msg m) ie)
      (addFieldToFlowType2 ipString m ie) := by
  unfold addFieldToFlowType2
  repeat' first
    | exact setsMessageFields_ok msg m
    | exact setsMessageFields_andThen msg _ _ _ (fun _ => rfl)
    | apply setsMessageFields_ite

theorem addAllFieldsToFlowType2_withMessageFields (ipString : List Byte → String)
    (msg : Message) (record : List InfoElementWithValue) :
    ∀ m : FlowType2, addAllFieldsToFlowType2 ipString (withMessageFields msg m) record =
      (addAllFieldsToFlowType2 ipString m record).andThen (withMessageFields msg) := by
  induction record with
  | nil => intro m; rfl
  | cons ie record ih =>
    intro m
    have h := addFieldToFlowType2_withMessageFields ipString msg m ie
    unfold SetsMessageFields at h
    simp only [addAllFieldsToFlowType2]
    rw [h]
    cases addFieldToFlowType2 ipString m ie with
    | ok m' => simp only [Result.andThen]; exact ih m'
    | error e => rfl
    | runtimePanic => rfl

theorem convertRecordToFlowMsg_eq (ipString : List Byte → String) (msg : Message)
    (record : List InfoElementWithValue) :
    convertRecordToFlowMsg ipString msg record =
      (ConvertIPFIXRecordToFlowMsg ipString record).andThen (withMessageFields msg) :=
  addAllFieldsToFlowType2_withMessageFields ipString msg record {}

theorem notError_ok {α : Type} (a : α) : NotError (Result.ok a) :=
  fun _ h => Result.noConfusion h

theorem notError_andThen {α β : Type} (a : Result α) (f : α → β) (h : NotError a) :
    NotError (a.andThen f) := by
  cases a with
  | ok v => exact fun _ h' => Result.noConfusion h'
  | error e => exact absurd rfl (h e)
  | runtimePanic => exact fun _ h' => Result.noConfusion h'

theorem notError_ite {α : Type} {c : Prop} [Decidable c] {a b : Result α}
    (ha : NotError a) (hb : NotError b) : NotError (if c then a else b) := by
  by_cases hc : c
  · simp only [hc, if_true]; exact ha
  · simp only [hc, if_false]; exact hb

theorem notError_assertUint8 (v : ElementValue) : NotError v.assertUint8 := by
  cases v <;> exact fun _ h => Result.noConfusion h

theorem notError_assertUint16 (v : ElementValue) : NotError v.assertUint16 := by
  cases v <;> exact fun _ h => Result.noConfusion h

theorem notError_assertUint32 (v : ElementValue) : NotError v.assertUint32 := by
  cases v <;> exact fun _ h => Result.noConfusion h

theorem notError_assertUint64 (v : ElementValue) : NotError v.assertUint64 := by
  cases v <;> exact fun _ h => Result.noConfusion h

theorem notError_assertIP (v : ElementValue) : NotError v.assertIP := by
  cases v <;> exact fun _ h => Result.noConfusion h

theorem notError_assertString (v : ElementValue) : NotError v.assertString := by
  cases v <;> exact fun _ h => Result.noConfusion h

theorem addFieldToFlowType2_notError (ipString : List Byte → String) (m : FlowType2)
    (ie : InfoElementWithValue) : NotError (addFieldToFlowType2 ipString m ie) := by
  unfold addFieldToFlowType2
  repeat' first
    | exact notError_ok m
    | exact notError_andThen _ _ (notError_assertUint8 _)
    | exact notError_andThen _ _ (notError_assertUint16 _)
    | exact notError_andThen _ _ (notError_assertUint32 _)
    | exact notError_andThen _ _ (notError_assertUint64 _)
    | exact notError_andThen _ _ (notError_assertIP _)
    | exact notError_andThen _ _ (notError_assertString _)
    | apply notError_ite

theorem addAllFieldsToFlowType2_notError (ipString : List Byte → String)
    (record : List InfoElementWithValue) :
    ∀ m : FlowType2, NotError (addAllFieldsToFlowType2 ipString m record) := by
  induction record with
  | nil => intro m; exact notError_ok m
  | cons ie record ih =>
    intro m
    have h := addFieldToFlowType2_notError ipString m ie
    simp only [addAllFieldsToFlowType2]
    cases hf : addFieldToFlowType2 ipString m ie with
    | ok m' => exact ih m'
    | error e => exact absurd hf (h e)
    | runtimePanic => exact fun _ h' => Result.noConfusion h'

theorem convertRecords_ok (ipString : List Byte → String) (msg : Message)
    {records : List (List InfoElementWithValue)} {flowMsgs : List FlowType2}
    (h : List.Forall₂ (fun r m => ConvertIPFIXRecordToFlowMsg ipString r = Result.ok m)
      records flowMsgs) :
    convertRecords ipString msg records =
      Result.ok (flowMsgs.map (withMessageFields msg)) := by
  induction h with
  | nil => rfl
  | cons hr _ ih =>
    simp only [convertRecords, convertRecordToFlowMsg_eq, hr, Result.andThen, ih, List.map_cons]

theorem convertRecords_panics (ipString : List Byte → String) (msg : Message)
    (records : List (List InfoElementWithValue))
    (h : ∃ r ∈ records, ConvertIPFIXRecordToFlowMsg ipString r = Result.runtimePanic) :
    convertRecords ipString msg records = Result.runtimePanic := by
  induction records with
  | nil => obtain ⟨r, hr, _⟩ := h; cases hr
  | cons record records ih =>
    simp only [convertRecords, convertRecordToFlowMsg_eq]
    cases hc : ConvertIPFIXRecordToFlowMsg ipString record with
    | ok m =>
      have ht : ∃ r ∈ records, ConvertIPFIXRecordToFlowMsg ipString r = Result.runtimePanic := by
        obtain ⟨r, hr, hp⟩ := h
        rcases List.mem_cons.1 hr with heq | hmem
        · subst heq; rw [hc] at hp; cases hp
        · exact ⟨r, hmem, hp⟩
      simp only [Result.andThen, ih ht]
    | error e => exact absurd hc (addAllFieldsToFlowType2_notError ipString record {} e)
    | runtimePanic => rfl

theorem forall₂_of_all_ok (ipString : List Byte → String)
    (records : List (List InfoElementWithValue))
    (h : ∀ r ∈ records, ∃ m, ConvertIPFIXRecordToFlowMsg ipString r = Result.ok m) :
    ∃ flowMsgs, List.Forall₂
      (fun r m => ConvertIPFIXRecordToFlowMsg ipString r = Result.ok m) records flowMsgs := by
  induction records with
  | nil => exact ⟨[], List.Forall₂.nil⟩
  | cons record records ih =>
    obtain ⟨m, hm⟩ := h record (List.mem_cons_self _ _)
    obtain ⟨ms, hms⟩ := ih (fun r hr => h r (List.mem_cons_of_mem _ hr))
    exact ⟨m :: ms, List.Forall₂.cons hm hms⟩

/-! ## The header's length field -/

theorem binaryRead_of_length {b b' : List Byte} (n : Nat) (h : b.length = b'.length) :
    (binaryRead b n).1 = (binaryRead b' n).1 ∧
      (binaryRead b n).2.2.length = (binaryRead b' n).2.2.length := by
  unfold binaryRead
  rw [h]
  split_ifs <;> simp [h]

theorem decodeLoop_of_length (sizes : List Nat) :
    ∀ (err : Option Err) (b b' : List Byte), b.length = b'.length →
      (decodeLoop err b sizes).1 = (decodeLoop err b' sizes).1 := by
  induction sizes with
  | nil => intro err b b' _; rfl
  | cons n sizes ih =>
    intro err b b' h
    obtain ⟨h1, h2⟩ := binaryRead_of_length n h
    have hb : ∀ x : List Byte, (decodeLoop err x (n :: sizes)).1 =
        (decodeLoop (binaryRead x n).1 (binaryRead x n).2.2 sizes).1 := by
      intro x
      simp only [decodeLoop]
    rw [hb b, hb b', h1]
    exact ih _ _ _ h2

theorem decodeMessage_short_of_length (cp : CollectingProcess) {b b' : List Byte}
    (h : b.length = b'.length) (hshort : b.length < 20) :
    DecodeMessage cp b' = DecodeMessage cp b := by
  obtain ⟨e, values, he⟩ := decode_header_short hshort
  obtain ⟨e', values', he'⟩ := decode_header_short (h ▸ hshort : b'.length < 20)
  have hl := decodeLoop_of_length [2, 2, 4, 4, 4, 4] none b b' h
  have hee : e = e' := by
    have h1 : (decodeLoop none b [2, 2, 4, 4, 4, 4]).1 = some e := by
      have := he; unfold decode at this; rw [this]
    have h2 : (decodeLoop none b' [2, 2, 4, 4, 4, 4]).1 = some e' := by
      have := he'; unfold decode at this; rw [this]
    rw [h1, h2] at hl
    exact Option.some.inj hl
  subst hee
  simp only [DecodeMessage, he, he']

theorem withLengthField_length (buffer : List Byte) (hi lo : Byte) :
    (withLengthField buffer hi lo).length = buffer.length := by
  simp [withLengthField]

theorem decodeMessage_withLengthField (cp : CollectingProcess) (buffer : List Byte)
    (hi lo : Byte) :
    DecodeMessage cp (withLengthField buffer hi lo) =
      (withBufferLength (DecodeMessage cp buffer).1 (hi.val * 256 + lo.val),
        (DecodeMessage cp buffer).2.1, (DecodeMessage cp buffer).2.2) := by
  by_cases hlen : 20 ≤ buffer.length
  · match buffer, hlen with
    | a :: b :: c :: d :: rest, hlen =>
      have hw : withLengthField (a :: b :: c :: d :: rest) hi lo = a :: b :: hi :: lo :: rest :=
        rfl
      have hlen' : 20 ≤ (a :: b :: hi :: lo :: rest).length := hlen
      rw [hw, decodeMessage_of_header cp hlen', decodeMessage_of_header cp hlen]
      have h0 : beAt (a :: b :: hi :: lo :: rest) 0 2 = beAt (a :: b :: c :: d :: rest) 0 2 := rfl
      have h2 : beAt (a :: b :: hi :: lo :: rest) 2 2 = hi.val * 256 + lo.val := by
        simp [beAt, bigEndian]
      have h4 : beAt (a :: b :: hi :: lo :: rest) 4 4 = beAt (a :: b :: c :: d :: rest) 4 4 := rfl
      have h8 : beAt (a :: b :: hi :: lo :: rest) 8 4 = beAt (a :: b :: c :: d :: rest) 8 4 := rfl
      have h12 : beAt (a :: b :: hi :: lo :: rest) 12 4 = beAt (a :: b :: c :: d :: rest) 12 4 :=
        rfl
      have h16 : beAt (a :: b :: hi :: lo :: rest) 16 2 = beAt (a :: b :: c :: d :: rest) 16 2 :=
        rfl
      have h18 : beAt (a :: b :: hi :: lo :: rest) 18 2 = beAt (a :: b :: c :: d :: rest) 18 2 :=
        rfl
      have hd : (a :: b :: hi :: lo :: rest).drop 20 = (a :: b :: c :: d :: rest).drop 20 := rfl
      rw [h0, h2, h4, h8, h12, h16, h18, hd]
      generalize beAt (a :: b :: c :: d :: rest) 0 2 = version
      generalize beAt (a :: b :: c :: d :: rest) 2 2 = field
      generalize beAt (a :: b :: c :: d :: rest) 4 4 = exportTime
      generalize beAt (a :: b :: c :: d :: rest) 8 4 = seqNumber
      generalize beAt (a :: b :: c :: d :: rest) 12 4 = obsDomainID
      generalize beAt (a :: b :: c :: d :: rest) 16 2 = setID
      generalize beAt (a :: b :: c :: d :: rest) 18 2 = setLength
      generalize (a :: b :: c :: d :: rest).drop 20 = body
      split_ifs
      · rfl
      · generalize decodeTemplateRecord cp body obsDomainID = x
        obtain ⟨r, cp', rest'⟩ := x
        cases r <;> rfl
      · generalize decodeDataRecord cp body obsDomainID setID = x
        obtain ⟨r, cp', rest'⟩ := x
        cases r <;> rfl
  · have hshort : buffer.length < 20 := Nat.lt_of_not_le hlen
    rw [decodeMessage_short_of_length cp (withLengthField_length buffer hi lo).symm hshort]
    obtain ⟨e, he⟩ := decodeMessage_short cp hshort
    rw [he]
    rfl

/-! ## Claims -/

/-- C1: on a buffer of at least 20 bytes whose first two bytes, read big-endian,
are not 10, `DecodeMessage` returns the invalid-version error and no packet, and
leaves the collecting process, hence the template cache, as it was; and every
packet `DecodeMessage` returns, on any buffer and cache, has `Version = 10`. -/
theorem decodeMessage_rejects_other_versions (cp : CollectingProcess) (msgBuffer : List Byte)
    (hlen : 20 ≤ msgBuffer.length) (hver : beAt msgBuffer 0 2 ≠ 10) :
    DecodeMessage cp msgBuffer =
        (Result.error (Err.invalidVersion (beAt msgBuffer 0 2)), cp, msgBuffer.drop 20) ∧
      (DecodeMessage cp msgBuffer).2.1.templatesMap = cp.templatesMap ∧
      ∀ (cp₂ : CollectingProcess) (buffer : List Byte) (packet : Packet),
        (DecodeMessage cp₂ buffer).1 = Result.ok packet → packet.Version = 10 := by
  have h := decodeMessage_of_header cp hlen
  rw [if_pos hver] at h
  refine ⟨h, by rw [h], ?_⟩
  intro cp₂ buffer packet hok
  obtain ⟨_, h10, hv, _⟩ := decodeMessage_ok_header cp₂ buffer packet hok
  rw [hv, h10]

theorem decodeMessage_rejects_other_versions_witness :
    20 ≤ versionNinePacket.length ∧ beAt versionNinePacket 0 2 ≠ 10 ∧
      (DecodeMessage exampleProcess versionNinePacket =
        (Result.error (Err.invalidVersion (beAt versionNinePacket 0 2)), exampleProcess,
          versionNinePacket.drop 20) ∧
      (DecodeMessage exampleProcess versionNinePacket).2.1.templatesMap =
        exampleProcess.templatesMap ∧
      ∀ (cp₂ : CollectingProcess) (buffer : List Byte) (packet : Packet),
        (DecodeMessage cp₂ buffer).1 = Result.ok packet → packet.Version = 10) :=
  ⟨by decide, by decide,
    decodeMessage_rejects_other_versions exampleProcess versionNinePacket (by decide) (by decide)⟩

/-- C2: when `DecodeMessage` returns a packet, the buffer held at least 20 bytes
and the packet's Version, BufferLength, ExportTime, SeqNumber and ObsDomainID are
the big-endian values of bytes 0-1, 2-3, 4-7, 8-11 and 12-15, and the flow set
header it carries has ID = bytes 16-17 and Length = bytes 18-19. -/
theorem decodeMessage_header_fields (cp : CollectingProcess) (msgBuffer : List Byte)
    (packet : Packet) (hok : (DecodeMessage cp msgBuffer).1 = Result.ok packet) :
    20 ≤ msgBuffer.length ∧
      packet.Version = beAt msgBuffer 0 2 ∧ packet.BufferLength = beAt msgBuffer 2 2 ∧
      packet.ExportTime = beAt msgBuffer 4 4 ∧ packet.SeqNumber = beAt msgBuffer 8 4 ∧
      packet.ObsDomainID = beAt msgBuffer 12 4 ∧
      packet.FlowSets.flowSetHeader.ID = beAt msgBuffer 16 2 ∧
      packet.FlowSets.flowSetHeader.Length = beAt msgBuffer 18 2 := by
  obtain ⟨h20, _, h⟩ := decodeMessage_ok_header cp msgBuffer packet hok
  exact ⟨h20, h⟩

theorem decodeMessage_header_fields_witness :
    (DecodeMessage exampleProcess templatePacketIPv4).1 = Result.ok templatePacketIPv4Decoded ∧
      (20 ≤ templatePacketIPv4.length ∧
      templatePacketIPv4Decoded.Version = beAt templatePacketIPv4 0 2 ∧
      templatePacketIPv4Decoded.BufferLength = beAt templatePacketIPv4 2 2 ∧
      templatePacketIPv4Decoded.ExportTime = beAt templatePacketIPv4 4 4 ∧
      templatePacketIPv4Decoded.SeqNumber = beAt templatePacketIPv4 8 4 ∧
      templatePacketIPv4Decoded.ObsDomainID = beAt templatePacketIPv4 12 4 ∧
      templatePacketIPv4Decoded.FlowSets.flowSetHeader.ID = beAt templatePacketIPv4 16 2 ∧
      templatePacketIPv4Decoded.FlowSets.flowSetHeader.Length = beAt templatePacketIPv4 18 2) :=
  ⟨by decide,
    decodeMessage_header_fields exampleProcess templatePacketIPv4 templatePacketIPv4Decoded
      (by decide)⟩

/-- C3: on a template set body that holds `(templateID, fieldCount)` and all
`fieldCount` field specifiers, `decodeTemplateRecord` returns exactly the fields
the spec's parser reads in wire order (2-byte id with the 0x8000 flag, 2-byte
length, and a 4-byte enterprise id with the flag cleared when the flag is set,
enterprise 0 otherwise), stores them under `(obsDomainID, templateID)` and
leaves the bytes after them; the result has `fieldCount` fields and each has
`ElementID < 32768`. -/
theorem decodeTemplateRecord_reads_fields (cp : CollectingProcess) (templateBuffer : List Byte)
    (obsDomainID : Nat) (fields : List TemplateField) (tail : List Byte)
    (hlong : 4 ≤ templateBuffer.length)
    (hspec : specTemplateFields (beAt templateBuffer 2 2) (templateBuffer.drop 4) =
      some (fields, tail)) :
    decodeTemplateRecord cp templateBuffer obsDomainID =
        (Result.ok fields, addTemplate cp obsDomainID (beAt templateBuffer 0 2) fields, tail) ∧
      fields.length = beAt templateBuffer 2 2 ∧ ∀ f ∈ fields, f.ElementID < 32768 :=
  ⟨decodeTemplateRecord_of_spec cp templateBuffer obsDomainID fields tail hlong hspec,
    specTemplateFields_sound _ _ _ _ hspec⟩

theorem decodeTemplateRecord_reads_fields_witness :
    4 ≤ (templatePacketIPv4.drop 20).length ∧
      specTemplateFields (beAt (templatePacketIPv4.drop 20) 2 2)
        ((templatePacketIPv4.drop 20).drop 4) = some (templateFieldsIPv4, []) ∧
      (decodeTemplateRecord exampleProcess (templatePacketIPv4.drop 20) 1 =
        (Result.ok templateFieldsIPv4,
          addTemplate exampleProcess 1 (beAt (templatePacketIPv4.drop 20) 0 2) templateFieldsIPv4,
          []) ∧
      templateFieldsIPv4.length = beAt (templatePacketIPv4.drop 20) 2 2 ∧
      ∀ f ∈ templateFieldsIPv4, f.ElementID < 32768) :=
  ⟨by decide, by decide,
    decodeTemplateRecord_reads_fields exampleProcess (templatePacketIPv4.drop 20) 1
      templateFieldsIPv4 [] (by decide) (by decide)⟩

/-- C4: when `DecodeMessage` returns a packet for a message whose set ID is 2,
the packet carries a `TemplateFlowSet`, and `getTemplate` on the collecting
process left behind, at the packet's ObsDomainID and the template id of bytes
20-21, succeeds with exactly the `Records` of that flow set, in the same order.
For the test's 112-byte `templatePacketIPv4`, whatever the cache was before, the
fifteen fields are stored under obsDomainID 1 and templateID 256. -/
theorem decodeMessage_installs_template (cp : CollectingProcess) (msgBuffer : List Byte)
    (packet : Packet) (hok : (DecodeMessage cp msgBuffer).1 = Result.ok packet)
    (hset : beAt msgBuffer 16 2 = 2) :
    (∃ records, packet.FlowSets =
          FlowSets.template { header := { ID := 2, Length := beAt msgBuffer 18 2 },
                              Records := records } ∧
        getTemplate (DecodeMessage cp msgBuffer).2.1 packet.ObsDomainID (beAt msgBuffer 20 2) =
          (Result.ok records, (DecodeMessage cp msgBuffer).2.1)) ∧
      (templatePacketIPv4.length = 112 ∧ templateFieldsIPv4.length = 15 ∧
        ∀ cp₀ : CollectingProcess,
          (DecodeMessage cp₀ templatePacketIPv4).1 = Result.ok templatePacketIPv4Decoded ∧
          (getTemplate (DecodeMessage cp₀ templatePacketIPv4).2.1 1 256).1 =
            Result.ok templateFieldsIPv4) := by
  constructor
  · obtain ⟨hlen, hv, _⟩ := decodeMessage_ok_header cp msgBuffer packet hok
    rw [decodeMessage_of_header cp hlen] at hok ⊢
    simp only [hv, hset, ne_eq, not_true_eq_false, if_false, if_true] at hok ⊢
    cases hrec : decodeTemplateRecord cp (List.drop 20 msgBuffer) (beAt msgBuffer 12 4) with
    | mk r p =>
      obtain ⟨cp', rest'⟩ := p
      rw [hrec] at hok
      cases r with
      | ok records =>
        simp only [Result.ok.injEq] at hok
        subst hok
        obtain ⟨_, hcp⟩ := decodeTemplateRecord_ok hrec
        refine ⟨records, rfl, ?_⟩
        have hb : beAt (List.drop 20 msgBuffer) 0 2 = beAt msgBuffer 20 2 := by simp [beAt]
        simp only [hcp, hb]
        exact getTemplate_addTemplate_same _ _ _ _
      | error e => simp at hok
      | runtimePanic => simp at hok
  · exact ⟨by decide, by decide, fun cp₀ => ⟨rfl, rfl⟩⟩

theorem decodeMessage_installs_template_witness :
    (DecodeMessage exampleProcess templatePacketIPv4).1 = Result.ok templatePacketIPv4Decoded ∧
      beAt templatePacketIPv4 16 2 = 2 ∧
      ((∃ records, templatePacketIPv4Decoded.FlowSets =
          FlowSets.template { header := { ID := 2, Length := beAt templatePacketIPv4 18 2 },
                              Records := records } ∧
        getTemplate (DecodeMessage exampleProcess templatePacketIPv4).2.1
            templatePacketIPv4Decoded.ObsDomainID (beAt templatePacketIPv4 20 2) =
          (Result.ok records, (DecodeMessage exampleProcess templatePacketIPv4).2.1)) ∧
      (templatePacketIPv4.length = 112 ∧ templateFieldsIPv4.length = 15 ∧
        ∀ cp₀ : CollectingProcess,
          (DecodeMessage cp₀ templatePacketIPv4).1 = Result.ok templatePacketIPv4Decoded ∧
          (getTemplate (DecodeMessage cp₀ templatePacketIPv4).2.1 1 256).1 =
            Result.ok templateFieldsIPv4)) :=
  ⟨by decide, by decide,
    decodeMessage_installs_template exampleProcess templatePacketIPv4 templatePacketIPv4Decoded
      (by decide) (by decide)⟩

/-- C5: round trip for fixed-length records. For every observation domain
`d < 2^32`, template id `t` (a template id is in [256, 65535]; the statement
needs only `t < 65536` and `t ≠ 2`, the set ID of template sets), fields known
to the registries whose lengths are below 0xFFFF and values of the fields'
lengths: after `DecodeMessage` has decoded the encoded template message
declaring the fields under `(d, t)`, `DecodeMessage` on the data message with
ObsDomainID `d`, set ID `t` and the values as body returns a packet with a
`DataFlowSet` of exactly as many records as fields, whose values are the given
values in order. -/
theorem decodeMessage_roundtrip_fixed_length (cp : CollectingProcess)
    (exportTime seqNumber exportTime' seqNumber' d t : Nat)
    (fields : List TemplateField) (values : List (List Byte))
    (hd : d < 4294967296) (ht : t < 65536) (ht2 : t ≠ 2) (hn : fields.length < 65536)
    (hwire : ∀ f ∈ fields, f.ElementID < 32768 ∧ f.ElementLength < 65535 ∧
      f.EnterpriseID < 4294967296)
    (hknown : ∀ f ∈ fields, knownToRegistries cp f = true)
    (hvalues : values.map List.length = fields.map TemplateField.ElementLength) :
    ∃ (packet : Packet) (header : FlowSetHeader) (records : List DataField),
      (DecodeMessage
          (DecodeMessage cp (encodeTemplateMessage exportTime seqNumber d t fields)).2.1
          (encodeDataMessage exportTime' seqNumber' d t values)).1 = Result.ok packet ∧
        packet.FlowSets = FlowSets.data { header := header, Records := records } ∧
        records.length = fields.length ∧ records.map DataField.Value = values := by
  obtain ⟨bl, et, sn, sl, htmpl⟩ := decodeMessage_encodeHeaders cp
    (20 + (be16 t ++ be16 fields.length ++ encodeTemplateFields fields).length) exportTime
    seqNumber d 2 (4 + (be16 t ++ be16 fields.length ++ encodeTemplateFields fields).length)
    (be16 t ++ be16 fields.length ++ encodeTemplateFields fields) hd (by decide)
  have hwire' : ∀ f ∈ fields, f.ElementID < 32768 ∧ f.ElementLength < 65536 ∧
      f.EnterpriseID < 4294967296 := fun f hf =>
    ⟨(hwire f hf).1, Nat.lt_succ_of_lt (hwire f hf).2.1, (hwire f hf).2.2⟩
  rw [if_pos rfl, decodeTemplateRecord_encoded cp d t fields ht hn hwire'] at htmpl
  have hcp : (DecodeMessage cp (encodeTemplateMessage exportTime seqNumber d t fields)).2.1 =
      addTemplate cp d t fields := by
    simp only [encodeTemplateMessage]
    rw [htmpl]
  rw [hcp]
  obtain ⟨bl', et', sn', sl', hdata⟩ := decodeMessage_encodeHeaders (addTemplate cp d t fields)
    (20 + (encodeValues values).length) exportTime' seqNumber' d t
    (4 + (encodeValues values).length) (encodeValues values) hd ht
  rw [if_neg ht2] at hdata
  obtain ⟨records, hrec, hlen, hval⟩ := decodeDataFields_encoded (addTemplate cp d t fields)
    fields values [] [] hvalues
    (fun f hf => by rw [knownToRegistries_addTemplate]; exact hknown f hf)
  simp only [List.append_nil, List.nil_append] at hrec
  have hdr : decodeDataRecord (addTemplate cp d t fields) (encodeValues values) d t =
      (Result.ok records, addTemplate cp d t fields, []) := by
    simp only [decodeDataRecord, getTemplate_addTemplate_same, hrec]
  rw [hdr] at hdata
  refine ⟨{ Version := 10, BufferLength := bl', SeqNumber := sn', ObsDomainID := d,
             ExportTime := et',
             FlowSets := FlowSets.data { header := { ID := t, Length := sl' },
                                         Records := records } },
    { ID := t, Length := sl' }, records, ?_, rfl, hlen, hval⟩
  simp only [encodeDataMessage]
  rw [hdata]

theorem decodeMessage_roundtrip_fixed_length_witness :
    (1 : Nat) < 4294967296 ∧ (256 : Nat) < 65536 ∧ (256 : Nat) ≠ 2 ∧
      [(⟨8, 4, 0⟩ : TemplateField), ⟨7, 2, 0⟩].length < 65536 ∧
      (∀ f ∈ [(⟨8, 4, 0⟩ : TemplateField), ⟨7, 2, 0⟩], f.ElementID < 32768 ∧
        f.ElementLength < 65535 ∧ f.EnterpriseID < 4294967296) ∧
      (∀ f ∈ [(⟨8, 4, 0⟩ : TemplateField), ⟨7, 2, 0⟩], knownToRegistries exampleProcess f = true) ∧
      ([[10, 0, 0, 1], [4, 210]] : List (List Byte)).map List.length =
        [(⟨8, 4, 0⟩ : TemplateField), ⟨7, 2, 0⟩].map TemplateField.ElementLength ∧
      ∃ (packet : Packet) (header : FlowSetHeader) (records : List DataField),
        (DecodeMessage
            (DecodeMessage exampleProcess
              (encodeTemplateMessage 1615336011 0 1 256 [⟨8, 4, 0⟩, ⟨7, 2, 0⟩])).2.1
            (encodeDataMessage 1615336011 1 1 256 [[10, 0, 0, 1], [4, 210]])).1 =
          Result.ok packet ∧
        packet.FlowSets = FlowSets.data { header := header, Records := records } ∧
        records.length = [(⟨8, 4, 0⟩ : TemplateField), ⟨7, 2, 0⟩].length ∧
        records.map DataField.Value = [[10, 0, 0, 1], [4, 210]] :=
  ⟨by decide, by decide, by decide, by decide, by decide, by decide, by decide,
    decodeMessage_roundtrip_fixed_length exampleProcess 1615336011 0 1615336011 1 1 256
      [⟨8, 4, 0⟩, ⟨7, 2, 0⟩] [[10, 0, 0, 1], [4, 210]] (by decide) (by decide) (by decide)
      (by decide) (by decide) (by decide) (by decide)⟩

/-- The value 2 is no template id: a template message for id 2 installs the
field under (1, 2), and the data message with set ID 2 is then parsed as a
template set, so `DecodeMessage` returns an error and no `DataFlowSet`. -/
theorem decodeMessage_roundtrip_fails_for_template_id_two :
    (∀ f ∈ [(⟨8, 4, 0⟩ : TemplateField)], knownToRegistries exampleProcess f = true ∧
        f.ElementID < 32768 ∧ f.ElementLength < 65535 ∧ f.EnterpriseID < 4294967296) ∧
      ([[10, 0, 0, 1]] : List (List Byte)).map List.length =
        [(⟨8, 4, 0⟩ : TemplateField)].map TemplateField.ElementLength ∧
      (DecodeMessage exampleProcess (encodeTemplateMessage 0 0 1 2 [⟨8, 4, 0⟩])).1 =
        Result.ok { Version := 10, BufferLength := 28, SeqNumber := 0, ObsDomainID := 1,
                    ExportTime := 0,
                    FlowSets := FlowSets.template
                      { header := { ID := 2, Length := 12 }, Records := [⟨8, 4, 0⟩] } } ∧
      (DecodeMessage
          (DecodeMessage exampleProcess (encodeTemplateMessage 0 0 1 2 [⟨8, 4, 0⟩])).2.1
          (encodeDataMessage 0 1 1 2 [[10, 0, 0, 1]])).1 =
        Result.error (Err.decodingMessage (Err.decodingMessage Err.EOF)) := by
  decide

/-- C6 (the code at the failing inputs): after the test's `templatePacketIPv4`,
`DecodeMessage` on `dataPacket1IPv4` panics for every collecting process, since
the template's ninth field has enterprise id 56506, for which `getDataType` has
no registry; and for a cached template with one known field of length 0xFFFF,
`decodeDataRecord` returns the whole body as the value, length prefix included:
for the body `04 "pod2" 00 00` the variable-length rule gives "pod2" and leaves
`00 00`, the code gives all seven bytes; for the encoding `00` of the empty
string the rule gives the empty string, the code the one byte `00`. -/
theorem decodeDataRecord_has_no_variable_length_rule :
    (∀ cp : CollectingProcess,
        (DecodeMessage (DecodeMessage cp templatePacketIPv4).2.1 dataPacket1IPv4).1 =
          Result.runtimePanic) ∧
      (specVariableLength [0x4, 0x70, 0x6f, 0x64, 0x32, 0x0, 0x0] =
          some ([0x70, 0x6f, 0x64, 0x32], [0x0, 0x0]) ∧
        decodeDataRecord (addTemplate exampleProcess 1 256 [⟨8, 65535, 0⟩])
            [0x4, 0x70, 0x6f, 0x64, 0x32, 0x0, 0x0] 1 256 =
          (Result.ok [{ DataType := 18, Value := [0x4, 0x70, 0x6f, 0x64, 0x32, 0x0, 0x0] }],
            addTemplate exampleProcess 1 256 [⟨8, 65535, 0⟩], [])) ∧
      (specVariableLength [0x0] = some ([], []) ∧
        decodeDataRecord (addTemplate exampleProcess 1 256 [⟨8, 65535, 0⟩]) [0x0] 1 256 =
          (Result.ok [{ DataType := 18, Value := [0x0] }],
            addTemplate exampleProcess 1 256 [⟨8, 65535, 0⟩], [])) := by
  refine ⟨fun cp => ?_, ⟨by decide, rfl⟩, ⟨by decide, rfl⟩⟩
  have hcp : (DecodeMessage cp templatePacketIPv4).2.1 = addTemplate cp 1 256 templateFieldsIPv4 :=
    rfl
  rw [hcp, decodeMessage_of_header _ (by decide : 20 ≤ dataPacket1IPv4.length)]
  have h1 : beAt dataPacket1IPv4 0 2 = 10 := by decide
  have h2 : beAt dataPacket1IPv4 16 2 = 256 := by decide
  have h3 : beAt dataPacket1IPv4 12 4 = 1 := by decide
  rw [h1, h2, h3, if_neg (by decide), if_neg (by decide)]
  have hp := decodeDataFields_panics (addTemplate cp 1 256 templateFieldsIPv4) templateFieldsIPv4
    (dataPacket1IPv4.drop 20) [] ⟨⟨101, 65535, 56506⟩, by decide, rfl⟩
    (fun f _ e => getDataType_ne_error _ f e)
  simp only [decodeDataRecord, getTemplate_addTemplate_same]
  cases hd : decodeDataFields (addTemplate cp 1 256 templateFieldsIPv4) templateFieldsIPv4
      (dataPacket1IPv4.drop 20) [] with
  | mk r rest =>
    rw [hd] at hp
    simp only at hp
    subst hp
    rfl

/-- C7: on a version-10 message of at least 20 bytes whose set ID is not 2 and
for which `getTemplate` finds no template under (ObsDomainID, set ID),
`DecodeMessage` returns the unknown-template error and leaves the collecting
process as it was, so every message decoded next yields what it would have
yielded had the failing message never been received. -/
theorem decodeMessage_unknown_template (cp : CollectingProcess) (msgBuffer : List Byte)
    (hlen : 20 ≤ msgBuffer.length) (hver : beAt msgBuffer 0 2 = 10)
    (hset : beAt msgBuffer 16 2 ≠ 2)
    (hmiss : ∀ fields,
      (getTemplate cp (beAt msgBuffer 12 4) (beAt msgBuffer 16 2)).1 ≠ Result.ok fields) :
    DecodeMessage cp msgBuffer =
        (Result.error (Err.decodingMessage
          (Err.templateNotExist (beAt msgBuffer 16 2) (beAt msgBuffer 12 4))), cp,
          msgBuffer.drop 20) ∧
      ∀ next : List Byte,
        DecodeMessage (DecodeMessage cp msgBuffer).2.1 next = DecodeMessage cp next := by
  have hget : getTemplate cp (beAt msgBuffer 12 4) (beAt msgBuffer 16 2) =
      (Result.error (Err.templateLookupFailed (beAt msgBuffer 16 2) (beAt msgBuffer 12 4)),
        cp) := by
    cases hl : lookupTemplate cp (beAt msgBuffer 12 4) (beAt msgBuffer 16 2) with
    | none => simp [getTemplate, hl]
    | some fields => exact absurd (by simp [getTemplate, hl]) (hmiss fields)
  have hmsg : DecodeMessage cp msgBuffer =
      (Result.error (Err.decodingMessage
        (Err.templateNotExist (beAt msgBuffer 16 2) (beAt msgBuffer 12 4))), cp,
        msgBuffer.drop 20) := by
    rw [decodeMessage_of_header cp hlen, hver, if_neg (by simp), if_neg hset]
    simp only [decodeDataRecord, hget]
  exact ⟨hmsg, fun next => by rw [hmsg]⟩

theorem decodeMessage_unknown_template_witness :
    20 ≤ dataPacket1IPv4.length ∧ beAt dataPacket1IPv4 0 2 = 10 ∧
      beAt dataPacket1IPv4 16 2 ≠ 2 ∧
      (∀ fields, (getTemplate exampleProcess (beAt dataPacket1IPv4 12 4)
        (beAt dataPacket1IPv4 16 2)).1 ≠ Result.ok fields) ∧
      (DecodeMessage exampleProcess dataPacket1IPv4 =
        (Result.error (Err.decodingMessage
          (Err.templateNotExist (beAt dataPacket1IPv4 16 2) (beAt dataPacket1IPv4 12 4))),
          exampleProcess, dataPacket1IPv4.drop 20) ∧
      ∀ next : List Byte,
        DecodeMessage (DecodeMessage exampleProcess dataPacket1IPv4).2.1 next =
          DecodeMessage exampleProcess next) :=
  ⟨by decide, by decide, by decide, (fun _ h => Result.noConfusion h),
    decodeMessage_unknown_template exampleProcess dataPacket1IPv4 (by decide) (by decide)
      (by decide) (fun _ h => Result.noConfusion h)⟩

/-- C8: template scope. For every cache, every (A, X) and every (B, Y) different
from (A, X), `addTemplate(A, X, fields)` does not change the result of
`getTemplate(B, Y)`: the same error if it failed, the same fields if it
succeeded; in particular for B different from A with Y = X. -/
theorem addTemplate_preserves_other_keys (cp : CollectingProcess) (A X B Y : Nat)
    (fields : List TemplateField) (h : (B, Y) ≠ (A, X)) :
    (getTemplate (addTemplate cp A X fields) B Y).1 = (getTemplate cp B Y).1 := by
  simp only [getTemplate, lookupTemplate_addTemplate_other cp A X B Y fields h]
  cases lookupTemplate cp B Y <;> rfl

theorem addTemplate_preserves_other_keys_witness :
    ((2 : Nat), (256 : Nat)) ≠ (1, 256) ∧
      (getTemplate (addTemplate (addTemplate exampleProcess 2 256 [⟨4, 1, 0⟩]) 1 256
          templateFieldsIPv4) 2 256).1 =
        (getTemplate (addTemplate exampleProcess 2 256 [⟨4, 1, 0⟩]) 2 256).1 :=
  ⟨by decide,
    addTemplate_preserves_other_keys (addTemplate exampleProcess 2 256 [⟨4, 1, 0⟩]) 1 256 2 256
      templateFieldsIPv4 (by decide)⟩

/-- C9: `addTemplate` is an idempotent replacement. For every cache, key (d, t)
and field lists f and g: after `addTemplate(d, t, f)` the cache holds f under
(d, t); adding f a second time leaves the state of adding f once; adding f and
then g leaves the state of adding g alone, in which `getTemplate(d, t)` returns
g, so the later template fully replaces the earlier one; and every other key
reads as it did before the two calls. -/
theorem addTemplate_idempotent_replacement (cp : CollectingProcess) (d t : Nat)
    (f g : List TemplateField) :
    (getTemplate (addTemplate cp d t f) d t).1 = Result.ok f ∧
      addTemplate (addTemplate cp d t f) d t f = addTemplate cp d t f ∧
      (getTemplate (addTemplate (addTemplate cp d t f) d t f) d t).1 = Result.ok f ∧
      addTemplate (addTemplate cp d t f) d t g = addTemplate cp d t g ∧
      (getTemplate (addTemplate (addTemplate cp d t f) d t g) d t).1 = Result.ok g ∧
      (∀ d' t', (d', t') ≠ (d, t) →
        (getTemplate (addTemplate (addTemplate cp d t f) d t g) d' t').1 =
          (getTemplate cp d' t').1) := by
  refine ⟨by rw [getTemplate_addTemplate_same], addTemplate_addTemplate cp d t f f,
    by rw [getTemplate_addTemplate_same], addTemplate_addTemplate cp d t f g,
    by rw [getTemplate_addTemplate_same], ?_⟩
  intro d' t' hne
  have hl : lookupTemplate (addTemplate (addTemplate cp d t f) d t g) d' t' =
      lookupTemplate cp d' t' := by
    rw [lookupTemplate_addTemplate_other _ d t d' t' g hne,
      lookupTemplate_addTemplate_other _ d t d' t' f hne]
  simp only [getTemplate, hl]
  cases lookupTemplate cp d' t' <;> rfl

/-- C10: `getTemplate(d, t)` leaves every collecting process unchanged, so it
creates no entry for the observation domain. After any sequence of `addTemplate`
calls on a freshly initialised process it returns an error exactly when no call
had the exact key (d, t) - in particular when no call had the domain `d` - and
otherwise returns the fields of the most recent call with that key. -/
theorem getTemplate_spec (cp : CollectingProcess) (ianaReg antreaReg : Registry)
    (ops : List (Nat × Nat × List TemplateField)) (d t : Nat) :
    (getTemplate cp d t).2 = cp ∧
      ((getTemplate cp d t).2.templatesMap d).isSome = (cp.templatesMap d).isSome ∧
      ((∃ e, (getTemplate (installAll (InitCollectingProcess ianaReg antreaReg) ops) d t).1 =
          Result.error e) ↔ ∀ op ∈ ops, (op.1, op.2.1) ≠ (d, t)) ∧
      ((∀ op ∈ ops, op.1 ≠ d) →
        ∃ e, (getTemplate (installAll (InitCollectingProcess ianaReg antreaReg) ops) d t).1 =
          Result.error e) ∧
      ∀ fields,
        (getTemplate (installAll (InitCollectingProcess ianaReg antreaReg) ops) d t).1 =
          Result.ok fields ↔ lastInstalled ops d t = some fields := by
  have hsame : (getTemplate cp d t).2 = cp := by
    simp only [getTemplate]
    cases lookupTemplate cp d t <;> rfl
  have hlook := lookupTemplate_installAll ops d t (InitCollectingProcess ianaReg antreaReg)
  have hinit : lookupTemplate (InitCollectingProcess ianaReg antreaReg) d t = none := rfl
  rw [hinit] at hlook
  have herr : (∃ e, (getTemplate (installAll (InitCollectingProcess ianaReg antreaReg) ops) d t).1 =
      Result.error e) ↔ ∀ op ∈ ops, (op.1, op.2.1) ≠ (d, t) := by
    rw [← lastInstalled_eq_none]
    simp only [getTemplate, hlook]
    cases lastInstalled ops d t <;> simp
  refine ⟨hsame, by rw [hsame], herr, ?_, ?_⟩
  · intro hdom
    exact herr.2 (fun op hop hk => hdom op hop (congrArg Prod.fst hk))
  · intro fields
    simp only [getTemplate, hlook]
    cases lastInstalled ops d t <;> simp

/-- C11: templates never expire. Once `getTemplate(d, t)` succeeds it succeeds
after every later sequence of `DecodeMessage` calls on arbitrary buffers; and a
single call either leaves the fields under (d, t) as they were or was given a
set-ID-2 message with observation domain `d` and template id `t`. -/
theorem templates_never_expire (cp : CollectingProcess) (buffers : List (List Byte))
    (d t : Nat) (fields : List TemplateField)
    (h : (getTemplate cp d t).1 = Result.ok fields) :
    (∃ fields', (getTemplate (decodeAll cp buffers) d t).1 = Result.ok fields') ∧
      ∀ buffer : List Byte,
        (getTemplate (DecodeMessage cp buffer).2.1 d t).1 = Result.ok fields ∨
          (20 ≤ buffer.length ∧ beAt buffer 16 2 = 2 ∧ beAt buffer 12 4 = d ∧
            beAt buffer 20 2 = t ∧
            ∃ fields', (getTemplate (DecodeMessage cp buffer).2.1 d t).1 = Result.ok fields') := by
  constructor
  · exact (getTemplate_ok_iff _ d t).2
      (lookupTemplate_isSome_decodeAll buffers ((getTemplate_ok_iff cp d t).1 ⟨fields, h⟩))
  · intro buffer
    rcases decodeMessage_state cp buffer with hs | ⟨fields', hs, hlen, hset⟩
    · left; rw [hs]; exact h
    · rw [hs]
      by_cases hk : beAt buffer 12 4 = d ∧ beAt buffer 20 2 = t
      · right
        refine ⟨hlen, hset, hk.1, hk.2, fields', ?_⟩
        rw [hk.1, hk.2, getTemplate_addTemplate_same]
      · left
        have hne : (d, t) ≠ (beAt buffer 12 4, beAt buffer 20 2) := fun hp =>
          hk ⟨(congrArg Prod.fst hp).symm, (congrArg Prod.snd hp).symm⟩
        rw [getTemplate_ok_eq] at h ⊢
        rw [lookupTemplate_addTemplate_other cp _ _ d t fields' hne]
        exact h

theorem templates_never_expire_witness :
    (getTemplate (addTemplate exampleProcess 1 256 templateFieldsIPv4) 1 256).1 =
        Result.ok templateFieldsIPv4 ∧
      ((∃ fields', (getTemplate (decodeAll (addTemplate exampleProcess 1 256 templateFieldsIPv4)
          [dataPacket1IPv4, versionNinePacket]) 1 256).1 = Result.ok fields') ∧
      ∀ buffer : List Byte,
        (getTemplate (DecodeMessage (addTemplate exampleProcess 1 256 templateFieldsIPv4)
            buffer).2.1 1 256).1 = Result.ok templateFieldsIPv4 ∨
          (20 ≤ buffer.length ∧ beAt buffer 16 2 = 2 ∧ beAt buffer 12 4 = 1 ∧
            beAt buffer 20 2 = 256 ∧
            ∃ fields', (getTemplate (DecodeMessage
              (addTemplate exampleProcess 1 256 templateFieldsIPv4) buffer).2.1 1 256).1 =
                Result.ok fields')) :=
  ⟨by decide,
    templates_never_expire (addTemplate exampleProcess 1 256 templateFieldsIPv4)
      [dataPacket1IPv4, versionNinePacket] 1 256 templateFieldsIPv4 (by decide)⟩

/-- C12: truncated headers and templates are rejected. `DecodeMessage` returns an
error for every buffer shorter than 20 bytes, and for every message with set ID 2
whose body ends before `(templateID, fieldCount)` or before all `fieldCount`
field specifiers (4 bytes each, 8 with the enterprise bit) have been read. -/
theorem decodeMessage_rejects_truncated (cp : CollectingProcess) (msgBuffer : List Byte)
    (htrunc : msgBuffer.length < 20 ∨
      (beAt msgBuffer 16 2 = 2 ∧
        (msgBuffer.length < 24 ∨
          specTemplateFields (beAt msgBuffer 22 2) (msgBuffer.drop 24) = none))) :
    ∃ e, (DecodeMessage cp msgBuffer).1 = Result.error e := by
  by_cases hlen : msgBuffer.length < 20
  · obtain ⟨e, he⟩ := decodeMessage_short cp hlen
    exact ⟨_, by rw [he]⟩
  · have hset : beAt msgBuffer 16 2 = 2 := by
      rcases htrunc with h | h
      · exact absurd h hlen
      · exact h.1
    have hbody : (msgBuffer.drop 20).length < 4 ∨
        specTemplateFields (beAt (msgBuffer.drop 20) 2 2) ((msgBuffer.drop 20).drop 4) = none := by
      rcases htrunc with h | ⟨_, h | h⟩
      · exact absurd h hlen
      · left; simp only [List.length_drop]; omega
      · right
        have hb : beAt (msgBuffer.drop 20) 2 2 = beAt msgBuffer 22 2 := by simp [beAt]
        rw [hb, List.drop_drop]
        exact h
    rw [decodeMessage_of_header cp (Nat.le_of_not_lt hlen)]
    by_cases hv : beAt msgBuffer 0 2 = 10
    · obtain ⟨e, rest, he⟩ := decodeTemplateRecord_truncated cp (msgBuffer.drop 20)
        (beAt msgBuffer 12 4) hbody
      exact ⟨Err.decodingMessage e, by
        simp only [hv, hset, ne_eq, not_true_eq_false, if_false, if_true, he]⟩
    · exact ⟨Err.invalidVersion (beAt msgBuffer 0 2), by
        simp only [ne_eq, hv, not_false_eq_true, if_true]⟩

theorem decodeMessage_rejects_truncated_witness :
    ((templatePacketIPv4.take 100).length < 20 ∨
      (beAt (templatePacketIPv4.take 100) 16 2 = 2 ∧
        ((templatePacketIPv4.take 100).length < 24 ∨
          specTemplateFields (beAt (templatePacketIPv4.take 100) 22 2)
            ((templatePacketIPv4.take 100).drop 24) = none))) ∧
      ∃ e, (DecodeMessage exampleProcess (templatePacketIPv4.take 100)).1 = Result.error e :=
  ⟨by decide, decodeMessage_rejects_truncated exampleProcess (templatePacketIPv4.take 100)
    (by decide)⟩

/-- C13 (the code on truncated data records): for every cached template of known
fields and every data set body, however short, `decodeDataRecord` returns a
record with one field per template field and no error; with the two fields of
lengths 4 and 2 cached and the 2-byte body `0a 00`, `decodeDataRecord` and
`DecodeMessage` return a record whose values are `0a 00` and the empty
string. -/
theorem decodeDataRecord_accepts_truncated_body :
    (∀ (cp : CollectingProcess) (d t : Nat) (template : List TemplateField)
        (body : List Byte), lookupTemplate cp d t = some template →
        (∀ f ∈ template, knownToRegistries cp f = true) →
        body.length < (template.map TemplateField.ElementLength).sum →
        ∃ records, (decodeDataRecord cp body d t).1 = Result.ok records ∧
          records.length = template.length) ∧
      decodeDataRecord (addTemplate exampleProcess 1 256 [⟨8, 4, 0⟩, ⟨7, 2, 0⟩])
          [0xa, 0x0] 1 256 =
        (Result.ok [{ DataType := 18, Value := [0xa, 0x0] }, { DataType := 2, Value := [] }],
          addTemplate exampleProcess 1 256 [⟨8, 4, 0⟩, ⟨7, 2, 0⟩], []) ∧
      (DecodeMessage (addTemplate exampleProcess 1 256 [⟨8, 4, 0⟩, ⟨7, 2, 0⟩])
          (encodeDataMessage 0 1 1 256 [[0xa, 0x0]])).1 =
        Result.ok { Version := 10, BufferLength := 22, SeqNumber := 1, ObsDomainID := 1,
                    ExportTime := 0,
                    FlowSets := FlowSets.data
                      { header := { ID := 256, Length := 6 },
                        Records := [{ DataType := 18, Value := [0xa, 0x0] },
                                    { DataType := 2, Value := [] }] } } := by
  refine ⟨?_, rfl, by decide⟩
  intro cp d t template body hcached hknown _
  obtain ⟨records, hrec, hrl, _⟩ := decodeDataRecord_known cp body d t template hcached hknown
  exact ⟨records, by rw [hrec], hrl⟩

/-- C14 (amended): `DecodeMessage` does not consult the message header's length
field, it only stores it in `Packet.BufferLength`. For every cache state and
buffer, replacing bytes 2 and 3 of the buffer by any two bytes changes the
`BufferLength` of the returned packet and nothing else: the outcome otherwise,
the cache afterwards and the unread rest are the same. What `DecodeMessage`
leaves unread is a suffix of the buffer, so the bytes consumed are at most the
bytes the buffer holds, and hence at most the value of the length field when the
buffer is no longer than that value. With two bytes after the test's template
message, whose length field says 112, it consumes the 112 bytes of the message
and leaves the two. -/
theorem decodeMessage_ignores_length_field (cp : CollectingProcess) (msgBuffer : List Byte)
    (hi lo : Byte) :
    DecodeMessage cp (withLengthField msgBuffer hi lo) =
        (withBufferLength (DecodeMessage cp msgBuffer).1 (hi.val * 256 + lo.val),
          (DecodeMessage cp msgBuffer).2.1, (DecodeMessage cp msgBuffer).2.2) ∧
      (∃ consumed : List Byte, msgBuffer = consumed ++ (DecodeMessage cp msgBuffer).2.2 ∧
        consumed.length = msgBuffer.length - (DecodeMessage cp msgBuffer).2.2.length ∧
        consumed.length ≤ msgBuffer.length) ∧
      (msgBuffer.length ≤ beAt msgBuffer 2 2 →
        msgBuffer.length - (DecodeMessage cp msgBuffer).2.2.length ≤ beAt msgBuffer 2 2) ∧
      (beAt (templatePacketIPv4 ++ [0xde, 0xad]) 2 2 = 112 ∧
        (templatePacketIPv4 ++ [0xde, 0xad]).length = 114 ∧
        (DecodeMessage exampleProcess (templatePacketIPv4 ++ [0xde, 0xad])).2.2 =
          [0xde, 0xad]) := by
  refine ⟨decodeMessage_withLengthField cp msgBuffer hi lo, ?_, ?_, by decide, by decide,
    by decide⟩
  · obtain ⟨k, hk⟩ := decodeMessage_rest cp msgBuffer
    have hle : (msgBuffer.take k).length ≤ msgBuffer.length := by
      rw [List.length_take]; exact Nat.min_le_right _ _
    refine ⟨msgBuffer.take k, ?_, ?_, hle⟩
    · rw [hk, List.take_append_drop]
    · rw [hk, List.length_take, List.length_drop]; omega
  · intro hframe
    exact Nat.le_trans (Nat.sub_le _ _) hframe

/-- C14 as stated fails: the 24-byte `shortLengthPacket` has length field 20, and
`DecodeMessage` returns a packet with `BufferLength = 20` after consuming all 24
bytes. -/
theorem decodeMessage_reads_past_length_field :
    shortLengthPacket.length = 24 ∧
      (DecodeMessage exampleProcess shortLengthPacket).1 =
        Result.ok { Version := 10, BufferLength := 20, SeqNumber := 0, ObsDomainID := 1,
                    ExportTime := 1615336011,
                    FlowSets := FlowSets.template
                      { header := { ID := 2, Length := 8 }, Records := [] } } ∧
      (DecodeMessage exampleProcess shortLengthPacket).2.2 = [] ∧
      ¬ (shortLengthPacket.length - (DecodeMessage exampleProcess shortLengthPacket).2.2.length
          ≤ 20) := by
  decide

/-- C15 (amended): whenever `DecodeMessage` returns a packet it has consumed the
20 header bytes and the first record of the set, whatever the header's length
field says. For set ID 2 these are `(templateID, fieldCount)` and the
`fieldCount` field specifiers; for any other set ID, the bytes the cached
template's lengths ask for, as far as the body reaches. What follows is left
unread in the buffer and the packet is returned all the same. -/
theorem decodeMessage_consumes_first_record (cp : CollectingProcess) (msgBuffer : List Byte)
    (packet : Packet) (hok : (DecodeMessage cp msgBuffer).1 = Result.ok packet) :
    (beAt msgBuffer 16 2 = 2 →
        ∃ records, packet.FlowSets =
            FlowSets.template { header := { ID := 2, Length := beAt msgBuffer 18 2 },
                                Records := records } ∧
          24 ≤ msgBuffer.length ∧
          specTemplateFields (beAt msgBuffer 22 2) (msgBuffer.drop 24) =
            some (records, (DecodeMessage cp msgBuffer).2.2)) ∧
      (beAt msgBuffer 16 2 ≠ 2 →
        ∃ template, lookupTemplate cp (beAt msgBuffer 12 4) (beAt msgBuffer 16 2) =
            some template ∧
          (DecodeMessage cp msgBuffer).2.2 =
            msgBuffer.drop (20 + (template.map TemplateField.ElementLength).sum)) := by
  obtain ⟨hlen, hv, _⟩ := decodeMessage_ok_header cp msgBuffer packet hok
  rw [decodeMessage_of_header cp hlen] at hok ⊢
  constructor
  · intro hset
    simp only [hv, hset, ne_eq, not_true_eq_false, if_false, if_true] at hok ⊢
    cases hrec : decodeTemplateRecord cp (List.drop 20 msgBuffer) (beAt msgBuffer 12 4) with
    | mk r p =>
      obtain ⟨cp', rest'⟩ := p
      rw [hrec] at hok
      cases r with
      | ok records =>
        simp only [Result.ok.injEq] at hok
        subst hok
        obtain ⟨h4, hspec⟩ := decodeTemplateRecord_ok_spec hrec
        have hb : beAt (List.drop 20 msgBuffer) 2 2 = beAt msgBuffer 22 2 := by simp [beAt]
        rw [hb, List.drop_drop] at hspec
        refine ⟨records, rfl, ?_, hspec⟩
        simp only [List.length_drop] at h4
        omega
      | error e => simp at hok
      | runtimePanic => simp at hok
  · intro hset
    simp only [hv, hset, ne_eq, not_true_eq_false, if_false] at hok ⊢
    cases hl : lookupTemplate cp (beAt msgBuffer 12 4) (beAt msgBuffer 16 2) with
    | none => simp [decodeDataRecord, getTemplate, hl] at hok
    | some template =>
      refine ⟨template, rfl, ?_⟩
      simp only [decodeDataRecord, getTemplate, hl] at hok ⊢
      cases hd : decodeDataFields cp template (List.drop 20 msgBuffer) [] with
      | mk r rest =>
        rw [hd] at hok
        cases r with
        | ok records =>
          have := decodeDataFields_ok_rest cp template _ _ _ _ hd
          simp only [this, List.drop_drop]
        | error e => simp at hok
        | runtimePanic => simp at hok

theorem decodeMessage_consumes_first_record_witness :
    (DecodeMessage exampleProcess (templatePacketIPv4 ++ [0xde, 0xad])).1 =
        Result.ok templatePacketIPv4Decoded ∧
      ((beAt (templatePacketIPv4 ++ [0xde, 0xad]) 16 2 = 2 →
        ∃ records, templatePacketIPv4Decoded.FlowSets =
            FlowSets.template
              { header := { ID := 2, Length := beAt (templatePacketIPv4 ++ [0xde, 0xad]) 18 2 },
                Records := records } ∧
          24 ≤ (templatePacketIPv4 ++ [0xde, 0xad]).length ∧
          specTemplateFields (beAt (templatePacketIPv4 ++ [0xde, 0xad]) 22 2)
              ((templatePacketIPv4 ++ [0xde, 0xad]).drop 24) =
            some (records,
              (DecodeMessage exampleProcess (templatePacketIPv4 ++ [0xde, 0xad])).2.2)) ∧
      (beAt (templatePacketIPv4 ++ [0xde, 0xad]) 16 2 ≠ 2 →
        ∃ template, lookupTemplate exampleProcess
            (beAt (templatePacketIPv4 ++ [0xde, 0xad]) 12 4)
            (beAt (templatePacketIPv4 ++ [0xde, 0xad]) 16 2) = some template ∧
          (DecodeMessage exampleProcess (templatePacketIPv4 ++ [0xde, 0xad])).2.2 =
            (templatePacketIPv4 ++ [0xde, 0xad]).drop
              (20 + (template.map TemplateField.ElementLength).sum))) :=
  ⟨by decide,
    decodeMessage_consumes_first_record exampleProcess (templatePacketIPv4 ++ [0xde, 0xad])
      templatePacketIPv4Decoded (by decide)⟩

/-- C15 as stated fails: with two bytes appended to the test's template message
`DecodeMessage` still returns the packet and leaves the two bytes undecoded; and
for `shortLengthPacket` it returns a packet after consuming 24 bytes although
the length field says 20. -/
theorem decodeMessage_returns_with_trailing_bytes :
    (DecodeMessage exampleProcess (templatePacketIPv4 ++ [0xde, 0xad])).1 =
        Result.ok templatePacketIPv4Decoded ∧
      (DecodeMessage exampleProcess (templatePacketIPv4 ++ [0xde, 0xad])).2.2 = [0xde, 0xad] ∧
      (∃ packet, (DecodeMessage exampleProcess shortLengthPacket).1 = Result.ok packet ∧
        packet.BufferLength = 20 ∧
        shortLengthPacket.length - (DecodeMessage exampleProcess shortLengthPacket).2.2.length =
          24) :=
  ⟨by decide, by decide, _, rfl, by decide, by decide⟩

/-- C16 (amended): starting from an empty cache, after any sequence of
`DecodeMessage` calls every key (d, t) under which `getTemplate` succeeds has
`d < 2^32` and `t` in [0, 65535]; template ids below 256 are stored like any
other. -/
theorem template_keys_in_wire_range (ianaReg antreaReg : Registry)
    (buffers : List (List Byte)) (d t : Nat) (fields : List TemplateField)
    (h : (getTemplate (decodeAll (InitCollectingProcess ianaReg antreaReg) buffers) d t).1 =
      Result.ok fields) :
    d < 4294967296 ∧ t < 65536 := by
  apply keys_in_range_decodeAll buffers (InitCollectingProcess ianaReg antreaReg)
    (fun d' t' h' => by cases h') d t
  exact (getTemplate_ok_iff _ d t).1 ⟨fields, h⟩

set_option maxRecDepth 100000 in
theorem template_keys_in_wire_range_witness :
    (getTemplate (decodeAll (InitCollectingProcess exampleRegistry exampleRegistry)
        [templatePacketIPv4, dataPacket1IPv4]) 1 256).1 = Result.ok templateFieldsIPv4 ∧
      ((1 : Nat) < 4294967296 ∧ (256 : Nat) < 65536) :=
  ⟨by decide,
    template_keys_in_wire_range exampleRegistry exampleRegistry
      [templatePacketIPv4, dataPacket1IPv4] 1 256 templateFieldsIPv4 (by decide)⟩

/-- C16 as stated fails: from the empty cache, one template message that
declares a field under template id 0 makes `getTemplate(1, 0)` succeed. -/
theorem template_id_below_256_is_stored :
    (0 : Nat) < 256 ∧
      (getTemplate (decodeAll (InitCollectingProcess exampleRegistry exampleRegistry)
        [encodeTemplateMessage 0 0 1 0 [⟨8, 4, 0⟩]]) 1 0).1 = Result.ok [⟨8, 4, 0⟩] := by
  decide

/-- C17 (amended): for every version-10 message of at least 20 bytes whose set
ID is 3, `DecodeMessage` handles the set as a data set that refers to template
id 3: it parses no options template and leaves the collecting process, hence
the template cache, unchanged; its outcome is that of `decodeDataRecord` for
template id 3, which is the unknown-template error when nothing is cached under
(obsDomainID, 3). -/
theorem decodeMessage_set_three_is_data_set (cp : CollectingProcess) (msgBuffer : List Byte)
    (hlen : 20 ≤ msgBuffer.length) (hver : beAt msgBuffer 0 2 = 10)
    (hset : beAt msgBuffer 16 2 = 3) :
    (DecodeMessage cp msgBuffer).2.1 = cp ∧
      (DecodeMessage cp msgBuffer).1 =
        (match (decodeDataRecord cp (msgBuffer.drop 20) (beAt msgBuffer 12 4) 3).1 with
         | Result.ok records =>
           Result.ok { Version := 10, BufferLength := beAt msgBuffer 2 2,
                       SeqNumber := beAt msgBuffer 8 4, ObsDomainID := beAt msgBuffer 12 4,
                       ExportTime := beAt msgBuffer 4 4,
                       FlowSets := FlowSets.data
                         { header := { ID := 3, Length := beAt msgBuffer 18 2 },
                           Records := records } }
         | Result.error e => Result.error (Err.decodingMessage e)
         | Result.runtimePanic => Result.runtimePanic) ∧
      (lookupTemplate cp (beAt msgBuffer 12 4) 3 = none →
        DecodeMessage cp msgBuffer =
          (Result.error (Err.decodingMessage (Err.templateNotExist 3 (beAt msgBuffer 12 4))), cp,
            msgBuffer.drop 20)) := by
  have hmsg := decodeMessage_of_header cp hlen
  rw [hver, hset, if_neg (by simp), if_neg (by decide)] at hmsg
  have hstate := decodeDataRecord_state cp (msgBuffer.drop 20) (beAt msgBuffer 12 4) 3
  refine ⟨?_, ?_, ?_⟩
  · rw [hmsg]
    generalize decodeDataRecord cp (msgBuffer.drop 20) (beAt msgBuffer 12 4) 3 = x at hstate ⊢
    obtain ⟨r, cp', rest⟩ := x
    cases r <;> exact hstate
  · rw [hmsg]
    generalize decodeDataRecord cp (msgBuffer.drop 20) (beAt msgBuffer 12 4) 3 = x
    obtain ⟨r, cp', rest⟩ := x
    cases r <;> rfl
  · intro hmiss
    rw [hmsg]
    simp only [decodeDataRecord, getTemplate, hmiss]

theorem decodeMessage_set_three_is_data_set_witness :
    20 ≤ optionsTemplatePacket.length ∧ beAt optionsTemplatePacket 0 2 = 10 ∧
      beAt optionsTemplatePacket 16 2 = 3 ∧
      ((DecodeMessage exampleProcess optionsTemplatePacket).2.1 = exampleProcess ∧
      (DecodeMessage exampleProcess optionsTemplatePacket).1 =
        (match (decodeDataRecord exampleProcess (optionsTemplatePacket.drop 20)
            (beAt optionsTemplatePacket 12 4) 3).1 with
         | Result.ok records =>
           Result.ok { Version := 10, BufferLength := beAt optionsTemplatePacket 2 2,
                       SeqNumber := beAt optionsTemplatePacket 8 4,
                       ObsDomainID := beAt optionsTemplatePacket 12 4,
                       ExportTime := beAt optionsTemplatePacket 4 4,
                       FlowSets := FlowSets.data
                         { header := { ID := 3, Length := beAt optionsTemplatePacket 18 2 },
                           Records := records } }
         | Result.error e => Result.error (Err.decodingMessage e)
         | Result.runtimePanic => Result.runtimePanic) ∧
      (lookupTemplate exampleProcess (beAt optionsTemplatePacket 12 4) 3 = none →
        DecodeMessage exampleProcess optionsTemplatePacket =
          (Result.error (Err.decodingMessage
            (Err.templateNotExist 3 (beAt optionsTemplatePacket 12 4))), exampleProcess,
            optionsTemplatePacket.drop 20))) :=
  ⟨by decide, by decide, by decide,
    decodeMessage_set_three_is_data_set exampleProcess optionsTemplatePacket (by decide)
      (by decide) (by decide)⟩

/-- C17 as stated fails: on the well-formed options template message
`optionsTemplatePacket` (set ID 3, template id 256) `DecodeMessage` returns the
unknown-template error for template id 3, and `getTemplate(1, 256)` still fails
afterwards. -/
theorem options_template_is_not_installed :
    (DecodeMessage exampleProcess optionsTemplatePacket).1 =
        Result.error (Err.decodingMessage (Err.templateNotExist 3 1)) ∧
      (getTemplate (DecodeMessage exampleProcess optionsTemplatePacket).2.1 1 256).1 =
        Result.error (Err.templateLookupFailed 256 1) := by
  decide

/-- C18 (the code on a registry miss): `getDataType` panics for every field whose
enterprise id is neither 0 nor 55829, because no registry is selected, and for
every field of enterprise 0 or 55829 for which the selected registry returns no
element, because the nil element is dereferenced; `decodeDataRecord` then panics
for every cached template holding such a field, whatever the body. When the
registry returns an element, the data type is that element's, from the IANA
registry for enterprise 0 and from the Antrea registry for 55829. -/
theorem decodeDataRecord_panics_on_registry_miss :
    (∀ (cp : CollectingProcess) (f : TemplateField), f.EnterpriseID ≠ 0 →
        f.EnterpriseID ≠ 55829 → getDataType cp f = Result.runtimePanic) ∧
      (∀ (cp : CollectingProcess) (f : TemplateField), f.EnterpriseID = 0 →
        cp.ianaRegistry.knows f.ElementID = false → getDataType cp f = Result.runtimePanic) ∧
      (∀ (cp : CollectingProcess) (f : TemplateField), f.EnterpriseID = 55829 →
        cp.antreaRegistry.knows f.ElementID = false →
        getDataType cp f = Result.runtimePanic) ∧
      (∀ (cp : CollectingProcess) (d t : Nat) (template : List TemplateField)
        (body : List Byte), lookupTemplate cp d t = some template →
        (∃ f ∈ template, getDataType cp f = Result.runtimePanic) →
        (decodeDataRecord cp body d t).1 = Result.runtimePanic) ∧
      (∀ (cp : CollectingProcess) (f : TemplateField) (ie : InfoElement),
        (f.EnterpriseID = 0 →
          (cp.ianaRegistry.GetInfoElement
            (cp.ianaRegistry.GetIENameFromID f.ElementID).1).1 = some ie →
          getDataType cp f = Result.ok ie.DataType) ∧
        (f.EnterpriseID = 55829 →
          (cp.antreaRegistry.GetInfoElement
            (cp.antreaRegistry.GetIENameFromID f.ElementID).1).1 = some ie →
          getDataType cp f = Result.ok ie.DataType)) ∧
      (decodeDataRecord (addTemplate exampleProcess 1 256 [⟨8, 4, 0⟩, ⟨101, 4, 56506⟩])
          [0xa, 0x0, 0x0, 0x1, 0x1, 0x2, 0x3, 0x4] 1 256).1 = Result.runtimePanic ∧
      (decodeDataRecord (addTemplate exampleProcess 1 256 [⟨8, 4, 0⟩, ⟨999, 4, 0⟩])
          [0xa, 0x0, 0x0, 0x1, 0x1, 0x2, 0x3, 0x4] 1 256).1 = Result.runtimePanic := by
  refine ⟨getDataType_unknown_enterprise, ?_, ?_, ?_, ?_, by decide, by decide⟩
  · intro cp f h0 hk
    rw [getDataType_iana cp f h0]
    simp only [Registry.knows] at hk
    cases hie : (cp.ianaRegistry.GetInfoElement
        (cp.ianaRegistry.GetIENameFromID f.ElementID).1).1 with
    | none => rfl
    | some ie => rw [hie] at hk; cases hk
  · intro cp f h1 hk
    rw [getDataType_antrea cp f h1]
    simp only [Registry.knows] at hk
    cases hie : (cp.antreaRegistry.GetInfoElement
        (cp.antreaRegistry.GetIENameFromID f.ElementID).1).1 with
    | none => rfl
    | some ie => rw [hie] at hk; cases hk
  · intro cp d t template body hcached hpanic
    exact decodeDataRecord_panics cp body d t template hcached hpanic
  · intro cp f ie
    constructor
    · intro h0 hie
      rw [getDataType_iana cp f h0, hie]
    · intro h1 hie
      rw [getDataType_antrea cp f h1, hie]

/-- C19: for every record, the flow message `ConvertIPFIXRecordToFlowMsg`
returns has its message-level fields TimeReceived, SequenceNumber, ObsDomainID
and ExportAddress at their zero values, whatever elements the record holds. -/
theorem convertRecord_leaves_message_fields_zero (ipString : List Byte → String)
    (record : List InfoElementWithValue) (flowMsg : FlowType2)
    (h : ConvertIPFIXRecordToFlowMsg ipString record = Result.ok flowMsg) :
    flowMsg.TimeReceived = 0 ∧ flowMsg.SequenceNumber = 0 ∧ flowMsg.ObsDomainID = 0 ∧
      flowMsg.ExportAddress = "" := by
  have hm := addAllFieldsToFlowType2_messageLevel ipString record {} flowMsg h
  simp only [FlowType2.messageLevel, Prod.mk.injEq] at hm
  exact ⟨hm.1, hm.2.1, hm.2.2.1, hm.2.2.2⟩

theorem convertRecord_leaves_message_fields_zero_witness :
    ConvertIPFIXRecordToFlowMsg exampleIPString exampleRecord = Result.ok exampleFlowMsg ∧
      (exampleFlowMsg.TimeReceived = 0 ∧ exampleFlowMsg.SequenceNumber = 0 ∧
        exampleFlowMsg.ObsDomainID = 0 ∧ exampleFlowMsg.ExportAddress = "") :=
  ⟨by decide,
    convertRecord_leaves_message_fields_zero exampleIPString exampleRecord exampleFlowMsg
      (by decide)⟩

set_option maxRecDepth 100000 in
/-- C20: stats merge, in the aggregation process as the test configures it (its
correlate, non-stats, stats and per-side element lists). For every FlowKey that
has no aggregate yet and every pair of records of that key, `r1` from the
destination node and `r2` from the source node, merged into its aggregate in
either order, each stats element of the aggregate equals the sum of the two
records' values if it is a delta counter and their maximum if it is a total
counter, the `FromSourceNode` element equals the value of `r2` and the
`FromDestinationNode` element the value of `r1`, and both sides are seen. For
the records of the test's two data packets, merged in the order the test sends
them, the aggregate holds every value the test asserts. -/
theorem stats_merge_of_two_sides (ap : AggregationProcess)
    (r1 r2 : Record) (key : FlowKey) (e s d : String) (v1 v2 : Nat)
    (hmem : (e, s, d) ∈ statsNames testAggregationInput.AggregateElements)
    (hkey1 : flowKeyOf r1 = some key) (hkey2 : flowKeyOf r2 = some key)
    (hfresh : ap.flowKeyRecordMap key = none)
    (hside1 : sideOf r1 = Side.destination) (hside2 : sideOf r2 = Side.source)
    (hv1 : getCounter r1 e = some v1) (hv2 : getCounter r2 e = some v2) :
    (∃ a, (aggregateRecord testAggregationInput
            (aggregateRecord testAggregationInput ap r1) r2).flowKeyRecordMap key = some a ∧
        (isDeltaCounter e = true → getValue a.Record e = some (ElementValue.uint64 (v1 + v2))) ∧
        (isTotalCounter e = true →
          getValue a.Record e = some (ElementValue.uint64 (max v1 v2))) ∧
        getValue a.Record s = some (ElementValue.uint64 v2) ∧
        getValue a.Record d = some (ElementValue.uint64 v1) ∧
        a.sourceSeen = true ∧ a.destinationSeen = true) ∧
      (∃ a, (aggregateRecord testAggregationInput
            (aggregateRecord testAggregationInput ap r2) r1).flowKeyRecordMap key = some a ∧
        (isDeltaCounter e = true → getValue a.Record e = some (ElementValue.uint64 (v1 + v2))) ∧
        (isTotalCounter e = true →
          getValue a.Record e = some (ElementValue.uint64 (max v1 v2))) ∧
        getValue a.Record s = some (ElementValue.uint64 v2) ∧
        getValue a.Record d = some (ElementValue.uint64 v1) ∧
        a.sourceSeen = true ∧ a.destinationSeen = true) ∧
      (isTotalCounter "packetTotalCount" = true ∧ isDeltaCounter "packetDeltaCount" = true ∧
        isTotalCounter "reversePacketTotalCount" = true ∧
        isDeltaCounter "reversePacketDeltaCount" = true) ∧
      (specTestRecord dataPacket1IPv4 = some testRecord1 ∧
        specTestRecord dataPacket2IPv4 = some testRecord2 ∧
        flowKeyOf testRecord1 = some testFlowKey ∧ flowKeyOf testRecord2 = some testFlowKey ∧
        sideOf testRecord1 = Side.destination ∧ sideOf testRecord2 = Side.source ∧
        ∃ a, (aggregateRecord testAggregationInput
              (aggregateRecord testAggregationInput emptyAggregationProcess testRecord1)
              testRecord2).flowKeyRecordMap testFlowKey = some a ∧
          getValue a.Record "sourcePodName" = some (ElementValue.string "pod1") ∧
          getValue a.Record "destinationPodName" = some (ElementValue.string "pod2") ∧
          getValue a.Record "flowEndSeconds" = some (ElementValue.uint32 1257896000) ∧
          getValue a.Record "packetTotalCount" = some (ElementValue.uint64 1000) ∧
          getValue a.Record "packetDeltaCount" = some (ElementValue.uint64 1000) ∧
          getValue a.Record "destinationClusterIPv4" = some (ElementValue.ip [10, 0, 0, 3]) ∧
          getValue a.Record "destinationServicePort" = some (ElementValue.uint16 4739) ∧
          getValue a.Record "reversePacketDeltaCount" = some (ElementValue.uint64 350) ∧
          getValue a.Record "reversePacketTotalCount" = some (ElementValue.uint64 400) ∧
          getValue a.Record "packetTotalCountFromSourceNode" = some (ElementValue.uint64 800) ∧
          getValue a.Record "packetDeltaCountFromSourceNode" = some (ElementValue.uint64 500) ∧
          getValue a.Record "packetTotalCountFromDestinationNode" =
            some (ElementValue.uint64 1000) ∧
          getValue a.Record "packetDeltaCountFromDestinationNode" =
            some (ElementValue.uint64 500) ∧
          getValue a.Record "reversePacketTotalCountFromSourceNode" =
            some (ElementValue.uint64 300) ∧
          getValue a.Record "reversePacketDeltaCountFromSourceNode" =
            some (ElementValue.uint64 150) ∧
          getValue a.Record "reversePacketTotalCountFromDestinationNode" =
            some (ElementValue.uint64 400) ∧
          getValue a.Record "reversePacketDeltaCountFromDestinationNode" =
            some (ElementValue.uint64 200) ∧
          a.sourceSeen = true ∧ a.destinationSeen = true) := by
  have hnodup : (statNames (statsNames testAggregationInput.AggregateElements)).Nodup := by
    decide
  have hsep : ∀ x ∈ statNames (statsNames testAggregationInput.AggregateElements),
      x ∉ testAggregationInput.CorrelateFields ∧
        x ∉ testAggregationInput.AggregateElements.NonStatsElements := by
    decide
  refine ⟨?_, ?_, ⟨by decide, by decide, by decide, by decide⟩, ?_⟩
  · obtain ⟨a, ha, hd, ht, hs, hdst, hss, hds⟩ := two_merges testAggregationInput ap r1 r2 key
      e s d v1 v2 hnodup hsep hmem hkey1 hkey2 hfresh hv1 hv2
    rw [hside1, hside2] at hs hdst hss hds
    exact ⟨a, ha, hd, ht, hs, hdst, hss, hds⟩
  · obtain ⟨a, ha, hd, ht, hs, hdst, hss, hds⟩ := two_merges testAggregationInput ap r2 r1 key
      e s d v2 v1 hnodup hsep hmem hkey2 hkey1 hfresh hv2 hv1
    rw [hside1, hside2] at hs hdst hss hds
    refine ⟨a, ha, fun h => ?_, fun h => ?_, hs, hdst, hss, hds⟩
    · rw [Nat.add_comm]; exact hd h
    · rw [Nat.max_comm]; exact ht h
  · refine ⟨?_, ?_, ?_, ?_, ?_, ?_, _, rfl, ?_⟩
    all_goals decide

set_option maxRecDepth 100000 in
theorem stats_merge_of_two_sides_witness :
    ("packetTotalCount", "packetTotalCountFromSourceNode",
          "packetTotalCountFromDestinationNode") ∈
        statsNames testAggregationInput.AggregateElements ∧
      flowKeyOf testRecord1 = some testFlowKey ∧ flowKeyOf testRecord2 = some testFlowKey ∧
      emptyAggregationProcess.flowKeyRecordMap testFlowKey = none ∧
      sideOf testRecord1 = Side.destination ∧ sideOf testRecord2 = Side.source ∧
      getCounter testRecord1 "packetTotalCount" = some 1000 ∧
      getCounter testRecord2 "packetTotalCount" = some 800 ∧
      isTotalCounter "packetTotalCount" = true ∧
      ∃ a, (aggregateRecord testAggregationInput
            (aggregateRecord testAggregationInput emptyAggregationProcess testRecord1)
            testRecord2).flowKeyRecordMap testFlowKey = some a ∧
        (isDeltaCounter "packetTotalCount" = true →
          getValue a.Record "packetTotalCount" = some (ElementValue.uint64 (1000 + 800))) ∧
        (isTotalCounter "packetTotalCount" = true →
          getValue a.Record "packetTotalCount" = some (ElementValue.uint64 (max 1000 800))) ∧
        getValue a.Record "packetTotalCountFromSourceNode" = some (ElementValue.uint64 800) ∧
        getValue a.Record "packetTotalCountFromDestinationNode" =
          some (ElementValue.uint64 1000) ∧
        a.sourceSeen = true ∧ a.destinationSeen = true :=
  ⟨by decide, by decide, by decide, rfl, by decide, by decide, by decide, by decide, by decide,
    (stats_merge_of_two_sides emptyAggregationProcess testRecord1 testRecord2 testFlowKey
      "packetTotalCount" "packetTotalCountFromSourceNode" "packetTotalCountFromDestinationNode"
      1000 800 (by decide) (by decide) (by decide) rfl (by decide) (by decide) (by decide)
      (by decide)).1⟩

/-- C21 (amended): `ConvertIPFIXMsgToFlowMsgs` refines the per-record
conversion. For a message whose set is a template set it returns nil. For every
other message with records `r_0..r_{n-1}` on each of which
`ConvertIPFIXRecordToFlowMsg` returns, it returns exactly `n` flow messages, and
the i-th is `ConvertIPFIXRecordToFlowMsg(r_i)` with TimeReceived,
SequenceNumber, ObsDomainID and ExportAddress set to the message's export time,
sequence number, observation domain ID and export address. Where
`ConvertIPFIXRecordToFlowMsg` returns no flow message for one of the records, it
panics there on a failed type assertion, and `ConvertIPFIXMsgToFlowMsgs` panics
as well. The example message gives two flow messages; with a mistyped record it
gives a panic. -/
theorem convertMsg_refines_convertRecord (ipString : List Byte → String) (msg : Message) :
    (msg.GetSet.GetSetType = ContentType.Template →
      ConvertIPFIXMsgToFlowMsgs ipString msg = Result.ok none) ∧
    (msg.GetSet.GetSetType ≠ ContentType.Template →
      (∀ r ∈ msg.GetSet.GetRecords, ∃ m, ConvertIPFIXRecordToFlowMsg ipString r = Result.ok m) →
      ∃ flowMsgs, ConvertIPFIXMsgToFlowMsgs ipString msg = Result.ok (some flowMsgs) ∧
        flowMsgs.length = msg.GetSet.GetRecords.length ∧
        ∀ (i : Nat) (hr : i < msg.GetSet.GetRecords.length) (hf : i < flowMsgs.length),
          ∃ m, ConvertIPFIXRecordToFlowMsg ipString (msg.GetSet.GetRecords.get ⟨i, hr⟩) =
              Result.ok m ∧
            flowMsgs.get ⟨i, hf⟩ = withMessageFields msg m) ∧
    (msg.GetSet.GetSetType ≠ ContentType.Template →
      (∃ r ∈ msg.GetSet.GetRecords, ∀ m, ConvertIPFIXRecordToFlowMsg ipString r ≠ Result.ok m) →
      (∃ r ∈ msg.GetSet.GetRecords,
        ConvertIPFIXRecordToFlowMsg ipString r = Result.runtimePanic) ∧
      ConvertIPFIXMsgToFlowMsgs ipString msg = Result.runtimePanic) ∧
    ConvertIPFIXMsgToFlowMsgs exampleIPString exampleMessage =
      Result.ok (some
        [{ TimeReceived := 1257894000, SequenceNumber := 7, ObsDomainID := 1,
           ExportAddress := "127.0.0.1", SrcIP := "10.0.0.1", Proto := 6,
           PacketsTotal := 1000, DstPodName := "pod2" },
         { TimeReceived := 1257894000, SequenceNumber := 7, ObsDomainID := 1,
           ExportAddress := "127.0.0.1", DstIP := "10.0.0.2", DstPort := 5678 }]) ∧
    ConvertIPFIXMsgToFlowMsgs exampleIPString
        { exampleMessage with
          GetSet := { GetSetType := ContentType.Data,
                      GetRecords := [exampleRecord, mistypedRecord] } } =
      Result.runtimePanic := by
  refine ⟨?_, ?_, ?_, by decide, by decide⟩
  · intro ht
    simp only [ConvertIPFIXMsgToFlowMsgs, ht, if_true]
  · intro ht hall
    obtain ⟨ms, hms⟩ := forall₂_of_all_ok ipString msg.GetSet.GetRecords hall
    refine ⟨ms.map (withMessageFields msg), ?_, ?_, ?_⟩
    · simp only [ConvertIPFIXMsgToFlowMsgs, ht, if_false, convertRecords_ok ipString msg hms,
        Result.andThen]
    · rw [List.length_map]; exact hms.length_eq.symm
    · intro i hr hf
      have hm : i < ms.length := by rw [List.length_map] at hf; exact hf
      exact ⟨ms.get ⟨i, hm⟩, forall₂_get hms i hr hm, by simp⟩
  · intro ht hn
    have hp : ∃ r ∈ msg.GetSet.GetRecords,
        ConvertIPFIXRecordToFlowMsg ipString r = Result.runtimePanic := by
      obtain ⟨r, hr, hno⟩ := hn
      refine ⟨r, hr, ?_⟩
      cases hc : ConvertIPFIXRecordToFlowMsg ipString r with
      | ok m => exact absurd hc (hno m)
      | error e => exact absurd hc (addAllFieldsToFlowType2_notError ipString r {} e)
      | runtimePanic => rfl
    refine ⟨hp, ?_⟩
    simp only [ConvertIPFIXMsgToFlowMsgs, ht, if_false,
      convertRecords_panics ipString msg msg.GetSet.GetRecords hp, Result.andThen]

/-- C21 as stated fails: the message with the data set of the two records
`exampleRecord` and `mistypedRecord`, whose `flowStartSeconds` holds a 64-bit
value where the switch asserts `uint32`, is no template message, and
`ConvertIPFIXMsgToFlowMsgs` panics on it, so it returns no two flow messages;
`ConvertIPFIXRecordToFlowMsg` panics on the mistyped record as well. -/
theorem convertMsg_panics_on_mistyped_record :
    mistypedMessage.GetSet.GetSetType ≠ ContentType.Template ∧
      mistypedMessage.GetSet.GetRecords = [exampleRecord, mistypedRecord] ∧
      ConvertIPFIXMsgToFlowMsgs exampleIPString mistypedMessage = Result.runtimePanic ∧
      (¬ ∃ flowMsgs, ConvertIPFIXMsgToFlowMsgs exampleIPString mistypedMessage =
          Result.ok (some flowMsgs) ∧
        flowMsgs.length = mistypedMessage.GetSet.GetRecords.length) ∧
      ConvertIPFIXRecordToFlowMsg exampleIPString mistypedRecord = Result.runtimePanic := by
  refine ⟨by decide, rfl, by decide, ?_, by decide⟩
  rintro ⟨flowMsgs, h, _⟩
  have hp : ConvertIPFIXMsgToFlowMsgs exampleIPString mistypedMessage =
      Result.runtimePanic := by decide
  rw [hp] at h
  cases h

/-- C22: template installation is atomic. Whenever `decodeTemplateRecord` returns
an error on a template set body, the body ends before `(templateID, fieldCount)`
or before all `fieldCount` field specifiers are read, the collecting process
after the call equals the one before it, so every cache entry, the one under the
record's own key included, reads as before, and `DecodeMessage` on a message
with that body returns the error and leaves the cache as it was. -/
theorem decodeTemplateRecord_error_keeps_cache (cp : CollectingProcess) (body : List Byte)
    (obsDomainID : Nat) (e : Err)
    (herr : (decodeTemplateRecord cp body obsDomainID).1 = Result.error e) :
    (body.length < 4 ∨ specTemplateFields (beAt body 2 2) (body.drop 4) = none) ∧
      (decodeTemplateRecord cp body obsDomainID).2.1 = cp ∧
      (∀ d t, lookupTemplate (decodeTemplateRecord cp body obsDomainID).2.1 d t =
        lookupTemplate cp d t) ∧
      (∀ msgBuffer : List Byte, 20 ≤ msgBuffer.length → beAt msgBuffer 0 2 = 10 →
        beAt msgBuffer 16 2 = 2 → beAt msgBuffer 12 4 = obsDomainID →
        msgBuffer.drop 20 = body →
        (DecodeMessage cp msgBuffer).1 = Result.error (Err.decodingMessage e) ∧
          (DecodeMessage cp msgBuffer).2.1 = cp) := by
  obtain ⟨htrunc, rest, he⟩ := decodeTemplateRecord_error_state herr
  refine ⟨htrunc, by rw [he], fun d t => by rw [he], ?_⟩
  intro msgBuffer hlen hv hset hdom hbody
  rw [decodeMessage_of_header cp hlen, hv, hset, hdom, hbody]
  simp only [ne_eq, not_true_eq_false, if_false, if_true, he, and_self]

theorem decodeTemplateRecord_error_keeps_cache_witness :
    (decodeTemplateRecord (addTemplate exampleProcess 1 256 [⟨8, 4, 0⟩, ⟨7, 2, 0⟩])
        ((templatePacketIPv4.drop 20).take 80) 1).1 =
        Result.error (Err.decodingMessage Err.EOF) ∧
      lookupTemplate
        (decodeTemplateRecord (addTemplate exampleProcess 1 256 [⟨8, 4, 0⟩, ⟨7, 2, 0⟩])
          ((templatePacketIPv4.drop 20).take 80) 1).2.1 1 256 =
        some [⟨8, 4, 0⟩, ⟨7, 2, 0⟩] :=
  ⟨by decide, by
    rw [(decodeTemplateRecord_error_keeps_cache
      (addTemplate exampleProcess 1 256 [⟨8, 4, 0⟩, ⟨7, 2, 0⟩])
      ((templatePacketIPv4.drop 20).take 80) 1 (Err.decodingMessage Err.EOF)
      (by decide)).2.2.1 1 256]
    decide⟩

/-- C23: for every cached template of `n` fields whose elements are known to the
registries and every data set body, of any length, `decodeDataRecord` returns
exactly `n` data fields and no error; the i-th field has the data type
`getDataType` gives for the i-th template field and its value is the i-th
`Next` of the body, at most `ElementLength` bytes taken after the values before
it; the concatenation of the values is a prefix of the body, the first
`sum of the ElementLength values` bytes of it; and the call consumes
`min(body length, sum of the ElementLength values)` bytes and leaves the cache
as it was. -/
theorem decodeDataRecord_one_field_per_template_field (cp : CollectingProcess)
    (body : List Byte) (obsDomainID templateID : Nat) (template : List TemplateField)
    (hcached : lookupTemplate cp obsDomainID templateID = some template)
    (hknown : ∀ f ∈ template, knownToRegistries cp f = true) :
    ∃ records rest,
      decodeDataRecord cp body obsDomainID templateID = (Result.ok records, cp, rest) ∧
      records.length = template.length ∧
      (∀ (i : Nat) (ht : i < template.length) (hr : i < records.length),
        getDataType cp (template.get ⟨i, ht⟩) = Result.ok (records.get ⟨i, hr⟩).DataType ∧
        (records.get ⟨i, hr⟩).Value =
          (body.drop ((template.take i).map TemplateField.ElementLength).sum).take
            (template.get ⟨i, ht⟩).ElementLength) ∧
      (records.map DataField.Value).flatten =
        body.take (template.map TemplateField.ElementLength).sum ∧
      (records.map DataField.Value).flatten <+: body ∧
      (records.map DataField.Value).flatten ++ rest = body ∧
      body.length - rest.length =
        min body.length (template.map TemplateField.ElementLength).sum := by
  obtain ⟨records, hrec, hty, hval⟩ :=
    decodeDataRecord_types cp body obsDomainID templateID template hcached hknown
  have hjoin : (records.map DataField.Value).flatten =
      body.take (template.map TemplateField.ElementLength).sum := by
    rw [hval, nextValues_join]
  refine ⟨records, _, hrec, hty.length_eq.symm, ?_, hjoin, ?_, ?_, ?_⟩
  · intro i ht hr
    refine ⟨forall₂_get hty i ht hr, ?_⟩
    have hv : i < (nextValues (template.map TemplateField.ElementLength) body).length := by
      rw [nextValues_length, List.length_map]; exact ht
    have hm : i < (records.map DataField.Value).length := by
      rw [List.length_map]; exact hr
    have h1 : (records.get ⟨i, hr⟩).Value = (records.map DataField.Value).get ⟨i, hm⟩ := by
      simp
    have h2 : (records.map DataField.Value).get ⟨i, hm⟩ =
        (nextValues (template.map TemplateField.ElementLength) body).get ⟨i, hv⟩ :=
      get_of_eq hval i hm hv
    rw [h1, h2, nextValues_get _ body i (by rw [List.length_map]; exact ht) hv]
    simp [List.map_take]
  · rw [hjoin]; exact List.take_prefix _ _
  · rw [hjoin]; exact List.take_append_drop _ _
  · rw [List.length_drop]; omega

theorem decodeDataRecord_one_field_per_template_field_witness :
    (lookupTemplate (addTemplate exampleProcess 1 256 [⟨8, 4, 0⟩, ⟨7, 2, 0⟩]) 1 256 =
        some [⟨8, 4, 0⟩, ⟨7, 2, 0⟩] ∧
      ∀ f ∈ [(⟨8, 4, 0⟩ : TemplateField), ⟨7, 2, 0⟩],
        knownToRegistries (addTemplate exampleProcess 1 256 [⟨8, 4, 0⟩, ⟨7, 2, 0⟩]) f = true) ∧
      ∃ records rest,
        decodeDataRecord (addTemplate exampleProcess 1 256 [⟨8, 4, 0⟩, ⟨7, 2, 0⟩])
          [10, 0, 0, 1, 0x1f] 1 256 =
          (Result.ok records, addTemplate exampleProcess 1 256 [⟨8, 4, 0⟩, ⟨7, 2, 0⟩], rest) ∧
        records.length = 2 ∧
        (records.map DataField.Value).flatten <+: [10, 0, 0, 1, 0x1f] ∧
        [(10 : Byte), 0, 0, 1, 0x1f].length - rest.length = 5 := by
  refine ⟨⟨by decide, by decide⟩, ?_⟩
  obtain ⟨records, rest, h, hl, _, _, hp, _, hc⟩ :=
    decodeDataRecord_one_field_per_template_field
      (addTemplate exampleProcess 1 256 [⟨8, 4, 0⟩, ⟨7, 2, 0⟩]) [10, 0, 0, 1, 0x1f] 1 256
      [⟨8, 4, 0⟩, ⟨7, 2, 0⟩] (by decide) (by decide)
  exact ⟨records, rest, h, hl, hp, hc⟩

end Collector
